import Mathlib

/-!
# gorfbot: command registry and message dispatcher

A shallow embedding of `botcmd/registry.go`, `botcmd/command.go` and
`bot/bot.go`.

Conventions of the embedding.

* A Go pointer or interface value that may be nil is an `Option`.
* A Go `map[string]*T` is an association list `GoMap T`; indexing a missing key
  gives `none` (Go's nil), assignment replaces the binding of the key.
* A Go `error` is an `Option String` carrying the error text; `none` is nil.
* Strings are Lean strings; the helpers of Go's `strings` package that the
  dispatcher calls are modelled over the character list of the string.
* The dispatcher's calls into its collaborators (handlers, the Slack client,
  the logger, the registry lookup) are recorded, in program order, as a list of
  `Event`s.  A nil dereference ends the run with `panicked := true`.
* A handler's `Run` is a function of its arguments: handlers are opaque to the
  dispatcher, and their private state is outside of this development.
-/

set_option autoImplicit false
set_option linter.dupNamespace false

namespace Gorfbot

/-! ## Go's `strings` helpers used by the dispatcher -/

namespace strings

/-- Character-list core of `strings.Split(s, sep)` for a one-character
separator: the fields between the separators, always at least one field. -/
def splitChars (sep : Char) : List Char → List (List Char)
  | [] => [[]]
  | c :: cs =>
    if c = sep then [] :: splitChars sep cs
    else
      match splitChars sep cs with
      | [] => [[c]]
      | w :: ws => (c :: w) :: ws

/-- Character-list core of `strings.Join(elems, sep)` for a one-character
separator. -/
def joinChars (sep : Char) : List (List Char) → List Char
  | [] => []
  | [w] => w
  | w :: w2 :: ws => w ++ sep :: joinChars sep (w2 :: ws)

/-- Model of `strings.Split(s, sep)` where `sep` is one character. -/
def Split (s : String) (sep : Char) : List String :=
  (splitChars sep s.data).map String.mk

/-- Model of `strings.Join(elems, sep)` where `sep` is one character. -/
def Join (elems : List String) (sep : Char) : String :=
  String.mk (joinChars sep (elems.map String.data))

/-- Model of `strings.HasPrefix(s, prefix)`. -/
def HasPrefix (s pre : String) : Bool :=
  pre.data.isPrefixOf s.data

/-- Model of `strings.TrimPrefix(s, prefix)`: `s` without the leading `prefix`,
or `s` itself when it does not start with `prefix`. -/
def TrimPrefix (s pre : String) : String :=
  if HasPrefix s pre then String.mk (s.data.drop pre.data.length) else s

end strings

/-! ## Data model (`slack/slack.go`, `botcmd/command.go`) -/

/-- The struct `slack.Message`. -/
structure Message where
  ChannelID : String
  UserID : String
  Text : String
  Timestamp : String
  deriving DecidableEq, Repr

/-- The struct `slack.Reaction`. -/
structure Reaction where
  User : String
  Reaction : String
  Timestamp : String
  Removed : Bool
  deriving DecidableEq, Repr

/-- The interface `storage.Storage`.  The dispatcher only passes it on, so it
is an opaque handle here. -/
structure Storage where
  handle : Nat
  deriving DecidableEq, Repr

/-- The interface `slack.Client`, restricted to the methods the dispatcher
calls.  `SendMessage` returns nothing and is only recorded as an event. -/
structure Client where
  BotID : String
  UserName : String → String
  AddReaction : String → Option Message → Option String

/-- The struct `botcmd.RunContext`. -/
structure RunContext where
  Message : Option Message
  Storage : Storage
  Slack : Client

/-- The struct `botcmd.RunResult`. -/
structure RunResult where
  Message : String
  Reactji : List String
  deriving DecidableEq, Repr

/-- The compiled `*regexp.Regexp` of the standard library: its source text and
its `FindAllStringSubmatch(s, -1)`. -/
structure Regexp where
  expr : String
  FindAllStringSubmatch : String → List (List String)

/-- The interface `botcmd.CommandHandler` (method `Run`). -/
structure CommandHandler where
  Run : String → RunContext → RunResult × Option String

/-- The interface `botcmd.PatternHandler` (method `Run`). -/
structure PatternHandler where
  Run : List (List String) → RunContext → RunResult × Option String

/-- The interface `botcmd.ReactionHandler` (method `Run`). -/
structure ReactionHandler where
  Run : Option Reaction → RunContext → Option String

/-- The struct `botcmd.BasicCommand`. -/
structure BasicCommand where
  Name : String
  Description : String
  Icon : String
  Handler : Option CommandHandler

/-- The struct `botcmd.PatternCommand`. -/
structure PatternCommand where
  Name : String
  Handler : Option PatternHandler
  Pattern : Option Regexp

/-- The struct `botcmd.ReactionCommand`. -/
structure ReactionCommand where
  Name : String
  Handler : Option ReactionHandler

/-! ## Go maps keyed by string -/

/-- A `map[string]*T` whose values are non-nil pointers. -/
abbrev GoMap (α : Type) := List (String × α)

namespace GoMap

/-- Map indexing `m[k]`: the bound value, or `none` (nil) for a missing key. -/
def get {α : Type} (m : GoMap α) (k : String) : Option α :=
  match m with
  | [] => none
  | (k', v) :: rest => if k' = k then some v else get rest k

/-- The `found` flag of `_, found := m[k]`. -/
def found {α : Type} (m : GoMap α) (k : String) : Bool :=
  (get m k).isSome

/-- Map assignment `m[k] = v`. -/
def set {α : Type} (m : GoMap α) (k : String) (v : α) : GoMap α :=
  (k, v) :: m.filter (fun p => decide (p.1 ≠ k))

end GoMap

/-! ## `botcmd/registry.go` -/

/-- The struct `botcmd.CommandRegistry`. -/
structure CommandRegistry where
  cmdsList : List BasicCommand
  cmdsMap : GoMap BasicCommand
  patternsList : List PatternCommand
  patternsMap : GoMap PatternCommand
  reactionHandlerList : List ReactionCommand
  reactionHandlerMap : GoMap ReactionCommand

/-- Function `NewRegistry()`. -/
def NewRegistry : CommandRegistry :=
  { cmdsList := [], cmdsMap := [],
    patternsList := [], patternsMap := [],
    reactionHandlerList := [], reactionHandlerMap := [] }

namespace CommandRegistry

/-- Method `AddCommand(cmd)`: the registry after the call and the returned flag. -/
def AddCommand (c : CommandRegistry) (cmd : Option BasicCommand) :
    CommandRegistry × Bool :=
  match cmd with
  | none => (c, false)
  | some cmd =>
    if GoMap.found c.cmdsMap cmd.Name then (c, false)
    else if cmd.Name = "" then (c, false)
    else if cmd.Handler.isNone then (c, false)
    else
      ({ c with cmdsList := c.cmdsList ++ [cmd],
                cmdsMap := GoMap.set c.cmdsMap cmd.Name cmd }, true)

/-- Method `GetCommands()`. -/
def GetCommands (c : CommandRegistry) : List BasicCommand := c.cmdsList

/-- Method `GetCommand(cmdName)`. -/
def GetCommand (c : CommandRegistry) (cmdName : String) : Option BasicCommand :=
  GoMap.get c.cmdsMap cmdName

/-- Method `AddPattern(cmd)`: the registry after the call and the returned flag. -/
def AddPattern (c : CommandRegistry) (cmd : Option PatternCommand) :
    CommandRegistry × Bool :=
  match cmd with
  | none => (c, false)
  | some cmd =>
    if GoMap.found c.patternsMap cmd.Name then (c, false)
    else if cmd.Name = "" then (c, false)
    else if cmd.Handler.isNone then (c, false)
    else if cmd.Pattern.isNone then (c, false)
    else
      ({ c with patternsList := c.patternsList ++ [cmd],
                patternsMap := GoMap.set c.patternsMap cmd.Name cmd }, true)

/-- Method `GetPatterns()`. -/
def GetPatterns (c : CommandRegistry) : List PatternCommand := c.patternsList

/-- Method `GetPattern(patternName)`. -/
def GetPattern (c : CommandRegistry) (patternName : String) : Option PatternCommand :=
  GoMap.get c.patternsMap patternName

/-- Method `AddReactionHandler(cmd)`: the registry after the call and the returned
flag. -/
def AddReactionHandler (c : CommandRegistry) (cmd : Option ReactionCommand) :
    CommandRegistry × Bool :=
  match cmd with
  | none => (c, false)
  | some cmd =>
    if cmd.Name = "" then (c, false)
    else if GoMap.found c.reactionHandlerMap cmd.Name then (c, false)
    else if cmd.Handler.isNone then (c, false)
    else
      ({ c with reactionHandlerList := c.reactionHandlerList ++ [cmd],
                reactionHandlerMap := GoMap.set c.reactionHandlerMap cmd.Name cmd }, true)

/-- Method `GetReactionHandlers()`. -/
def GetReactionHandlers (c : CommandRegistry) : List ReactionCommand :=
  c.reactionHandlerList

/-- Method `GetReactionHandler(cmdName)`. -/
def GetReactionHandler (c : CommandRegistry) (cmdName : String) : Option ReactionCommand :=
  GoMap.get c.reactionHandlerMap cmdName

end CommandRegistry

/-! ## Sequences of registrations -/

namespace CommandRegistry

/-- Successive `AddCommand` calls: the final registry and the returned flags. -/
def AddCommands (c : CommandRegistry) : List (Option BasicCommand) → CommandRegistry × List Bool
  | [] => (c, [])
  | cmd :: rest =>
    ((AddCommands (c.AddCommand cmd).1 rest).1,
     (c.AddCommand cmd).2 :: (AddCommands (c.AddCommand cmd).1 rest).2)

/-- Successive `AddPattern` calls: the final registry and the returned flags. -/
def AddPatterns (c : CommandRegistry) : List (Option PatternCommand) → CommandRegistry × List Bool
  | [] => (c, [])
  | cmd :: rest =>
    ((AddPatterns (c.AddPattern cmd).1 rest).1,
     (c.AddPattern cmd).2 :: (AddPatterns (c.AddPattern cmd).1 rest).2)

/-- Successive `AddReactionHandler` calls: the final registry and the returned
flags. -/
def AddReactionHandlers (c : CommandRegistry) :
    List (Option ReactionCommand) → CommandRegistry × List Bool
  | [] => (c, [])
  | cmd :: rest =>
    ((AddReactionHandlers (c.AddReactionHandler cmd).1 rest).1,
     (c.AddReactionHandler cmd).2 :: (AddReactionHandlers (c.AddReactionHandler cmd).1 rest).2)

end CommandRegistry

namespace GoMap

/-- The map after assigning the entries `xs` one after the other under their
keys. -/
def setAll {α : Type} (key : α → String) (m : GoMap α) (xs : List α) : GoMap α :=
  xs.foldl (fun acc x => set acc (key x) x) m

end GoMap

/-! ## Fixtures of the registry tests -/

/-- The sample command handler of the registry tests: it returns an empty
result and no error. -/
def mockCmdHandler : CommandHandler :=
  { Run := fun _ _ => ({ Message := "", Reactji := [] }, none) }

/-- The sample pattern handler of the registry tests. -/
def mockPatternHandler : PatternHandler :=
  { Run := fun _ _ => ({ Message := "", Reactji := [] }, none) }

/-- The sample reaction handler of the registry tests. -/
def mockReactionHandler : ReactionHandler :=
  { Run := fun _ _ => none }

/-- The expression `.*` of the registry tests.  It has no capture group and
`.` excludes the line break, so its successive matches are the lines of the
text (an empty match that abuts the preceding match is dropped by the
library). -/
def egRegexp : Regexp :=
  { expr := ".*",
    FindAllStringSubmatch := fun s => (strings.Split s '\n').map (fun l => [l]) }

/-- The registry of the tests after the entry named `valid` was accepted in
each of the three kinds. -/
def validRegistry : CommandRegistry :=
  let r1 := (NewRegistry.AddCommand
    (some { Name := "valid", Description := "", Icon := "", Handler := some mockCmdHandler })).1
  let r2 := (r1.AddPattern
    (some { Name := "valid", Handler := some mockPatternHandler, Pattern := some egRegexp })).1
  (r2.AddReactionHandler (some { Name := "valid", Handler := some mockReactionHandler })).1

/-- The commands `one`, `two`, `three` of `TestGlobalRegistry`. -/
def testCommands : List BasicCommand :=
  [ { Name := "one", Description := "", Icon := "", Handler := some mockCmdHandler },
    { Name := "two", Description := "", Icon := "", Handler := some mockCmdHandler },
    { Name := "three", Description := "", Icon := "", Handler := some mockCmdHandler } ]

/-- The patterns `one`, `two` of `TestGlobalRegistry`. -/
def testPatterns : List PatternCommand :=
  [ { Name := "one", Handler := some mockPatternHandler, Pattern := some egRegexp },
    { Name := "two", Handler := some mockPatternHandler, Pattern := some egRegexp } ]

/-- The reaction handlers `one`, `two` of `TestGlobalRegistry`. -/
def testReactionHandlers : List ReactionCommand :=
  [ { Name := "one", Handler := some mockReactionHandler },
    { Name := "two", Handler := some mockReactionHandler } ]

/-! ## `bot/bot.go`: the dispatcher -/

/-- The logrus levels the dispatcher logs at. -/
inductive LogLevel where
  | trace
  | info
  | warn
  | error
  deriving DecidableEq, Repr

/-- A call of the dispatcher into one of its collaborators.

* `log level format args`: a logger call with its format string and the
  arguments in order (a slice argument contributes its elements, a boolean its
  `%v` rendering, a regexp its source);
* `getCommand name`: the lookup `registry.GetCommand(name)`;
* `runCommand`, `runPattern`, `runReaction`: `Handler.Run` of the registry
  entry given, with the arguments given;
* `sendMessage`, `addReaction`: the `slack.Client` calls of the same name. -/
inductive Event where
  | log (level : LogLevel) (format : String) (args : List String)
  | getCommand (cmdName : String)
  | runCommand (cmd : BasicCommand) (text : String) (runCtx : RunContext)
  | runPattern (pattern : PatternCommand) (allSubmatches : List (List String))
      (runCtx : RunContext)
  | runReaction (handler : ReactionCommand) (reaction : Option Reaction) (runCtx : RunContext)
  | sendMessage (text : String) (channelID : String)
  | addReaction (reaction : String) (message : Option Message)

namespace Event

/-- Logger calls. -/
def isLog : Event → Bool
  | log _ _ _ => true
  | _ => false

/-- Registry lookups by command name. -/
def isLookup : Event → Bool
  | getCommand _ => true
  | _ => false

/-- Handler invocations of any kind. -/
def isRun : Event → Bool
  | runCommand _ _ _ => true
  | runPattern _ _ _ => true
  | runReaction _ _ _ => true
  | _ => false

/-- Replies sent to a channel. -/
def isSend : Event → Bool
  | sendMessage _ _ => true
  | _ => false

/-- Reaction requests. -/
def isReaction : Event → Bool
  | addReaction _ _ => true
  | _ => false

/-- Calls to the Slack client: replies and reaction requests. -/
def isChat : Event → Bool
  | sendMessage _ _ => true
  | addReaction _ _ => true
  | _ => false

end Event

/-- The result of running a dispatcher function: the calls it made, in order,
and whether it ended in a panic (nil dereference, index out of range). -/
structure Outcome where
  events : List Event
  panicked : Bool

namespace Outcome

/-- Everything but the logger calls. -/
def actions (o : Outcome) : List Event :=
  o.events.filter (fun e => !e.isLog)

/-- Calls made before the run `o`. -/
def after (es : List Event) (o : Outcome) : Outcome :=
  { events := es ++ o.events, panicked := o.panicked }

/-- Sequential composition: `k` runs after `o` unless `o` panicked. -/
def andThen (o k : Outcome) : Outcome :=
  if o.panicked then o else { events := o.events ++ k.events, panicked := k.panicked }

end Outcome

/-- The struct `botImpl` (the logger is represented by the `log` events). -/
structure botImpl where
  storage : Storage
  slack : Client
  registry : CommandRegistry

namespace botImpl

/-- Method `runCtx(m)`. -/
def runCtx (b : botImpl) (m : Option Message) : RunContext :=
  { Message := m, Storage := b.storage, Slack := b.slack }

/-- The `for _, reactji := range reactions` loop of `addReactions`. -/
def addReactionsLoop (b : botImpl) (m : Option Message) : List String → List Event
  | [] => []
  | reactji :: rest =>
    Event.addReaction reactji m ::
      ((match b.slack.AddReaction reactji m with
        | some err => [Event.log LogLevel.error "Failed to add reaction: %v" [err]]
        | none => []) ++ addReactionsLoop b m rest)

/-- Method `addReactions(reactions, m)`. -/
def addReactions (b : botImpl) (reactions : List String) (m : Option Message) : List Event :=
  (if reactions.length > 0 then
      [Event.log LogLevel.info "Adding reactions: %q" reactions]
    else []) ++ addReactionsLoop b m reactions

/-- Method `handleRunResult(m, res)`; reading `m.ChannelID` of a nil `m` panics. -/
def handleRunResult (b : botImpl) (m : Option Message) (res : RunResult) : Outcome :=
  if res.Message ≠ "" then
    match m with
    | none =>
      { events := [Event.log LogLevel.trace "Posting returned msg %q" [res.Message]],
        panicked := true }
    | some msg =>
      { events := Event.log LogLevel.trace "Posting returned msg %q" [res.Message] ::
          Event.sendMessage res.Message msg.ChannelID :: b.addReactions res.Reactji m,
        panicked := false }
  else
    { events := b.addReactions res.Reactji m, panicked := false }

/-- The `for _, pattern := range b.registry.GetPatterns()` loop of
`tryMessageAsPattern`. -/
def tryPatterns (b : botImpl) (m : Option Message) : List PatternCommand → Outcome
  | [] => { events := [], panicked := false }
  | pattern :: rest =>
    match m, pattern.Pattern with
    | some msg, some re =>
      if (re.FindAllStringSubmatch msg.Text).length > 0 then
        match pattern.Handler with
        | none =>
          { events := [Event.log LogLevel.info "pattern %q matched with %q"
              [pattern.Name, re.expr]],
            panicked := true }
        | some h =>
          match h.Run (re.FindAllStringSubmatch msg.Text) (b.runCtx m) with
          | (_, some err) =>
            Outcome.after
              [Event.log LogLevel.info "pattern %q matched with %q" [pattern.Name, re.expr],
               Event.runPattern pattern (re.FindAllStringSubmatch msg.Text) (b.runCtx m),
               Event.log LogLevel.error "Pattern %q returned an error: %v" [pattern.Name, err]]
              (tryPatterns b m rest)
          | (res, none) =>
            Outcome.after
              [Event.log LogLevel.info "pattern %q matched with %q" [pattern.Name, re.expr],
               Event.runPattern pattern (re.FindAllStringSubmatch msg.Text) (b.runCtx m)]
              (Outcome.andThen (b.handleRunResult m res) (tryPatterns b m rest))
      else tryPatterns b m rest
    | _, _ => { events := [], panicked := true }

/-- Method `tryMessageAsPattern(m)`. -/
def tryMessageAsPattern (b : botImpl) (m : Option Message) : Outcome :=
  b.tryPatterns m b.registry.GetPatterns

/-- The text that `botHelp` builds in its buffer for the user name given. -/
def botHelpText (b : botImpl) (userName : String) : String :=
  ":wave: Hello " ++ userName ++ "\n" ++
  ":speech_balloon: I'm *Gorfbot* - Here are the commands I know:\n" ++
  String.join (b.registry.GetCommands.map (fun cmd =>
    "\t\t :three_button_mouse: " ++ cmd.Icon ++ " `!" ++ cmd.Name ++ "` - " ++
      cmd.Description ++ "\n")) ++
  ":speech_balloon: I'm also keeping track of\n" ++
  String.join (b.registry.GetPatterns.map (fun pattern =>
    "\t\t :eyes: _" ++ pattern.Name ++ "_\n")) ++
  String.join (b.registry.GetReactionHandlers.map (fun handler =>
    "\t\t :eyes: _" ++ handler.Name ++ "_\n")) ++
  ":speech_balloon: - To run a command say `!<command> [arguments]` in a channel/conversation that we're both in.\n" ++
  ":speech_balloon: - Most commands offer help, try `!<command> -h`, like `!emoji -h`\n" ++
  ":nose: :kissing_cat: Smell ya later!"

/-- Method `botHelp(m)`; reading `m.UserID` of a nil `m` panics. -/
def botHelp (b : botImpl) (m : Option Message) : Outcome :=
  match m with
  | none => { events := [], panicked := true }
  | some msg =>
    b.handleRunResult m
      { Message := b.botHelpText (b.slack.UserName msg.UserID), Reactji := [] }

/-- Method `handleCommandMessage(cmdName, rest, m)`. -/
def handleCommandMessage (b : botImpl) (cmdName : String) (rest : String)
    (m : Option Message) : Outcome :=
  if cmdName = "" then
    { events := [Event.log LogLevel.warn "Got empty command name in handleCommandMessage" []],
      panicked := false }
  else if cmdName = "help" ∨ cmdName = "-h" ∨ cmdName = "--help" then
    b.botHelp m
  else
    match b.registry.GetCommand cmdName with
    | none =>
      { events := Event.getCommand cmdName ::
          Event.log LogLevel.warn "Command %q not registered with bot" [cmdName] ::
          b.addReactions ["interrobang"] m,
        panicked := false }
    | some cmd =>
      match cmd.Handler with
      | none => { events := [Event.getCommand cmdName], panicked := true }
      | some h =>
        match h.Run rest (b.runCtx m) with
        | (_, some err) =>
          { events := Event.getCommand cmdName ::
              Event.runCommand cmd rest (b.runCtx m) ::
              Event.log LogLevel.error "Command %q returned an error: %v" [cmdName, err] ::
              b.addReactions ["negative_squared_cross_mark"] m,
            panicked := false }
        | (res, none) =>
          Outcome.after
            [Event.getCommand cmdName, Event.runCommand cmd rest (b.runCtx m)]
            (b.handleRunResult m res)

/-- Method `tryMessageAsCommand(m)`; reading `m.Text` of a nil `m` panics, and so would
`textWords[0]` on an empty slice. -/
def tryMessageAsCommand (b : botImpl) (m : Option Message) : Outcome :=
  match m with
  | none => { events := [], panicked := true }
  | some msg =>
    match strings.Split msg.Text ' ' with
    | [] => { events := [], panicked := true }
    | firstWord :: moreWords =>
      if (!strings.HasPrefix firstWord "!" && !strings.HasPrefix firstWord "<@") = true then
        { events := [Event.log LogLevel.trace
            "Received message didn't have cmd prefix or start with a mention" []],
          panicked := false }
      else
        Outcome.after
          [Event.log LogLevel.info
            "Processing potential command message, first word: %q hasCmdPrefix: %v hasMentionPrefix: %v\n"
            [firstWord, toString (strings.HasPrefix firstWord "!"),
             toString (strings.HasPrefix firstWord "<@")]]
          (if strings.HasPrefix firstWord "!" = true then
            Outcome.after
              [Event.log LogLevel.info "Processing heard cmd: %q with rest %q\n"
                [strings.TrimPrefix firstWord "!", strings.Join moreWords ' ']]
              (b.handleCommandMessage (strings.TrimPrefix firstWord "!")
                (strings.Join moreWords ' ') m)
          else if strings.HasPrefix firstWord "<@" = true then
            if firstWord ≠ "<@" ++ b.slack.BotID ++ ">" then
              { events := [Event.log LogLevel.info
                  "Message mention wasn't to bot: Got %q expected %q"
                  [firstWord, "<@" ++ b.slack.BotID ++ ">"]],
                panicked := false }
            else
              match moreWords with
              | [] =>
                { events := [Event.log LogLevel.info
                    "Message mention too short to be a command message" []],
                  panicked := false }
              | secondWord :: restWords =>
                Outcome.after
                  [Event.log LogLevel.info "Processing mentioned cmd: %q with rest %q\n"
                    [strings.TrimPrefix secondWord "!", strings.Join restWords ' ']]
                  (b.handleCommandMessage (strings.TrimPrefix secondWord "!")
                    (strings.Join restWords ' ') m)
          else { events := [], panicked := false })

end botImpl

/-! ## Tokens of a message text, in the words of the specification -/

/-- The first token of a text: everything before its first space. -/
def firstToken (text : String) : String :=
  String.mk (text.data.takeWhile (fun ch => decide (ch ≠ ' ')))

/-- Everything after the first space of a text; empty when it has no space. -/
def afterFirstSpace (text : String) : String :=
  String.mk ((text.data.dropWhile (fun ch => decide (ch ≠ ' '))).drop 1)

/-- Whether a text has a token after the first one, that is, holds a space. -/
def hasSecondToken (text : String) : Bool :=
  text.data.contains ' '

/-- The command name carried by a token: the token with one leading `!`
removed when it has one, the token itself otherwise. -/
def stripMarker (token : String) : String :=
  match token.data with
  | c :: cs => if c = '!' then String.mk cs else token
  | [] => token

/-- The reserved command names that lead to the help responder. -/
def isReserved (cmdName : String) : Bool :=
  cmdName = "help" || cmdName = "-h" || cmdName = "--help"

/-! ## Reachable registries -/

/-- The registries a program can hold: the fields of `CommandRegistry` are
private to the package, so every registry comes from `NewRegistry` by calls of
`AddCommand`, `AddPattern` and `AddReactionHandler`. -/
inductive CommandRegistry.Reachable : CommandRegistry → Prop where
  | new : CommandRegistry.Reachable NewRegistry
  | addCommand (c : CommandRegistry) (cmd : Option BasicCommand) :
      CommandRegistry.Reachable c → CommandRegistry.Reachable (c.AddCommand cmd).1
  | addPattern (c : CommandRegistry) (cmd : Option PatternCommand) :
      CommandRegistry.Reachable c → CommandRegistry.Reachable (c.AddPattern cmd).1
  | addReactionHandler (c : CommandRegistry) (cmd : Option ReactionCommand) :
      CommandRegistry.Reachable c → CommandRegistry.Reachable (c.AddReactionHandler cmd).1

/-! ## Fixtures of the dispatcher tests -/

/-- The mocked Slack client of the dispatcher tests: the bot is `U000` and
every reaction is accepted. -/
def mockClient : Client :=
  { BotID := "U000", UserName := fun _ => "", AddReaction := fun _ _ => none }

/-- The expression `hello (.*)` of `TestTryMessageAsPattern`: on each line of
the text the leftmost `hello ` starts a match that runs to the end of the line,
and the capture group is what follows `hello `. -/
def helloMatchLine : List Char → List (List String)
  | [] => []
  | c :: cs =>
    if "hello ".data.isPrefixOf (c :: cs) then
      [[String.mk (c :: cs), String.mk ((c :: cs).drop 6)]]
    else helloMatchLine cs

/-- The compiled expression `hello (.*)`. -/
def helloRegexp : Regexp :=
  { expr := "hello (.*)",
    FindAllStringSubmatch := fun s =>
      ((strings.splitChars '\n' s.data).map helloMatchLine).flatten }

/-- A bot with the mocked client and a fresh registry, as in
`TestHandleCommandMessageUnknownCmd`. -/
def emptyBot : botImpl :=
  { storage := { handle := 0 }, slack := mockClient, registry := NewRegistry }

/-- The command `test` of the dispatcher tests, with a handler that returns an
empty result and no error. -/
def testCommand : BasicCommand :=
  { Name := "test", Description := "", Icon := "", Handler := some mockCmdHandler }

/-- The bot of `TestTryMessageAsCommand`: the mocked client and a registry
holding the command `test`. -/
def testBot : botImpl :=
  { storage := { handle := 0 }, slack := mockClient,
    registry := (NewRegistry.AddCommand (some testCommand)).1 }

/-- A command handler that fails with the error `bogus`, as mocked in
`TestHandleCommandMessageError`; the result it returns along is not empty. -/
def failingCmdHandler : CommandHandler :=
  { Run := fun _ _ => ({ Message := "ignored", Reactji := ["thumbsup"] }, some "bogus") }

/-- The command `test` bound to the failing handler. -/
def failingCommand : BasicCommand :=
  { Name := "test", Description := "", Icon := "", Handler := some failingCmdHandler }

/-- A bot whose command `test` fails. -/
def failingBot : botImpl :=
  { storage := { handle := 0 }, slack := mockClient,
    registry := (NewRegistry.AddCommand (some failingCommand)).1 }

/-- The failing handler registered under the reserved name `help`. -/
def failingHelpCommand : BasicCommand :=
  { Name := "help", Description := "", Icon := "", Handler := some failingCmdHandler }

/-- A bot whose registry holds the failing command named `help`. -/
def failingHelpBot : botImpl :=
  { storage := { handle := 0 }, slack := mockClient,
    registry := (NewRegistry.AddCommand (some failingHelpCommand)).1 }

/-- A command registered under the reserved name `help`. -/
def helpCommand : BasicCommand :=
  { Name := "help", Description := "", Icon := "", Handler := some mockCmdHandler }

/-- A bot whose registry holds a command named `help`. -/
def helpBot : botImpl :=
  { storage := { handle := 0 }, slack := mockClient,
    registry := (NewRegistry.AddCommand (some helpCommand)).1 }

/-- A message with the text given, in channel `C000` from user `U111`. -/
def textMessage (text : String) : Message :=
  { ChannelID := "C000", UserID := "U111", Text := text, Timestamp := "1111" }

/-! ## The pattern phase, in the words of the specification -/

/-- The invocation a registered pattern is due on a message: none when its
expression finds nothing in the text, and otherwise its handler run on the
full list of submatches with a run context that holds the message, the storage
of the bot and its Slack client. -/
def patternRun (b : botImpl) (msg : Message) (p : PatternCommand) : Option Event :=
  match p.Pattern with
  | some re =>
    if (re.FindAllStringSubmatch msg.Text).length > 0 then
      some (Event.runPattern p (re.FindAllStringSubmatch msg.Text)
        { Message := some msg, Storage := b.storage, Slack := b.slack })
    else none
  | none => none

/-! ## Fixtures of the pattern tests -/

/-- The pattern `test` of `TestTryMessageAsPattern` with a handler that returns
the reply `hello world!!!`. -/
def helloPattern : PatternCommand :=
  { Name := "test",
    Handler := some { Run := fun _ _ => ({ Message := "hello world!!!", Reactji := [] }, none) },
    Pattern := some helloRegexp }

/-- The bot of `TestTryMessageAsPattern`. -/
def helloBot : botImpl :=
  { storage := { handle := 0 }, slack := mockClient,
    registry := (NewRegistry.AddPattern (some helloPattern)).1 }

/-- The pattern `hello (.*)` bound to a handler that fails with
`danger danger`, as in the error case of `TestTryMessageAsPattern`. -/
def failingPattern : PatternCommand :=
  { Name := "bad",
    Handler := some { Run := fun _ _ =>
      ({ Message := "never sent", Reactji := ["boom"] }, some "danger danger") },
    Pattern := some helloRegexp }

/-- A pattern matching every text, whose handler replies `hi` and reacts with
`wave`. -/
def greetPattern : PatternCommand :=
  { Name := "greet",
    Handler := some { Run := fun _ _ => ({ Message := "hi", Reactji := ["wave"] }, none) },
    Pattern := some egRegexp }

/-- A bot with the failing pattern registered before the greeting one. -/
def isolationBot : botImpl :=
  { storage := { handle := 0 }, slack := mockClient,
    registry :=
      ((NewRegistry.AddPattern (some failingPattern)).1.AddPattern (some greetPattern)).1 }

/-- The same bot without the failing pattern. -/
def greetBot : botImpl :=
  { storage := { handle := 0 }, slack := mockClient,
    registry := (NewRegistry.AddPattern (some greetPattern)).1 }

/-! ## `botcmd/registry.go`: configurables and the default registry -/

/-- The interface `botcmd.Configurable` as `GetConfigurables` produces it: a
handler of one of the three kinds, seen through its `Configure` method. -/
inductive Configurable where
  | command (h : CommandHandler)
  | pattern (h : PatternHandler)
  | reaction (h : ReactionHandler)

namespace CommandRegistry

/-- Method `GetConfigurables()`: a nil handler would be appended as a nil
`Configurable`. -/
def GetConfigurables (c : CommandRegistry) : List (Option Configurable) :=
  c.GetCommands.map (fun cmd => cmd.Handler.map Configurable.command) ++
  c.GetPatterns.map (fun p => p.Handler.map Configurable.pattern) ++
  c.GetReactionHandlers.map (fun h => h.Handler.map Configurable.reaction)

end CommandRegistry

/-- The result of a `MustAdd` function on the package variable
`DefaultRegistry`: the value of the variable afterwards and whether the call
panicked. -/
structure MustOutcome where
  registry : CommandRegistry
  panicked : Bool

/-- Function `MustAddCommand(cmd)` on the default registry given. -/
def MustAddCommand (DefaultRegistry : CommandRegistry) (cmd : Option BasicCommand) :
    MustOutcome :=
  if (!(DefaultRegistry.AddCommand cmd).2) = true then
    { registry := (DefaultRegistry.AddCommand cmd).1, panicked := true }
  else
    { registry := (DefaultRegistry.AddCommand cmd).1, panicked := false }

/-- Function `MustAddPattern(cmd)` on the default registry given. -/
def MustAddPattern (DefaultRegistry : CommandRegistry) (cmd : Option PatternCommand) :
    MustOutcome :=
  if (!(DefaultRegistry.AddPattern cmd).2) = true then
    { registry := (DefaultRegistry.AddPattern cmd).1, panicked := true }
  else
    { registry := (DefaultRegistry.AddPattern cmd).1, panicked := false }

/-- Function `MustAddReactionHandler(cmd)` on the default registry given. -/
def MustAddReactionHandler (DefaultRegistry : CommandRegistry)
    (cmd : Option ReactionCommand) : MustOutcome :=
  if (!(DefaultRegistry.AddReactionHandler cmd).2) = true then
    { registry := (DefaultRegistry.AddReactionHandler cmd).1, panicked := true }
  else
    { registry := (DefaultRegistry.AddReactionHandler cmd).1, panicked := false }

/-! ## `bot/bot.go`: reactions and the run loop -/

namespace botImpl

/-- The `for _, handler := range b.registry.GetReactionHandlers()` loop of
`tryReactionHandlers`; calling `Run` on a nil handler panics. -/
def tryReactions (b : botImpl) (reaction : Option Reaction) : List ReactionCommand → Outcome
  | [] => { events := [], panicked := false }
  | handler :: rest =>
    match handler.Handler with
    | none => { events := [], panicked := true }
    | some h =>
      match h.Run reaction (b.runCtx none) with
      | some err =>
        Outcome.after
          [Event.runReaction handler reaction (b.runCtx none),
           Event.log LogLevel.error "Reaction handler %q returned an error: %v"
             [handler.Name, err]]
          (tryReactions b reaction rest)
      | none =>
        Outcome.after [Event.runReaction handler reaction (b.runCtx none)]
          (tryReactions b reaction rest)

/-- Method `tryReactionHandlers(reaction)`. -/
def tryReactionHandlers (b : botImpl) (reaction : Option Reaction) : Outcome :=
  b.tryReactions reaction b.registry.GetReactionHandlers

end botImpl

/-- A value received by the `select` of `Run`: from `msgChan` or from
`reactionChan`. -/
inductive Inbound where
  | msg (m : Option Message)
  | reaction (r : Option Reaction)

namespace botImpl

/-- One iteration of the `for` loop of `Run`, for the value received. -/
def runIteration (b : botImpl) : Inbound → Outcome
  | Inbound.msg none => { events := [], panicked := false }
  | Inbound.msg (some msg) =>
    Outcome.after [Event.log LogLevel.trace "msg: %q" [msg.Text]]
      (Outcome.andThen (b.tryMessageAsPattern (some msg)) (b.tryMessageAsCommand (some msg)))
  | Inbound.reaction none => { events := [], panicked := false }
  | Inbound.reaction (some r) => b.tryReactionHandlers (some r)

/-- Method `Run()`, on the sequence of values its `select` receives: the
iterations one after the other, until one panics. -/
def Run (b : botImpl) : List Inbound → Outcome
  | [] => { events := [], panicked := false }
  | x :: rest => Outcome.andThen (b.runIteration x) (Run b rest)

end botImpl

/-! ## Store invariant and help text, in the words of the specification -/

/-- The invariant of one store of the registry, given the name of an entry,
what makes an entry complete, the ordered list and the lookup by name: no two
listed entries share a name, every listed entry has a non-empty name and is
complete, and a lookup returns an entry exactly when that entry is listed
under that name. -/
def StoreInv {α : Type} (name : α → String) (complete : α → Prop) (list : List α)
    (get : String → Option α) : Prop :=
  (list.map name).Nodup ∧
  (∀ x ∈ list, name x ≠ "" ∧ complete x) ∧
  (∀ n x, get n = some x ↔ (x ∈ list ∧ name x = n))

/-- The line of the help text for a basic command: icon, name as `!name`,
description. -/
def helpCommandLine (cmd : BasicCommand) : String :=
  "\t\t :three_button_mouse: " ++ cmd.Icon ++ " `!" ++ cmd.Name ++ "` - " ++ cmd.Description

/-- The line of the help text for the name of a pattern or of a reaction
handler. -/
def helpTrackLine (name : String) : String :=
  "\t\t :eyes: _" ++ name ++ "_"

/-- The lines of the help text: the greeting naming the user and the heading
of the commands, one line per command, the heading of what is tracked, one
line per pattern name, one line per reaction handler name, and the fixed usage
guidance. -/
def helpLines (userName : String) (cmds : List BasicCommand) (patterns : List PatternCommand)
    (handlers : List ReactionCommand) : List String :=
  [":wave: Hello " ++ userName,
   ":speech_balloon: I'm *Gorfbot* - Here are the commands I know:"] ++
  cmds.map helpCommandLine ++
  [":speech_balloon: I'm also keeping track of"] ++
  patterns.map (fun p => helpTrackLine p.Name) ++
  handlers.map (fun h => helpTrackLine h.Name) ++
  [":speech_balloon: - To run a command say `!<command> [arguments]` in a channel/conversation that we're both in.",
   ":speech_balloon: - Most commands offer help, try `!<command> -h`, like `!emoji -h`",
   ":nose: :kissing_cat: Smell ya later!"]

/-- Lines joined with a line break between consecutive lines. -/
def joinLines : List String → String
  | [] => ""
  | [l] => l
  | l :: l2 :: ls => l ++ "\n" ++ joinLines (l2 :: ls)

/-! ## Fixtures: the echo command and reaction handlers -/

/-- The handler of `botcmd/echo`: it fails on a nil message and otherwise
replies with its argument. -/
def echoCmd : CommandHandler :=
  { Run := fun text runCtx =>
      match runCtx.Message with
      | none => ({ Message := "", Reactji := [] }, some "echo cmd error: message was nil")
      | some _ => ({ Message := text, Reactji := [] }, none) }

/-- The command `echo` as `botcmd/echo` registers it. -/
def echoCommand : BasicCommand :=
  { Name := "echo", Description := "Have Garfbot echo a message", Icon := ":repeat:",
    Handler := some echoCmd }

/-- A bot whose registry holds the command `echo`. -/
def echoBot : botImpl :=
  { storage := { handle := 0 }, slack := mockClient,
    registry := (NewRegistry.AddCommand (some echoCommand)).1 }

/-- A reaction handler that fails with `bogus`. -/
def failingReaction : ReactionCommand :=
  { Name := "bad", Handler := some { Run := fun _ _ => some "bogus" } }

/-- A reaction handler that succeeds. -/
def quietReaction : ReactionCommand :=
  { Name := "quiet", Handler := some mockReactionHandler }

/-- A bot with the failing reaction handler registered before the quiet one. -/
def reactionBot : botImpl :=
  { storage := { handle := 0 }, slack := mockClient,
    registry := ((NewRegistry.AddReactionHandler (some failingReaction)).1.AddReactionHandler
      (some quietReaction)).1 }

/-- A reaction event. -/
def thumbsup : Reaction :=
  { User := "U111", Reaction := "thumbsup", Timestamp := "1111", Removed := false }

/-- A bot that knows the command `test`, the pattern `hello (.*)` and the
greeting pattern. -/
def fullBot : botImpl :=
  { storage := { handle := 0 }, slack := mockClient,
    registry := (((NewRegistry.AddCommand (some testCommand)).1.AddPattern
      (some helloPattern)).1.AddPattern (some greetPattern)).1 }

/-- The registry of `TestGlobalRegistry` after all its registrations. -/
def globalRegistry : CommandRegistry :=
  (((NewRegistry.AddCommands (testCommands.map some)).1.AddPatterns
    (testPatterns.map some)).1.AddReactionHandlers (testReactionHandlers.map some)).1

namespace Event

/-- Invocations of pattern handlers. -/
def isPatternRun : Event → Bool
  | runPattern _ _ _ => true
  | _ => false

/-- Calls that belong to the command phase alone: the registry lookup by
command name and the invocation of a command handler. -/
def isCommandCall : Event → Bool
  | getCommand _ => true
  | runCommand _ _ _ => true
  | _ => false

end Event

/-! ## Time values -/

/-- The standard library's `time.Time`, as far as the repository uses it: the
instant in nanoseconds since the Unix epoch and the offset east of UTC, in
seconds, of the location the value carries.  Durations are nanoseconds. -/
structure Time where
  unixNano : Int
  offset : Int
  deriving DecidableEq, Repr

namespace Time

/-- The zero value `time.Time{}`: January 1 of year 1, 00:00:00 UTC. -/
def zero : Time := { unixNano := -62135596800 * 1000000000, offset := 0 }

/-- Function `time.Unix(sec, 0)`: the result carries the local location of the
process, whose offset is given. -/
def Unix (localOffset : Int) (sec : Int) : Time :=
  { unixNano := sec * 1000000000, offset := localOffset }

/-- Method `t.Add(d)`. -/
def Add (t : Time) (d : Int) : Time := { t with unixNano := t.unixNano + d }

/-- Method `t.Before(u)`: comparison of the instants. -/
def Before (t u : Time) : Bool := decide (t.unixNano < u.unixNano)

/-- Method `t.UTC()`: the same instant in the location UTC. -/
def UTC (t : Time) : Time := { t with offset := 0 }

end Time

/-- The duration `time.Hour`. -/
def timeHour : Int := 3600 * 1000000000

/-! ## `slack/state.go`: the cache of users and conversations -/

/-- The struct `slack.Conversation`. -/
structure Conversation where
  ID : String
  Name : String
  deriving DecidableEq, Repr

/-- The struct `slack.User`. -/
structure User where
  ID : String
  Name : String
  deriving DecidableEq, Repr

/-- The fields of the library's `slack.Channel` that the cache reads. -/
structure ApiChannel where
  ID : String
  Name : String
  deriving DecidableEq, Repr

/-- The fields of the library's `slack.User` that the cache reads. -/
structure ApiUser where
  ID : String
  Name : String
  deriving DecidableEq, Repr

/-- The interface `SlackAPI`: `GetConversations` for the cursor of the request
(archived conversations excluded) and `GetUsers`; an error is its text. -/
structure SlackAPI where
  GetConversations : String → Except String (List ApiChannel × String)
  GetUsers : Except String (List ApiUser)

/-- A call to the `SlackAPI`. -/
inductive ApiCall where
  | getConversations (cursor : String)
  | getUsers
  deriving DecidableEq, Repr

/-- The struct `slackStateImpl` (lock and logger are not represented). -/
structure slackStateImpl where
  maxAge : Int
  lastUpdated : Time
  conversationsByID : GoMap Conversation
  conversationsByName : GoMap Conversation
  usersByID : GoMap User
  usersByName : GoMap User

/-- Function `newSlackStateImpl(log, config)` for the `StateMaxAge` of the
configuration, nil or set. -/
def newSlackStateImpl (StateMaxAge : Option Int) : slackStateImpl :=
  { maxAge := match StateMaxAge with
      | some d => d
      | none => timeHour,
    lastUpdated := Time.zero,
    conversationsByID := [], conversationsByName := [],
    usersByID := [], usersByName := [] }

/-- The two results `v, found := m[k]` of a map lookup; a missing key gives
the zero value. -/
def GoMap.lookup {α : Type} (zero : α) (m : GoMap α) (k : String) : α × Bool :=
  match GoMap.get m k with
  | some v => (v, true)
  | none => (zero, false)

/-- The outcome of a fetch from the API: none while the loop has not finished
within the iterations allowed, else the result or the error, and the calls
made. -/
structure Fetch (α : Type) where
  result : Option (Except String α)
  calls : List ApiCall

/-- The outcome of `Refresh`: the state afterwards, the returned error, the
calls made, and whether the call returned within the iterations allowed. -/
structure RefreshResult where
  state : slackStateImpl
  err : Option String
  calls : List ApiCall
  returned : Bool

/-- Function `getConversationsBatch(client, cursor)`. -/
def getConversationsBatch (client : SlackAPI) (cursor : String) :
    Except String (List ApiChannel × String) :=
  match client.GetConversations cursor with
  | Except.error err => Except.error ("slack getConversationsBatch err: " ++ err)
  | Except.ok r => Except.ok r

namespace slackStateImpl

/-- Method `MaxAge()`. -/
def MaxAge (s : slackStateImpl) : Int := s.maxAge

/-- Method `Stale()`, where `now` is the value of `time.Now()`. -/
def Stale (s : slackStateImpl) (now : Time) : Bool :=
  (s.lastUpdated.Add s.maxAge).Before now

/-- Method `Conversation(id)`. -/
def Conversation (s : slackStateImpl) (id : String) : Gorfbot.Conversation × Bool :=
  GoMap.lookup { ID := "", Name := "" } s.conversationsByID id

/-- Method `ConversationID(name)`. -/
def ConversationID (s : slackStateImpl) (name : String) : Gorfbot.Conversation × Bool :=
  GoMap.lookup { ID := "", Name := "" } s.conversationsByName name

/-- Method `User(id)`. -/
def User (s : slackStateImpl) (id : String) : Gorfbot.User × Bool :=
  GoMap.lookup { ID := "", Name := "" } s.usersByID id

/-- Method `UserID(username)`. -/
def UserID (s : slackStateImpl) (username : String) : Gorfbot.User × Bool :=
  GoMap.lookup { ID := "", Name := "" } s.usersByName username

/-- Method `users(client)`. -/
def users (client : SlackAPI) : Except String (List Gorfbot.User) :=
  match client.GetUsers with
  | Except.error err => Except.error ("slack client failed to get users: " ++ err)
  | Except.ok us => Except.ok (us.map (fun user => { ID := user.ID, Name := user.Name }))

/-- The `for cursor != ""` loop of `conversations`, for at most `fuel`
iterations: the API results gathered, or the error, and the calls made. -/
def conversationsLoop (client : SlackAPI) :
    Nat → String → Nat → List ApiChannel → Fetch (List ApiChannel)
  | 0, cursor, _, apiResults =>
    if cursor = "" then { result := some (Except.ok apiResults), calls := [] }
    else { result := none, calls := [] }
  | fuel + 1, cursor, batchNumber, apiResults =>
    if cursor = "" then { result := some (Except.ok apiResults), calls := [] }
    else
      match getConversationsBatch client cursor with
      | Except.error err =>
        { result := some (Except.error
            ("slack client failed to get conversations batch " ++ toString batchNumber ++
              ": " ++ err)),
          calls := [ApiCall.getConversations cursor] }
      | Except.ok (batch, nextCursor) =>
        { result := (conversationsLoop client fuel nextCursor (batchNumber + 1)
            (apiResults ++ batch)).result,
          calls := ApiCall.getConversations cursor ::
            (conversationsLoop client fuel nextCursor (batchNumber + 1)
              (apiResults ++ batch)).calls }

/-- Method `conversations(client)`, with at most `fuel` iterations of its
loop. -/
def conversations (client : SlackAPI) (fuel : Nat) : Fetch (List Gorfbot.Conversation) :=
  match getConversationsBatch client "" with
  | Except.error err =>
    { result := some (Except.error ("slack client failed to get conversations: " ++ err)),
      calls := [ApiCall.getConversations ""] }
  | Except.ok (firstBatch, cursor) =>
    { result :=
        match (conversationsLoop client fuel cursor 1 firstBatch).result with
        | none => none
        | some (Except.error err) => some (Except.error err)
        | some (Except.ok apiResults) =>
          some (Except.ok (apiResults.map
            (fun channel => { Name := channel.Name, ID := channel.ID }))),
      calls := ApiCall.getConversations "" ::
        (conversationsLoop client fuel cursor 1 firstBatch).calls }

/-- Method `Refresh(client, force)`, where `now` is the value of `time.Now()`
and `fuel` bounds the iterations of the conversation loop. -/
def Refresh (s : slackStateImpl) (client : SlackAPI) (force : Bool) (now : Time)
    (fuel : Nat) : RefreshResult :=
  if (!s.Stale now && !force) = true then
    { state := s, err := none, calls := [], returned := true }
  else
    match (conversations client fuel).result with
    | none =>
      { state := s, err := none, calls := (conversations client fuel).calls,
        returned := false }
    | some (Except.error err) =>
      { state := s, err := some err, calls := (conversations client fuel).calls,
        returned := true }
    | some (Except.ok convs) =>
      match users client with
      | Except.error err =>
        { state := s, err := some err,
          calls := (conversations client fuel).calls ++ [ApiCall.getUsers],
          returned := true }
      | Except.ok us =>
        { state :=
            { s with
              conversationsByID := GoMap.setAll Gorfbot.Conversation.ID [] convs,
              conversationsByName := GoMap.setAll Gorfbot.Conversation.Name [] convs,
              usersByID := GoMap.setAll Gorfbot.User.ID [] us,
              usersByName := GoMap.setAll Gorfbot.User.Name [] us },
          err := none,
          calls := (conversations client fuel).calls ++ [ApiCall.getUsers],
          returned := true }

end slackStateImpl

/-! ## Fixtures of the state tests -/

/-- The mocked API of the refresh tests: one batch with the conversations
`general` and `random`, and the users `Gorfbot` and `Garfbot`. -/
def mockAPI : SlackAPI :=
  { GetConversations := fun _ =>
      Except.ok ([{ ID := "C002", Name := "general" }, { ID := "C001", Name := "random" }], ""),
    GetUsers := Except.ok [{ ID := "U000", Name := "Gorfbot" }, { ID := "U001", Name := "Garfbot" }] }

/-- The mocked API of `TestRefreshUsersErr`: the user fetch fails. -/
def mockAPIUsersErr : SlackAPI :=
  { GetConversations := fun _ =>
      Except.ok ([{ ID := "C002", Name := "general" }, { ID := "C001", Name := "random" }], ""),
    GetUsers := Except.error "users are all gone man" }

/-- A state that holds one user and one conversation from an earlier
refresh. -/
def warmState : slackStateImpl :=
  { maxAge := timeHour, lastUpdated := Time.zero,
    conversationsByID := [("C009", { ID := "C009", Name := "old" })],
    conversationsByName := [("old", { ID := "C009", Name := "old" })],
    usersByID := [("U009", { ID := "U009", Name := "Odie" })],
    usersByName := [("Odie", { ID := "U009", Name := "Odie" })] }

/-- The instant 1607050812 seconds after the Unix epoch, in UTC. -/
def someNow : Time := { unixNano := 1607050812 * 1000000000, offset := 0 }

/-- The mocked API answering in two batches: the first request gives `general`
and the cursor `next`, the request for `next` gives `random` and no cursor. -/
def pagedAPI : SlackAPI :=
  { GetConversations := fun cursor =>
      if cursor = "" then Except.ok ([{ ID := "C002", Name := "general" }], "next")
      else if cursor = "next" then Except.ok ([{ ID := "C001", Name := "random" }], "")
      else Except.error "unknown cursor",
    GetUsers := Except.ok [{ ID := "U000", Name := "Gorfbot" }, { ID := "U001", Name := "Garfbot" }] }

/-- The API answers the requests for conversations that start at a cursor with
the pages given, each a batch and the next cursor: the request for the cursor
gives the first page, every page but the last has a next cursor, which is
requested next, and the last page has none. -/
def ServesFrom (client : SlackAPI) : String → List (List ApiChannel × String) → Prop
  | _, [] => False
  | cursor, page :: rest =>
    client.GetConversations cursor = Except.ok page ∧
      ((page.2 = "" ∧ rest = []) ∨ (page.2 ≠ "" ∧ ServesFrom client page.2 rest))

/-- The cursors requested for pages served one after the other from a
cursor. -/
def pageCursors : String → List (List ApiChannel × String) → List String
  | _, [] => []
  | cursor, page :: rest => cursor :: pageCursors page.2 rest

/-- The conversations of the pages, in the order served. -/
def pageConversations (pages : List (List ApiChannel × String)) : List Conversation :=
  ((pages.map Prod.fst).flatten).map (fun channel => { ID := channel.ID, Name := channel.Name })

/-- A lookup resolves exactly the entries of a fetched list under a key: a key
is found exactly when a fetched entry has it, what is found is a fetched entry
with that key, and a miss gives the zero value. -/
def ResolvesExactly {α : Type} (key : α → String) (zero : α) (fetched : List α)
    (lookup : String → α × Bool) : Prop :=
  ∀ n, ((lookup n).2 = true ↔ ∃ x ∈ fetched, key x = n) ∧
    ((lookup n).2 = true → (lookup n).1 ∈ fetched ∧ key (lookup n).1 = n) ∧
    ((lookup n).2 = false → (lookup n).1 = zero)

/-! ## `botcmd/rarepattern`: URL patterns -/

/-- Method `MatchString(s)` of the library's `*regexp.Regexp`: whether the
expression finds a match in `s`, that is, whether find-all is non-empty. -/
def Regexp.MatchString (re : Regexp) (s : String) : Bool :=
  decide ((re.FindAllStringSubmatch s).length > 0)

/-- The fields of the library's `url.URL` that the pattern reads. -/
structure URL where
  Host : String
  Path : String
  deriving DecidableEq, Repr

/-- The struct `config.URLConfig`. -/
structure URLConfig where
  HostPattern : String
  PathPattern : String
  Collection : String
  FirstMsg : String
  Reactji : List String
  deriving DecidableEq, Repr

/-- The struct `urlPattern`. -/
structure urlPattern where
  HostRegexp : Option Regexp
  PathRegexp : Option Regexp
  Collection : String
  FirstMsg : String
  Reactji : List String

/-- The errors of `newURLPattern`: `errEmpty` with what is empty, and the
wrapped compile errors of the host and of the path pattern. -/
inductive urlPatternError where
  | errEmpty (what : String)
  | hostpattern (pattern : String) (err : String)
  | pathpattern (pattern : String) (err : String)
  deriving DecidableEq, Repr

/-- Method `Matches(log, url)`; the result is none when the call panics on a
nil host expression. -/
def urlPattern.Matches (u : urlPattern) (url : URL) : Option String :=
  match u.PathRegexp with
  | none => some ""
  | some pathRe =>
    match u.HostRegexp with
    | none => none
    | some hostRe =>
      if (!hostRe.MatchString url.Host) = true then some ""
      else if (!pathRe.MatchString url.Path) = true then some ""
      else some u.Collection

/-- Function `newURLPattern(urlConf)`, where `Compile` is the library's
`regexp.Compile`. -/
def newURLPattern (Compile : String → Except String Regexp) (urlConf : URLConfig) :
    Except urlPatternError urlPattern :=
  if urlConf.HostPattern = "" then Except.error (urlPatternError.errEmpty "hostpattern")
  else if urlConf.Collection = "" then Except.error (urlPatternError.errEmpty "collection")
  else
    match Compile urlConf.HostPattern with
    | Except.error err => Except.error (urlPatternError.hostpattern urlConf.HostPattern err)
    | Except.ok hostRegex =>
      if urlConf.PathPattern ≠ "" then
        match Compile urlConf.PathPattern with
        | Except.error err =>
          Except.error (urlPatternError.pathpattern urlConf.PathPattern err)
        | Except.ok r =>
          Except.ok { HostRegexp := some hostRegex, PathRegexp := some r,
                      Collection := urlConf.Collection, FirstMsg := urlConf.FirstMsg,
                      Reactji := urlConf.Reactji }
      else
        Except.ok { HostRegexp := some hostRegex, PathRegexp := none,
                    Collection := urlConf.Collection, FirstMsg := urlConf.FirstMsg,
                    Reactji := urlConf.Reactji }

/-- A compiler that accepts every pattern as the expression `.*`, which
matches every text. -/
def compileAny (pattern : String) : Except String Regexp :=
  Except.ok { egRegexp with expr := pattern }

/-- A URL configuration with a host pattern and a collection and no path
pattern. -/
def hostOnlyConfig : URLConfig :=
  { HostPattern := ".*", PathPattern := "", Collection := "examples", FirstMsg := "",
    Reactji := [] }

/-- The pattern that `newURLPattern` builds from the configuration without
path pattern. -/
def hostOnlyPattern : urlPattern :=
  { HostRegexp := some { egRegexp with expr := ".*" }, PathRegexp := none,
    Collection := "examples", FirstMsg := "", Reactji := [] }

/-! ## `botcmd/reactjikeys`: reactions for keywords -/

/-- The struct `config.ReactjiKeysConfig`. -/
structure ReactjiKeysConfig where
  Keywords : GoMap (List String)

/-- The errors of `reactjikeysPattern.Run`: the variable
`errAllSubmatchesEmpty` and the struct `errUnexpectedSubmatchLen`. -/
inductive reactjikeysError where
  | errAllSubmatchesEmpty
  | errUnexpectedSubmatchLen (got : List String)
  deriving DecidableEq, Repr

/-- Lexicographic comparison of two character lists, the order `<=` of Go
strings (the order of the UTF-8 bytes is the order of the code points). -/
def charsLE : List Char → List Char → Bool
  | [], _ => true
  | _ :: _, [] => false
  | a :: as, b :: bs => if a < b then true else if b < a then false else charsLE as bs

/-- The order `a <= b` of two strings. -/
def strLE (a b : String) : Prop := charsLE a.data b.data = true

instance : DecidableRel strLE :=
  fun a b => inferInstanceAs (Decidable (charsLE a.data b.data = true))

/-- Function `sort.Strings`: the strings in increasing order. -/
def sortStrings (l : List String) : List String :=
  l.insertionSort strLE

/-- The keys of a map, in some order of iteration. -/
def GoMap.keys {α : Type} (m : GoMap α) : List String := m.map Prod.fst

namespace reactjikeysPattern

/-- The inner loop `for _, r := range reactions` filling the reactions map. -/
def addAll (reactionsMap : GoMap Bool) : List String → GoMap Bool
  | [] => reactionsMap
  | r :: rest => addAll (GoMap.set reactionsMap r true) rest

/-- The loop `for _, submatches := range allSubmatches` of `Run`: the
reactions map at the end, or the error that ends the loop.  `ToLower` is the
library's `strings.ToLower`. -/
def collect (ToLower : String → String) (config : ReactjiKeysConfig) (reactionsMap : GoMap Bool) :
    List (List String) → Except reactjikeysError (GoMap Bool)
  | [] => Except.ok reactionsMap
  | submatches :: rest =>
    match submatches with
    | [_, second] =>
      match GoMap.get config.Keywords (ToLower second) with
      | some reactions => collect ToLower config (addAll reactionsMap reactions) rest
      | none => collect ToLower config reactionsMap rest
    | _ => Except.error (reactjikeysError.errUnexpectedSubmatchLen submatches)

/-- Method `Run(allSubmatches, runCtx)` of `reactjikeysPattern` with the
configuration given; the run context is not read and the logger calls are
left out. -/
def Run (ToLower : String → String) (config : ReactjiKeysConfig)
    (allSubmatches : List (List String)) : RunResult × Option reactjikeysError :=
  if allSubmatches.length < 1 then
    ({ Message := "", Reactji := [] }, some reactjikeysError.errAllSubmatchesEmpty)
  else
    match collect ToLower config [] allSubmatches with
    | Except.error err => ({ Message := "", Reactji := [] }, some err)
    | Except.ok reactionsMap =>
      ({ Message := "", Reactji := sortStrings (GoMap.keys reactionsMap) }, none)

end reactjikeysPattern

/-- The reactions of the keywords that the second elements of the submatches
spell, whatever their letter case. -/
def keywordReactions (ToLower : String → String) (config : ReactjiKeysConfig)
    (allSubmatches : List (List String)) (r : String) : Prop :=
  ∃ submatches ∈ allSubmatches, ∃ first second reactions,
    submatches = [first, second] ∧
    GoMap.get config.Keywords (ToLower second) = some reactions ∧ r ∈ reactions

/-- The matched words of the submatches, lower-cased: the second element of
each submatch (`submatches[1]`) through `ToLower`. -/
def loweredWords (ToLower : String → String) (allSubmatches : List (List String)) :
    List String :=
  allSubmatches.map (fun submatches => ToLower (submatches.getD 1 ""))

/-- A list of strings is strictly ascending: sorted, with no string twice. -/
def StrictlyAscending (l : List String) : Prop :=
  List.Pairwise (fun a b => strLE a b ∧ a ≠ b) l

/-- The configuration of `TestRun`: `hello` gives `wave`, `goodbye` gives
`wave` and `cry`. -/
def testKeywords : ReactjiKeysConfig :=
  { Keywords := [("hello", ["wave"]), ("goodbye", ["wave", "cry"])] }

/-- Lower-casing of the letters A to Z, which is what `strings.ToLower` does on
the texts of the tests. -/
def asciiToLower (s : String) : String := String.mk (s.data.map Char.toLower)


/-! ## `slack/timestamp.go`: Slack timestamps -/

/-- The two errors of the library's `strconv` number parsing, `ErrSyntax` and
`ErrRange`. -/
inductive NumError where
  | ErrSyntax
  | ErrRange
  deriving DecidableEq, Repr

namespace strconv

/-- The value of a decimal digit; `none` for every other character, which
`ParseUint` in base 10 rejects with `ErrSyntax`. -/
def digitVal (c : Char) : Option Nat :=
  if '0' ≤ c ∧ c ≤ '9' then some (c.toNat - '0'.toNat) else none

/-- The largest `uint64`. -/
def maxUint64 : Nat := 2 ^ 64 - 1

/-- The loop of `ParseUint(s, 10, 64)` over the characters of `s`, with the
number read so far: a character that is no digit ends it with `ErrSyntax`, a
number that leaves the 64 bits ends it with `ErrRange`. -/
def parseUintLoop (n : Nat) : List Char → Except NumError Nat
  | [] => Except.ok n
  | c :: cs =>
    match digitVal c with
    | none => Except.error NumError.ErrSyntax
    | some d =>
      if n ≥ maxUint64 / 10 + 1 then Except.error NumError.ErrRange
      else if n * 10 + d > maxUint64 then Except.error NumError.ErrRange
      else parseUintLoop (n * 10 + d) cs

/-- Function `strconv.ParseUint(s, 10, 64)`. -/
def ParseUint (s : List Char) : Except NumError Nat :=
  if s = [] then Except.error NumError.ErrSyntax else parseUintLoop 0 s

/-- Function `strconv.ParseInt(s, 10, 64)`: an optional sign, then
`ParseUint`, then the check of the signed range.  The number that the library
returns next to an error is left out. -/
def ParseInt (s : String) : Except NumError Int :=
  match s.data with
  | [] => Except.error NumError.ErrSyntax
  | c :: cs =>
    let neg := decide (c = '-')
    let rest := if c = '+' ∨ c = '-' then cs else c :: cs
    match ParseUint rest with
    | Except.error NumError.ErrSyntax => Except.error NumError.ErrSyntax
    | Except.error NumError.ErrRange => Except.error NumError.ErrRange
    | Except.ok un =>
      if !neg && decide (un ≥ 2 ^ 63) then Except.error NumError.ErrRange
      else if neg && decide (un > 2 ^ 63) then Except.error NumError.ErrRange
      else Except.ok (if neg then -(un : Int) else (un : Int))

end strconv

/-- The struct `errBadTimestamp`. -/
structure errBadTimestamp where
  ts : String
  deriving DecidableEq, Repr

/-- Method `Error()` of `errBadTimestamp`; `Quote` is the rendering of the
verb `%q`. -/
def errBadTimestamp.Error (Quote : String → String) (e : errBadTimestamp) : String :=
  "unable to convert Slack timestamp " ++ Quote e.ts ++ " to time.Time"

/-- The constant `expectedSlackTimestampComponents`. -/
def expectedSlackTimestampComponents : Nat := 2

/-- What `ParseTimestamp` returns, and the log lines it writes. -/
structure ParsedTimestamp where
  time : Time
  err : Option errBadTimestamp
  logs : List Event

/-- Method `ParseTimestamp(timestamp)` of `clientImpl`; `localOffset` is the
offset of the local location that `time.Unix` gives to its result. -/
def ParseTimestamp (localOffset : Int) (timestamp : String) : ParsedTimestamp :=
  let components := strings.Split timestamp '.'
  let logs :=
    if components.length ≠ expectedSlackTimestampComponents then
      [Event.log LogLevel.warn "found weird timestamp %q, components %v"
        (timestamp :: components)]
    else []
  let tsComponent := components.getD 0 ""
  match strconv.ParseInt tsComponent with
  | Except.error _ => { time := Time.zero, err := some { ts := timestamp }, logs := logs }
  | Except.ok ts => { time := Time.Unix localOffset ts, err := none, logs := logs }

/-- The part of a text before its first `.`, the whole text when it has
none. -/
def beforeFirstDot (ts : String) : String :=
  String.mk (ts.data.takeWhile (fun ch => decide (ch ≠ '.')))

/-- The number that a list of decimal digits writes, continuing from `n`. -/
def decimalValue (n : Nat) (digits : List Char) : Nat :=
  digits.foldl (fun a c => a * 10 + (c.toNat - '0'.toNat)) n

/-- A text is a base-10 signed 64-bit integer `n`: an optional sign `+` or
`-`, then one decimal digit or more that write the absolute value of `n`, and
`n` lies between `-2^63` and `2^63 - 1`. -/
def IsInt64Decimal (s : String) (n : Int) : Prop :=
  ∃ digits : List Char, digits ≠ [] ∧ (∀ c ∈ digits, '0' ≤ c ∧ c ≤ '9') ∧
    ((s.data = digits ∨ s.data = '+' :: digits) ∧ n = (decimalValue 0 digits : Int) ∨
      s.data = '-' :: digits ∧ n = -(decimalValue 0 digits : Int)) ∧
    -(2 ^ 63 : Int) ≤ n ∧ n < 2 ^ 63

/-- The rendering of `%q` for a text of printable ASCII characters with no
double quote and no backslash: the text between double quotes. -/
def quotePlain (s : String) : String := "\"" ++ s ++ "\""

/-! ## `botcmd/utils.go`: formatting a time -/

/-- A date of the proleptic Gregorian calendar. -/
structure CivilDate where
  year : Int
  month : Nat
  day : Nat
  deriving DecidableEq, Repr

/-- The date of a day counted from January 1, 1970. -/
def civilFromDays (days : Int) : CivilDate :=
  let z := days + 719468
  let era := z.fdiv 146097
  let doe := (z - era * 146097).toNat
  let yoe := (doe - doe / 1460 + doe / 36524 - doe / 146096) / 365
  let doy := doe - (365 * yoe + yoe / 4 - yoe / 100)
  let mp := (5 * doy + 2) / 153
  let d := doy - (153 * mp + 2) / 5 + 1
  let m := if mp < 10 then mp + 3 else mp - 9
  let y := (yoe : Int) + era * 400
  { year := if m ≤ 2 then y + 1 else y, month := m, day := d }

/-- The abbreviations of the days of the week that the layout element `Mon`
writes, Sunday first. -/
def shortDayNames : List String := ["Sun", "Mon", "Tue", "Wed", "Thu", "Fri", "Sat"]

/-- The abbreviations of the months that the layout element `Jan` writes. -/
def shortMonthNames : List String :=
  ["Jan", "Feb", "Mar", "Apr", "May", "Jun", "Jul", "Aug", "Sep", "Oct", "Nov", "Dec"]

/-- A natural number in decimal, with zeros in front up to the width. -/
def padInt (n width : Nat) : String :=
  let s := toString n
  String.mk (List.replicate (width - s.length) '0') ++ s

/-- The layout element `2006`: the year on four digits at least, with a minus
sign before a negative year. -/
def formatYear (y : Int) : String :=
  if y < 0 then "-" ++ padInt y.natAbs 4 else padInt y.toNat 4

/-- Method `d.Format("Mon Jan 2 2006 15:04:05 UTC")` of the library: the
clock and the calendar of the location that `d` carries, then the letters
` UTC`, which are no element of a layout and are copied as they stand. -/
def Time.Format (d : Time) : String :=
  let wall := d.unixNano.fdiv 1000000000 + d.offset
  let days := wall.fdiv 86400
  let secs := (wall.fmod 86400).toNat
  let date := civilFromDays days
  shortDayNames.getD ((days + 4).fmod 7).toNat "" ++ " " ++
    shortMonthNames.getD (date.month - 1) "" ++ " " ++
    toString date.day ++ " " ++ formatYear date.year ++ " " ++
    padInt (secs / 3600) 2 ++ ":" ++ padInt (secs / 60 % 60) 2 ++ ":" ++ padInt (secs % 60) 2 ++
    " UTC"

/-- Function `FormatTime(d)`. -/
def FormatTime (d : Time) : String :=
  d.Format

/-! ## The library's package `flag`, as far as `ParseFlags` uses it -/

/-- Function `strconv.ParseBool`: the truth value that a text writes, `none`
where the library returns a syntax error. -/
def strconv.ParseBool (s : String) : Option Bool :=
  if s ∈ ["1", "t", "T", "TRUE", "true", "True"] then some true
  else if s ∈ ["0", "f", "F", "FALSE", "false", "False"] then some false
  else none

/-- The values of the flags that the handlers define: the library's
`boolValue`, `int64Value` and `stringValue`. -/
inductive FlagValue where
  | boolValue (b : Bool)
  | int64Value (i : Int)
  | stringValue (s : String)
  deriving DecidableEq, Repr

/-- Method `IsBoolFlag()`, which only `boolValue` has. -/
def FlagValue.IsBoolFlag : FlagValue → Bool
  | FlagValue.boolValue _ => true
  | _ => false

/-- Method `Set(s)` of a flag value: the value after the call and the error.
`parseInt0` is the library's `strconv.ParseInt(s, 0, 64)`, with the number it
returns next to an error. -/
def FlagValue.Set (parseInt0 : String → Int × Option NumError) (v : FlagValue) (s : String) :
    FlagValue × Option String :=
  match v with
  | FlagValue.boolValue _ =>
    match strconv.ParseBool s with
    | some b => (FlagValue.boolValue b, none)
    | none => (FlagValue.boolValue false, some "parse error")
  | FlagValue.int64Value _ =>
    match parseInt0 s with
    | (i, none) => (FlagValue.int64Value i, none)
    | (i, some NumError.ErrSyntax) => (FlagValue.int64Value i, some "parse error")
    | (i, some NumError.ErrRange) => (FlagValue.int64Value i, some "value out of range")
  | FlagValue.stringValue _ => (FlagValue.stringValue s, none)

/-- Method `String()` of a flag value. -/
def FlagValue.String : FlagValue → String
  | FlagValue.boolValue b => if b then "true" else "false"
  | FlagValue.int64Value i => toString i
  | FlagValue.stringValue s => s

/-- The struct `flag.Flag`. -/
structure Flag where
  Name : String
  Usage : String
  Value : FlagValue
  DefValue : String
  deriving DecidableEq, Repr

/-- The struct `flag.FlagSet` with the error handling `ContinueOnError`: its
name, the flags defined and the arguments left to parse. -/
structure FlagSet where
  name : String
  formal : GoMap Flag
  args : List String
  deriving DecidableEq, Repr

/-- Function `flag.NewFlagSet(name, flag.ContinueOnError)`. -/
def NewFlagSet (name : String) : FlagSet :=
  { name := name, formal := [], args := [] }

namespace FlagSet

/-- Method `Var(value, name, usage)`: defines a flag.  The library panics when
the name is defined already, which no caller in the repository does. -/
def Var (f : FlagSet) (value : FlagValue) (name usage : String) : FlagSet :=
  { f with
    formal := GoMap.set f.formal name
      { Name := name, Usage := usage, Value := value, DefValue := value.String } }

end FlagSet

/-- The flags in the order of `VisitAll`: sorted by name. -/
def sortFlags (formal : GoMap Flag) : List Flag :=
  (sortStrings (GoMap.keys formal)).filterMap (GoMap.get formal)

/-- The text that one call of the help function of `bufferedHelp(flagSet)`
writes to the help buffer: the header, then a line for each flag, which gives
`f.Name`, `f.Usage`, `f.Name` and `f.Value`. -/
def bufferedHelp (flagSet : FlagSet) : String :=
  ":speech_balloon: :bookmark_tabs: Usage of !*" ++ flagSet.name ++ "*:\n" ++
    String.join ((sortFlags flagSet.formal).map (fun f =>
      "\t`-" ++ f.Name ++ "`\t" ++ f.Usage ++ " (Default: `-" ++ f.Name ++ " " ++
        f.Value.String ++ "`)\n"))

/-- The errors of `Parse`: the variable `flag.ErrHelp` and the errors that
`failf` makes from a text. -/
inductive FlagError where
  | ErrHelp
  | failure (msg : String)
  deriving DecidableEq, Repr

/-- Method `Error()` of the errors of `Parse`. -/
def FlagError.Error : FlagError → String
  | FlagError.ErrHelp => "flag: help requested"
  | FlagError.failure msg => msg

/-- A flag set during `Parse` with `Usage` set to the help function of
`bufferedHelp`: the flag set, the help buffer, and the lines written to the
output of the flag set. -/
structure FlagParse where
  flagSet : FlagSet
  helpBuffer : String
  output : List String
  deriving DecidableEq, Repr

namespace FlagParse

/-- Method `usage()` of the flag set: calls `Usage`, the help function. -/
def usage (st : FlagParse) : FlagParse :=
  { st with helpBuffer := st.helpBuffer ++ bufferedHelp st.flagSet }

/-- Method `failf(format, a...)` with the text already formatted: prints the
error, calls `usage()`, returns the error. -/
def failf (st : FlagParse) (msg : String) : Bool × Option FlagError × FlagParse :=
  (false, some (FlagError.failure msg), usage { st with output := st.output ++ [msg] })

/-- The assignment `f.args = args`. -/
def withArgs (st : FlagParse) (args : List String) : FlagParse :=
  { st with flagSet := { st.flagSet with args := args } }

/-- The flag `name` holds `value` after a call of its `Set`. -/
def withValue (st : FlagParse) (name : String) (flag : Flag) (value : FlagValue) : FlagParse :=
  { st with
    flagSet := { st.flagSet with
      formal := GoMap.set st.flagSet.formal name { flag with Value := value } } }

/-- The loop of `parseOne` that looks for an `=` after the first character of
the name: the name, and the value when there is one. -/
def splitValue (name : List Char) : List Char × Option (List Char) :=
  match name with
  | [] => ([], none)
  | c :: rest =>
    if '=' ∈ rest then
      (c :: rest.takeWhile (fun ch => decide (ch ≠ '=')),
        some ((rest.dropWhile (fun ch => decide (ch ≠ '='))).drop 1))
    else (c :: rest, none)

/-- Method `parseOne()` of the flag set: whether a flag was seen, the error,
and the state after the call.  `Quote` is the rendering of the verb `%q`. -/
def parseOne (Quote : String → String) (parseInt0 : String → Int × Option NumError)
    (st : FlagParse) : Bool × Option FlagError × FlagParse :=
  match st.flagSet.args with
  | [] => (false, none, st)
  | s :: rest =>
    match s.data with
    | c0 :: c1 :: cs =>
      if c0 ≠ '-' then (false, none, st)
      else if c1 = '-' ∧ cs = [] then (false, none, st.withArgs rest)
      else
        let name := if c1 = '-' then cs else c1 :: cs
        if name = [] ∨ name.head? = some '-' ∨ name.head? = some '=' then
          st.failf ("bad flag syntax: " ++ s)
        else
          let st1 := st.withArgs rest
          let name1 := String.mk (splitValue name).1
          match GoMap.get st1.flagSet.formal name1 with
          | none =>
            if name1 = "help" ∨ name1 = "h" then (false, some FlagError.ErrHelp, st1.usage)
            else st1.failf ("flag provided but not defined: -" ++ name1)
          | some flag =>
            if flag.Value.IsBoolFlag = true then
              match (splitValue name).2 with
              | some value =>
                match flag.Value.Set parseInt0 (String.mk value) with
                | (v, some err) =>
                  (st1.withValue name1 flag v).failf
                    ("invalid boolean value " ++ Quote (String.mk value) ++ " for -" ++ name1 ++
                      ": " ++ err)
                | (v, none) => (true, none, st1.withValue name1 flag v)
              | none =>
                match flag.Value.Set parseInt0 "true" with
                | (v, some err) =>
                  (st1.withValue name1 flag v).failf
                    ("invalid boolean flag " ++ name1 ++ ": " ++ err)
                | (v, none) => (true, none, st1.withValue name1 flag v)
            else
              match (splitValue name).2, rest with
              | none, [] => st1.failf ("flag needs an argument: -" ++ name1)
              | none, value :: rest2 =>
                match flag.Value.Set parseInt0 value with
                | (v, some err) =>
                  ((st1.withArgs rest2).withValue name1 flag v).failf
                    ("invalid value " ++ Quote value ++ " for flag -" ++ name1 ++ ": " ++ err)
                | (v, none) => (true, none, (st1.withArgs rest2).withValue name1 flag v)
              | some value, _ =>
                match flag.Value.Set parseInt0 (String.mk value) with
                | (v, some err) =>
                  (st1.withValue name1 flag v).failf
                    ("invalid value " ++ Quote (String.mk value) ++ " for flag -" ++ name1 ++
                      ": " ++ err)
                | (v, none) => (true, none, st1.withValue name1 flag v)
    | _ => (false, none, st)

/-- The loop of `Parse`: `parseOne` as long as it sees a flag.  Every flag
seen takes an argument away, so the loop ends within as many rounds as there
are arguments, which is what the fuel counts. -/
def parseLoop (Quote : String → String) (parseInt0 : String → Int × Option NumError) :
    Nat → FlagParse → Option FlagError × FlagParse
  | 0, st => (none, st)
  | fuel + 1, st =>
    match parseOne Quote parseInt0 st with
    | (true, _, st1) => parseLoop Quote parseInt0 fuel st1
    | (false, none, st1) => (none, st1)
    | (false, some err, st1) => (some err, st1)

end FlagParse

/-- Method `Parse(arguments)` of a flag set with the error handling
`ContinueOnError` whose `Usage` is the help function of `bufferedHelp`: the
error, and the state at the end. -/
def FlagSet.Parse (Quote : String → String) (parseInt0 : String → Int × Option NumError)
    (f : FlagSet) (arguments : List String) : Option FlagError × FlagParse :=
  FlagParse.parseLoop Quote parseInt0 (arguments.length + 1)
    { flagSet := { f with args := arguments }, helpBuffer := "", output := [] }

/-- What `ParseFlags` leaves behind: the text it returns, the flag set with
the variables of the flags, and the lines printed by the flag set. -/
structure ParseFlagsResult where
  text : String
  flagSet : FlagSet
  output : List String
  deriving DecidableEq, Repr

/-- Function `ParseFlags(text, flagSet)`. -/
def ParseFlags (Quote : String → String) (parseInt0 : String → Int × Option NumError)
    (text : String) (flagSet : FlagSet) : ParseFlagsResult :=
  match flagSet.Parse Quote parseInt0 (strings.Split text ' ') with
  | (some FlagError.ErrHelp, st) =>
    { text := st.helpBuffer, flagSet := st.flagSet, output := st.output }
  | (some err, st) =>
    { text := flagSet.name ++ ": failed to parse " ++ Quote text ++ ": " ++ err.Error,
      flagSet := st.flagSet, output := st.output }
  | (none, st) => { text := "", flagSet := st.flagSet, output := st.output }

/-- The library's `strconv.ParseInt(s, 0, 64)` on the texts that base 0 reads
as base 10 does: those with no base prefix, no leading zero and no
underscore. -/
def parseIntDecimal (s : String) : Int × Option NumError :=
  match strconv.ParseInt s with
  | Except.ok n => (n, none)
  | Except.error NumError.ErrSyntax => (0, some NumError.ErrSyntax)
  | Except.error NumError.ErrRange =>
    (if s.data.head? = some '-' then -(2 ^ 63 : Int) else 2 ^ 63 - 1, some NumError.ErrRange)

namespace FlagSet

/-- Method `Bool(name, value, usage)`; the variable it returns is read with
`Lookup`. -/
def Bool (f : FlagSet) (name : String) (value : Bool) (usage : String) : FlagSet :=
  f.Var (FlagValue.boolValue value) name usage

/-- Method `Int64(name, value, usage)`. -/
def Int64 (f : FlagSet) (name : String) (value : Int) (usage : String) : FlagSet :=
  f.Var (FlagValue.int64Value value) name usage

/-- Method `String(name, value, usage)`. -/
def String (f : FlagSet) (name : String) (value : String) (usage : String) : FlagSet :=
  f.Var (FlagValue.stringValue value) name usage

end FlagSet

/-- The flag set of `TestParseFlags`: one boolean flag `foo`, false by
default. -/
def testFlagSet (name : String) : FlagSet :=
  (NewFlagSet name).Bool "foo" false "enable foobar"


/-! ## The command handlers that parse flags -/

/-- The constant `cmdName` of the package `emoji`. -/
def emoji.cmdName : String := "emoji"

/-- The constant `cmdName` of the package `topics`. -/
def topics.cmdName : String := "topics"

/-- The constant `cmdName` of the package `gis`. -/
def gis.cmdName : String := "gis"

/-- The constant `maxDisplayLimit` of the package `gis`. -/
def gis.maxDisplayLimit : Int := 10

/-- The constant `cmdName` of the package `mktheme`. -/
def mktheme.cmdName : String := "mktheme"

/-- The flag set that `emojiCmd.Run` makes. -/
def emojiCmd.flagSet : FlagSet :=
  (((((NewFlagSet emoji.cmdName).Int64 "limit" 5 "limit for number of emoji to display").Bool
    "asc" false "list topics in order of ascending usage count").String
    "emoji" "" "display count only for matching emoji").String
    "user" "" "display emoji stats for a user other than yourself").Bool
    "reactions" false "only include reactions stats"

/-- Method `Run(text, runCtx)` of `emojiCmd`.  `rest` is what `Run` does once
the flags are parsed, from the flag set that holds the variables of the flags
and from the run context. -/
def emojiCmd.Run (Quote : String → String) (parseInt0 : String → Int × Option NumError)
    (rest : FlagSet → RunContext → RunResult × Option String)
    (text : String) (runCtx : RunContext) : RunResult × Option String :=
  let parsed := ParseFlags Quote parseInt0 text emojiCmd.flagSet
  if parsed.text ≠ "" then ({ Message := parsed.text, Reactji := [] }, none)
  else rest parsed.flagSet runCtx

/-- The flag set that `topicsCmd.Run` makes. -/
def topicsCmd.flagSet : FlagSet :=
  (((NewFlagSet topics.cmdName).Int64
    "limit" 5 "optional limit for number of topics to display").String
    "channel" "" "optional channel name to display topics for").Bool
    "asc" false "list topics in ascending age"

/-- Method `Run(text, runCtx)` of `topicsCmd`, with `rest` as for
`emojiCmd.Run`. -/
def topicsCmd.Run (Quote : String → String) (parseInt0 : String → Int × Option NumError)
    (rest : FlagSet → RunContext → RunResult × Option String)
    (text : String) (runCtx : RunContext) : RunResult × Option String :=
  let parsed := ParseFlags Quote parseInt0 text topicsCmd.flagSet
  if parsed.text ≠ "" then ({ Message := parsed.text, Reactji := [] }, none)
  else rest parsed.flagSet runCtx

/-- The flag set that `gisCmd.Run` makes. -/
def gisCmd.flagSet : FlagSet :=
  (((((((NewFlagSet gis.cmdName).Int64 "limit" 1
    ("upper limit for number of images to return, max " ++ toString gis.maxDisplayLimit)).Bool
    "random" true "choose images randomly, or in order").String
    "colorType" "" "[color|gray|mono|trans]").String
    "color" "" "[black|blue|etc]").String
    "size" "" "[huge|icon|large|medium|smal|xlarge|xxlarge]").String
    "type" "" "[clipart|face|lineart|stock|photo|animated]").String
    "site" "" "URL that must be linked to by all result sites"

/-- Method `Run(text, runCtx)` of `gisCmd`, with `rest` as for
`emojiCmd.Run`. -/
def gisCmd.Run (Quote : String → String) (parseInt0 : String → Int × Option NumError)
    (rest : FlagSet → RunContext → RunResult × Option String)
    (text : String) (runCtx : RunContext) : RunResult × Option String :=
  let parsed := ParseFlags Quote parseInt0 text gisCmd.flagSet
  if parsed.text ≠ "" then ({ Message := parsed.text, Reactji := [] }, none)
  else rest parsed.flagSet runCtx

/-- The flag set that `mkthemeCmd.Run` makes. -/
def mkthemeCmd.flagSet : FlagSet :=
  (NewFlagSet mktheme.cmdName).String "palette" "warm" "Palette type: [none, warm, happy, soft]"

/-- Method `Run(text, runCtx)` of `mkthemeCmd`, with `rest` as for
`emojiCmd.Run`. -/
def mkthemeCmd.Run (Quote : String → String) (parseInt0 : String → Int × Option NumError)
    (rest : FlagSet → RunContext → RunResult × Option String)
    (text : String) (runCtx : RunContext) : RunResult × Option String :=
  let parsed := ParseFlags Quote parseInt0 text mkthemeCmd.flagSet
  if parsed.text ≠ "" then ({ Message := parsed.text, Reactji := [] }, none)
  else rest parsed.flagSet runCtx

/-- The run context of the handler tests, where nothing is set. -/
def emptyRunContext : RunContext :=
  { Message := none, Storage := { handle := 0 }, Slack := mockClient }

/-- A rest of `Run` that returns an error, to tell when it is reached. -/
def restReached : FlagSet → RunContext → RunResult × Option String :=
  fun _ _ => ({ Message := "", Reactji := [] }, some "rest of Run reached")
/-! ## Registry: rejected registrations -/

/-- C1: for every registry state, `AddCommand`, `AddPattern` and
`AddReactionHandler` return false and leave the whole registry (all three lists
and all three maps) unchanged when the entry is nil, its name is empty, its
handler is nil, its name is already bound in the map of that kind, or, for
`AddPattern`, its pattern is nil. -/
theorem add_invalid_rejected (c : CommandRegistry) :
    (∀ cmd : Option BasicCommand,
      (match cmd with
        | none => True
        | some x => x.Name = "" ∨ x.Handler = none ∨ c.GetCommand x.Name ≠ none) →
      c.AddCommand cmd = (c, false)) ∧
    (∀ cmd : Option PatternCommand,
      (match cmd with
        | none => True
        | some x => x.Name = "" ∨ x.Handler = none ∨ x.Pattern = none ∨
            c.GetPattern x.Name ≠ none) →
      c.AddPattern cmd = (c, false)) ∧
    (∀ cmd : Option ReactionCommand,
      (match cmd with
        | none => True
        | some x => x.Name = "" ∨ x.Handler = none ∨ c.GetReactionHandler x.Name ≠ none) →
      c.AddReactionHandler cmd = (c, false)) := by
  refine ⟨?_, ?_, ?_⟩
  · intro cmd h
    cases cmd with
    | none => rfl
    | some x =>
      simp only [CommandRegistry.AddCommand, GoMap.found, CommandRegistry.GetCommand] at h ⊢
      rcases h with h | h | h
      · simp [h]
      · simp [h]
      · have : (GoMap.get c.cmdsMap x.Name).isSome = true := by
          cases hg : GoMap.get c.cmdsMap x.Name with
          | none => exact absurd hg h
          | some _ => rfl
        simp [this]
  · intro cmd h
    cases cmd with
    | none => rfl
    | some x =>
      simp only [CommandRegistry.AddPattern, GoMap.found, CommandRegistry.GetPattern] at h ⊢
      rcases h with h | h | h | h
      · simp [h]
      · simp [h]
      · simp [h]
      · have : (GoMap.get c.patternsMap x.Name).isSome = true := by
          cases hg : GoMap.get c.patternsMap x.Name with
          | none => exact absurd hg h
          | some _ => rfl
        simp [this]
  · intro cmd h
    cases cmd with
    | none => rfl
    | some x =>
      simp only [CommandRegistry.AddReactionHandler, GoMap.found,
        CommandRegistry.GetReactionHandler] at h ⊢
      rcases h with h | h | h
      · simp [h]
      · simp [h]
      · have : (GoMap.get c.reactionHandlerMap x.Name).isSome = true := by
          cases hg : GoMap.get c.reactionHandlerMap x.Name with
          | none => exact absurd hg h
          | some _ => rfl
        simp [this]

/-- Witness for C1: on the registry holding `valid` in every kind, a second
command named `valid`, a pattern without expression and a reaction handler
without handler are all rejected and the registry stays as it was. -/
theorem add_invalid_rejected_witness :
    validRegistry.AddCommand
        (some { Name := "valid", Description := "", Icon := "", Handler := some mockCmdHandler })
      = (validRegistry, false) ∧
    validRegistry.AddPattern
        (some { Name := "nohandler", Handler := some mockPatternHandler, Pattern := none })
      = (validRegistry, false) ∧
    validRegistry.AddReactionHandler (some { Name := "nohandler", Handler := none })
      = (validRegistry, false) :=
  ⟨(add_invalid_rejected validRegistry).1 _ (Or.inr (Or.inr (Option.isSome_iff_ne_none.mp rfl))),
   (add_invalid_rejected validRegistry).2.1 _ (Or.inr (Or.inr (Or.inl rfl))),
   (add_invalid_rejected validRegistry).2.2 _ (Or.inr (Or.inl rfl))⟩

/-! ## Registry: sequences of registrations -/

namespace GoMap

variable {α : Type}

theorem get_set_self (m : GoMap α) (k : String) (v : α) : get (set m k v) k = some v := by
  simp [set, get]

theorem get_filter_ne (m : GoMap α) (k n : String) (h : n ≠ k) :
    get (m.filter (fun p => decide (p.1 ≠ k))) n = get m n := by
  induction m with
  | nil => rfl
  | cons p rest ih =>
    obtain ⟨k', v⟩ := p
    by_cases hk : k' = k
    · subst hk
      have hne : ¬ k' = n := fun e => h e.symm
      simp only [List.filter, ne_eq, not_true_eq_false, decide_False, get, hne, if_false]
      exact ih
    · by_cases hn : k' = n
      · subst hn
        simp only [List.filter, ne_eq, hk, not_false_eq_true, decide_True, get, if_true]
      · simp only [List.filter, ne_eq, hk, not_false_eq_true, decide_True, get, hn, if_false]
        exact ih

theorem get_set_ne (m : GoMap α) (k n : String) (v : α) (h : n ≠ k) :
    get (set m k v) n = get m n := by
  have hne : ¬ k = n := fun e => h e.symm
  simp only [set, get, hne, if_false]
  exact get_filter_ne m k n h

theorem get_setAll_of_not_mem (key : α → String) (xs : List α) (m : GoMap α) (n : String)
    (h : n ∉ xs.map key) : get (setAll key m xs) n = get m n := by
  induction xs generalizing m with
  | nil => rfl
  | cons y ys ih =>
    simp only [List.map_cons, List.mem_cons, not_or] at h
    show get (setAll key (set m (key y) y) ys) n = get m n
    rw [ih _ h.2, get_set_ne _ _ _ _ h.1]

theorem get_setAll_of_mem (key : α → String) (xs : List α) (m : GoMap α) (x : α)
    (hnd : (xs.map key).Nodup) (hx : x ∈ xs) : get (setAll key m xs) (key x) = some x := by
  induction xs generalizing m with
  | nil => cases hx
  | cons y ys ih =>
    simp only [List.map_cons, List.nodup_cons] at hnd
    show get (setAll key (set m (key y) y) ys) (key x) = some x
    rcases List.mem_cons.mp hx with rfl | hmem
    · rw [get_setAll_of_not_mem key ys _ _ hnd.1, get_set_self]
    · exact ih _ hnd.2 hmem

end GoMap

namespace CommandRegistry

theorem AddCommands_valid (cmds : List BasicCommand) (c : CommandRegistry)
    (hvalid : ∀ x ∈ cmds, x.Name ≠ "" ∧ x.Handler ≠ none)
    (hnd : (cmds.map BasicCommand.Name).Nodup)
    (hfresh : ∀ x ∈ cmds, GoMap.get c.cmdsMap x.Name = none) :
    c.AddCommands (cmds.map some) =
      ({ c with cmdsList := c.cmdsList ++ cmds,
                cmdsMap := GoMap.setAll BasicCommand.Name c.cmdsMap cmds },
       List.replicate cmds.length true) := by
  induction cmds generalizing c with
  | nil => simp [AddCommands, GoMap.setAll]
  | cons x xs ih =>
    simp only [List.map_cons, List.nodup_cons] at hnd
    have hx := hvalid x (List.mem_cons_self _ _)
    have hstep : c.AddCommand (some x) =
        ({ c with cmdsList := c.cmdsList ++ [x],
                  cmdsMap := GoMap.set c.cmdsMap x.Name x }, true) := by
      have hf := hfresh x (List.mem_cons_self _ _)
      have hh : x.Handler.isNone = false := by
        cases hH : x.Handler with
        | none => exact absurd hH hx.2
        | some _ => rfl
      simp [AddCommand, GoMap.found, hf, hx.1, hh]
    have hrec := ih { c with cmdsList := c.cmdsList ++ [x],
                             cmdsMap := GoMap.set c.cmdsMap x.Name x }
      (fun y hy => hvalid y (List.mem_cons_of_mem _ hy)) hnd.2
      (fun y hy => by
        have hne : y.Name ≠ x.Name := fun e => hnd.1 (e ▸ List.mem_map_of_mem _ hy)
        show GoMap.get (GoMap.set c.cmdsMap x.Name x) y.Name = none
        rw [GoMap.get_set_ne _ _ _ _ hne]
        exact hfresh y (List.mem_cons_of_mem _ hy))
    simp only [List.map_cons, AddCommands, hstep, hrec]
    simp [GoMap.setAll, List.replicate_succ]

theorem AddPatterns_valid (cmds : List PatternCommand) (c : CommandRegistry)
    (hvalid : ∀ x ∈ cmds, x.Name ≠ "" ∧ x.Handler ≠ none ∧ x.Pattern ≠ none)
    (hnd : (cmds.map PatternCommand.Name).Nodup)
    (hfresh : ∀ x ∈ cmds, GoMap.get c.patternsMap x.Name = none) :
    c.AddPatterns (cmds.map some) =
      ({ c with patternsList := c.patternsList ++ cmds,
                patternsMap := GoMap.setAll PatternCommand.Name c.patternsMap cmds },
       List.replicate cmds.length true) := by
  induction cmds generalizing c with
  | nil => simp [AddPatterns, GoMap.setAll]
  | cons x xs ih =>
    simp only [List.map_cons, List.nodup_cons] at hnd
    have hx := hvalid x (List.mem_cons_self _ _)
    have hstep : c.AddPattern (some x) =
        ({ c with patternsList := c.patternsList ++ [x],
                  patternsMap := GoMap.set c.patternsMap x.Name x }, true) := by
      have hf := hfresh x (List.mem_cons_self _ _)
      have hh : x.Handler.isNone = false := by
        cases hH : x.Handler with
        | none => exact absurd hH hx.2.1
        | some _ => rfl
      have hp : x.Pattern.isNone = false := by
        cases hP : x.Pattern with
        | none => exact absurd hP hx.2.2
        | some _ => rfl
      simp [AddPattern, GoMap.found, hf, hx.1, hh, hp]
    have hrec := ih { c with patternsList := c.patternsList ++ [x],
                             patternsMap := GoMap.set c.patternsMap x.Name x }
      (fun y hy => hvalid y (List.mem_cons_of_mem _ hy)) hnd.2
      (fun y hy => by
        have hne : y.Name ≠ x.Name := fun e => hnd.1 (e ▸ List.mem_map_of_mem _ hy)
        show GoMap.get (GoMap.set c.patternsMap x.Name x) y.Name = none
        rw [GoMap.get_set_ne _ _ _ _ hne]
        exact hfresh y (List.mem_cons_of_mem _ hy))
    simp only [List.map_cons, AddPatterns, hstep, hrec]
    simp [GoMap.setAll, List.replicate_succ]

theorem AddReactionHandlers_valid (cmds : List ReactionCommand) (c : CommandRegistry)
    (hvalid : ∀ x ∈ cmds, x.Name ≠ "" ∧ x.Handler ≠ none)
    (hnd : (cmds.map ReactionCommand.Name).Nodup)
    (hfresh : ∀ x ∈ cmds, GoMap.get c.reactionHandlerMap x.Name = none) :
    c.AddReactionHandlers (cmds.map some) =
      ({ c with reactionHandlerList := c.reactionHandlerList ++ cmds,
                reactionHandlerMap :=
                  GoMap.setAll ReactionCommand.Name c.reactionHandlerMap cmds },
       List.replicate cmds.length true) := by
  induction cmds generalizing c with
  | nil => simp [AddReactionHandlers, GoMap.setAll]
  | cons x xs ih =>
    simp only [List.map_cons, List.nodup_cons] at hnd
    have hx := hvalid x (List.mem_cons_self _ _)
    have hstep : c.AddReactionHandler (some x) =
        ({ c with reactionHandlerList := c.reactionHandlerList ++ [x],
                  reactionHandlerMap := GoMap.set c.reactionHandlerMap x.Name x }, true) := by
      have hf := hfresh x (List.mem_cons_self _ _)
      have hh : x.Handler.isNone = false := by
        cases hH : x.Handler with
        | none => exact absurd hH hx.2
        | some _ => rfl
      simp [AddReactionHandler, GoMap.found, hf, hx.1, hh]
    have hrec := ih { c with reactionHandlerList := c.reactionHandlerList ++ [x],
                             reactionHandlerMap := GoMap.set c.reactionHandlerMap x.Name x }
      (fun y hy => hvalid y (List.mem_cons_of_mem _ hy)) hnd.2
      (fun y hy => by
        have hne : y.Name ≠ x.Name := fun e => hnd.1 (e ▸ List.mem_map_of_mem _ hy)
        show GoMap.get (GoMap.set c.reactionHandlerMap x.Name x) y.Name = none
        rw [GoMap.get_set_ne _ _ _ _ hne]
        exact hfresh y (List.mem_cons_of_mem _ hy))
    simp only [List.map_cons, AddReactionHandlers, hstep, hrec]
    simp [GoMap.setAll, List.replicate_succ]

end CommandRegistry

/-- C2: adding a sequence of valid entries with pairwise distinct names to a
registry whose store of that kind is empty (in particular to a fresh registry)
makes every `Add` return true; afterwards `GetCommands` (resp. `GetPatterns`,
`GetReactionHandlers`) is exactly that sequence, in order and of the same
length, `Get` by a registered name returns the entry registered under it, and
`Get` by any other name returns nil. -/
theorem add_valid_distinct_roundtrip (c : CommandRegistry) :
    (∀ cmds : List BasicCommand, c.cmdsList = [] → c.cmdsMap = [] →
      (∀ x ∈ cmds, x.Name ≠ "" ∧ x.Handler ≠ none) →
      (cmds.map BasicCommand.Name).Nodup →
      (c.AddCommands (cmds.map some)).2 = List.replicate cmds.length true ∧
      (c.AddCommands (cmds.map some)).1.GetCommands = cmds ∧
      (c.AddCommands (cmds.map some)).1.GetCommands.length = cmds.length ∧
      (∀ x ∈ cmds, (c.AddCommands (cmds.map some)).1.GetCommand x.Name = some x) ∧
      (∀ n, n ∉ cmds.map BasicCommand.Name →
        (c.AddCommands (cmds.map some)).1.GetCommand n = none)) ∧
    (∀ cmds : List PatternCommand, c.patternsList = [] → c.patternsMap = [] →
      (∀ x ∈ cmds, x.Name ≠ "" ∧ x.Handler ≠ none ∧ x.Pattern ≠ none) →
      (cmds.map PatternCommand.Name).Nodup →
      (c.AddPatterns (cmds.map some)).2 = List.replicate cmds.length true ∧
      (c.AddPatterns (cmds.map some)).1.GetPatterns = cmds ∧
      (c.AddPatterns (cmds.map some)).1.GetPatterns.length = cmds.length ∧
      (∀ x ∈ cmds, (c.AddPatterns (cmds.map some)).1.GetPattern x.Name = some x) ∧
      (∀ n, n ∉ cmds.map PatternCommand.Name →
        (c.AddPatterns (cmds.map some)).1.GetPattern n = none)) ∧
    (∀ cmds : List ReactionCommand, c.reactionHandlerList = [] → c.reactionHandlerMap = [] →
      (∀ x ∈ cmds, x.Name ≠ "" ∧ x.Handler ≠ none) →
      (cmds.map ReactionCommand.Name).Nodup →
      (c.AddReactionHandlers (cmds.map some)).2 = List.replicate cmds.length true ∧
      (c.AddReactionHandlers (cmds.map some)).1.GetReactionHandlers = cmds ∧
      (c.AddReactionHandlers (cmds.map some)).1.GetReactionHandlers.length = cmds.length ∧
      (∀ x ∈ cmds,
        (c.AddReactionHandlers (cmds.map some)).1.GetReactionHandler x.Name = some x) ∧
      (∀ n, n ∉ cmds.map ReactionCommand.Name →
        (c.AddReactionHandlers (cmds.map some)).1.GetReactionHandler n = none)) := by
  refine ⟨?_, ?_, ?_⟩
  · intro cmds hl hm hvalid hnd
    have hfresh : ∀ x ∈ cmds, GoMap.get c.cmdsMap x.Name = none := by
      intro x _; rw [hm]; rfl
    rw [CommandRegistry.AddCommands_valid cmds c hvalid hnd hfresh]
    refine ⟨rfl, by simp [CommandRegistry.GetCommands, hl],
      by simp [CommandRegistry.GetCommands, hl], ?_, ?_⟩
    · intro x hx
      exact GoMap.get_setAll_of_mem BasicCommand.Name cmds _ x hnd hx
    · intro n hn
      show GoMap.get (GoMap.setAll BasicCommand.Name c.cmdsMap cmds) n = none
      rw [GoMap.get_setAll_of_not_mem BasicCommand.Name cmds _ n hn, hm]; rfl
  · intro cmds hl hm hvalid hnd
    have hfresh : ∀ x ∈ cmds, GoMap.get c.patternsMap x.Name = none := by
      intro x _; rw [hm]; rfl
    rw [CommandRegistry.AddPatterns_valid cmds c hvalid hnd hfresh]
    refine ⟨rfl, by simp [CommandRegistry.GetPatterns, hl],
      by simp [CommandRegistry.GetPatterns, hl], ?_, ?_⟩
    · intro x hx
      exact GoMap.get_setAll_of_mem PatternCommand.Name cmds _ x hnd hx
    · intro n hn
      show GoMap.get (GoMap.setAll PatternCommand.Name c.patternsMap cmds) n = none
      rw [GoMap.get_setAll_of_not_mem PatternCommand.Name cmds _ n hn, hm]; rfl
  · intro cmds hl hm hvalid hnd
    have hfresh : ∀ x ∈ cmds, GoMap.get c.reactionHandlerMap x.Name = none := by
      intro x _; rw [hm]; rfl
    rw [CommandRegistry.AddReactionHandlers_valid cmds c hvalid hnd hfresh]
    refine ⟨rfl, by simp [CommandRegistry.GetReactionHandlers, hl],
      by simp [CommandRegistry.GetReactionHandlers, hl], ?_, ?_⟩
    · intro x hx
      exact GoMap.get_setAll_of_mem ReactionCommand.Name cmds _ x hnd hx
    · intro n hn
      show GoMap.get (GoMap.setAll ReactionCommand.Name c.reactionHandlerMap cmds) n = none
      rw [GoMap.get_setAll_of_not_mem ReactionCommand.Name cmds _ n hn, hm]; rfl

/-- Witness for C2: the three commands of `TestGlobalRegistry` added to a fresh
registry are all accepted, are listed in the order `one`, `two`, `three`, and
`whatever` is not found. -/
theorem add_valid_distinct_roundtrip_witness :
    (NewRegistry.AddCommands (testCommands.map some)).2 = [true, true, true] ∧
    (NewRegistry.AddCommands (testCommands.map some)).1.GetCommands = testCommands ∧
    (NewRegistry.AddCommands (testCommands.map some)).1.GetCommand "whatever" = none :=
  have h := (add_valid_distinct_roundtrip NewRegistry).1 testCommands rfl rfl
    (by
      intro x hx
      simp only [testCommands, List.mem_cons, List.mem_singleton, List.not_mem_nil,
        or_false] at hx
      rcases hx with rfl | rfl | rfl <;> exact ⟨by decide, by simp⟩)
    (by decide)
  ⟨h.1, h.2.1, h.2.2.2.2 "whatever" (by decide)⟩

/-! ## Splitting a text into tokens -/

namespace strings

theorem splitChars_eq (sep : Char) (l : List Char) :
    splitChars sep l =
      l.takeWhile (fun ch => decide (ch ≠ sep)) ::
        (if sep ∈ l then
          splitChars sep ((l.dropWhile (fun ch => decide (ch ≠ sep))).drop 1)
        else []) := by
  induction l with
  | nil => simp [splitChars]
  | cons c cs ih =>
    by_cases hc : c = sep
    · subst hc
      simp [splitChars, List.takeWhile, List.dropWhile]
    · have hmem : (sep ∈ c :: cs) ↔ sep ∈ cs := by
        simp only [List.mem_cons]
        constructor
        · rintro (h | h)
          · exact absurd h.symm hc
          · exact h
        · exact Or.inr
      rw [splitChars, if_neg hc, ih]
      simp only [List.takeWhile, List.dropWhile, ne_eq, hc, not_false_eq_true, decide_True, hmem]

theorem joinChars_cons_cons (sep c : Char) (w : List Char) (ws : List (List Char)) :
    joinChars sep ((c :: w) :: ws) = c :: joinChars sep (w :: ws) := by
  cases ws <;> simp [joinChars]

theorem joinChars_splitChars (sep : Char) (l : List Char) :
    joinChars sep (splitChars sep l) = l := by
  induction l with
  | nil => simp [splitChars, joinChars]
  | cons c cs ih =>
    by_cases hc : c = sep
    · subst hc
      rw [splitChars, if_pos rfl]
      cases hs : splitChars c cs with
      | nil => rw [splitChars_eq] at hs; cases hs
      | cons w ws =>
        rw [hs] at ih
        simp [joinChars, ih]
    · rw [splitChars, if_neg hc]
      cases hs : splitChars sep cs with
      | nil => rw [splitChars_eq] at hs; cases hs
      | cons w ws =>
        rw [hs] at ih
        simp only []
        rw [joinChars_cons_cons, ih]

theorem joinChars_rest (sep : Char) (l : List Char) :
    joinChars sep
      (if sep ∈ l then
        splitChars sep ((l.dropWhile (fun ch => decide (ch ≠ sep))).drop 1)
      else []) = (l.dropWhile (fun ch => decide (ch ≠ sep))).drop 1 := by
  by_cases h : sep ∈ l
  · rw [if_pos h, joinChars_splitChars]
  · rw [if_neg h]
    have hall : l.dropWhile (fun ch => decide (ch ≠ sep)) = [] := by
      rw [List.dropWhile_eq_nil_iff]
      intro x hx
      have : x ≠ sep := fun e => h (e ▸ hx)
      simpa using this
    rw [hall]
    rfl

theorem map_data_map_mk (ls : List (List Char)) : (ls.map String.mk).map String.data = ls := by
  induction ls with
  | nil => rfl
  | cons x xs ih => simp [ih]

end strings

/-- The words of a text: its first token, then, when the text holds a space,
the words of what follows the first space. -/
theorem Split_eq (text : String) :
    strings.Split text ' ' =
      firstToken text ::
        (if hasSecondToken text = true then strings.Split (afterFirstSpace text) ' '
         else []) := by
  unfold strings.Split firstToken afterFirstSpace hasSecondToken
  rw [strings.splitChars_eq]
  by_cases h : ' ' ∈ text.data
  · have hc : text.data.contains ' ' = true := by simpa using h
    simp [h, hc]
  · have hc : ¬ (text.data.contains ' ' = true) := by simpa using h
    simp [h, hc]

/-- Joining the words after the first one gives back what follows the first
space. -/
theorem Join_rest (text : String) :
    strings.Join
      (if hasSecondToken text = true then strings.Split (afterFirstSpace text) ' ' else [])
      ' ' = afterFirstSpace text := by
  have key := strings.joinChars_rest ' ' text.data
  unfold strings.Join strings.Split afterFirstSpace hasSecondToken
  by_cases h : ' ' ∈ text.data
  · have hc : text.data.contains ' ' = true := by simpa using h
    rw [if_pos h] at key
    rw [if_pos hc, strings.map_data_map_mk, key]
  · have hc : ¬ (text.data.contains ' ' = true) := by simpa using h
    rw [if_neg h] at key
    rw [if_neg hc]
    simp only [List.map_nil]
    rw [key]

/-- Trimming the prefix `!` of a token gives the token without its marker. -/
theorem TrimPrefix_bang (token : String) : strings.TrimPrefix token "!" = stripMarker token := by
  obtain ⟨l⟩ := token
  have hd : "!".data = ['!'] := rfl
  unfold strings.TrimPrefix strings.HasPrefix stripMarker
  rw [hd]
  cases l with
  | nil => rfl
  | cons c cs =>
    have hp : (['!'].isPrefixOf (c :: cs)) = ('!' == c) := by
      simp [List.isPrefixOf]
    simp only [hp]
    by_cases hc : c = '!'
    · subst hc
      simp
    · have hne : ('!' == c) = false := by
        rw [beq_eq_false_iff_ne]
        exact fun e => hc e.symm
      simp [hne, hc]

/-! ## Invariants of reachable registries -/

namespace CommandRegistry

theorem AddCommand_cases (c : CommandRegistry) (cmd : Option BasicCommand) :
    (c.AddCommand cmd).1 = c ∨
    ∃ x, x.Name ≠ "" ∧ x.Handler ≠ none ∧
      (c.AddCommand cmd).1 =
        { c with cmdsList := c.cmdsList ++ [x], cmdsMap := GoMap.set c.cmdsMap x.Name x } := by
  cases cmd with
  | none => exact Or.inl rfl
  | some x =>
    unfold AddCommand
    by_cases h1 : GoMap.found c.cmdsMap x.Name = true
    · simp [h1]
    · by_cases h2 : x.Name = ""
      · simp [h1, h2]
      · cases h3 : x.Handler with
        | none => simp [h1, h2, h3]
        | some hd =>
          refine Or.inr ⟨x, h2, by simp [h3], ?_⟩
          simp [h1, h2, h3]

theorem AddPattern_cases (c : CommandRegistry) (cmd : Option PatternCommand) :
    (c.AddPattern cmd).1 = c ∨
    ∃ x, x.Name ≠ "" ∧ x.Handler ≠ none ∧ x.Pattern ≠ none ∧
      (c.AddPattern cmd).1 =
        { c with patternsList := c.patternsList ++ [x],
                 patternsMap := GoMap.set c.patternsMap x.Name x } := by
  cases cmd with
  | none => exact Or.inl rfl
  | some x =>
    unfold AddPattern
    by_cases h1 : GoMap.found c.patternsMap x.Name = true
    · simp [h1]
    · by_cases h2 : x.Name = ""
      · simp [h1, h2]
      · cases h3 : x.Handler with
        | none => simp [h1, h2, h3]
        | some hd =>
          cases h4 : x.Pattern with
          | none => simp [h1, h2, h3, h4]
          | some re =>
            refine Or.inr ⟨x, h2, by simp [h3], by simp [h4], ?_⟩
            simp [h1, h2, h3, h4]

theorem AddReactionHandler_cases (c : CommandRegistry) (cmd : Option ReactionCommand) :
    (c.AddReactionHandler cmd).1 = c ∨
    ∃ x, x.Name ≠ "" ∧ x.Handler ≠ none ∧
      (c.AddReactionHandler cmd).1 =
        { c with reactionHandlerList := c.reactionHandlerList ++ [x],
                 reactionHandlerMap := GoMap.set c.reactionHandlerMap x.Name x } := by
  cases cmd with
  | none => exact Or.inl rfl
  | some x =>
    unfold AddReactionHandler
    by_cases h2 : x.Name = ""
    · simp [h2]
    · by_cases h1 : GoMap.found c.reactionHandlerMap x.Name = true
      · simp [h1, h2]
      · cases h3 : x.Handler with
        | none => simp [h1, h2, h3]
        | some hd =>
          refine Or.inr ⟨x, h2, by simp [h3], ?_⟩
          simp [h1, h2, h3]

/-- In a reachable registry a name is bound only to an entry of that name, and
the name is not empty and the handler not nil. -/
theorem Reachable.cmdsMap_valid {c : CommandRegistry} (hc : c.Reachable) :
    ∀ n x, c.GetCommand n = some x → x.Name = n ∧ n ≠ "" ∧ x.Handler ≠ none := by
  induction hc with
  | new => intro n x h; cases h
  | addCommand c cmd _ ih =>
    rcases AddCommand_cases c cmd with h | ⟨y, hy1, hy2, h⟩
    · rw [h]; exact ih
    · rw [h]
      intro n x hx
      by_cases hn : n = y.Name
      · subst hn
        have : GoMap.get (GoMap.set c.cmdsMap y.Name y) y.Name = some x := hx
        rw [GoMap.get_set_self] at this
        cases this
        exact ⟨rfl, hy1, hy2⟩
      · have : GoMap.get (GoMap.set c.cmdsMap y.Name y) n = some x := hx
        rw [GoMap.get_set_ne _ _ _ _ hn] at this
        exact ih n x this
  | addPattern c cmd _ ih =>
    rcases AddPattern_cases c cmd with h | ⟨y, _, _, _, h⟩
    · rw [h]; exact ih
    · rw [h]; exact ih
  | addReactionHandler c cmd _ ih =>
    rcases AddReactionHandler_cases c cmd with h | ⟨y, _, _, h⟩
    · rw [h]; exact ih
    · rw [h]; exact ih

/-- In a reachable registry every listed pattern has a handler and an
expression. -/
theorem Reachable.patternsList_valid {c : CommandRegistry} (hc : c.Reachable) :
    ∀ p ∈ c.GetPatterns, p.Handler ≠ none ∧ p.Pattern ≠ none := by
  induction hc with
  | new => intro p hp; cases hp
  | addCommand c cmd _ ih =>
    rcases AddCommand_cases c cmd with h | ⟨y, _, _, h⟩
    · rw [h]; exact ih
    · rw [h]; exact ih
  | addPattern c cmd _ ih =>
    rcases AddPattern_cases c cmd with h | ⟨y, _, hy2, hy3, h⟩
    · rw [h]; exact ih
    · rw [h]
      intro p hp
      have hp' : p ∈ c.patternsList ++ [y] := hp
      rcases List.mem_append.mp hp' with hp1 | hp1
      · exact ih p hp1
      · rw [List.mem_singleton.mp hp1]
        exact ⟨hy2, hy3⟩
  | addReactionHandler c cmd _ ih =>
    rcases AddReactionHandler_cases c cmd with h | ⟨y, _, _, h⟩
    · rw [h]; exact ih
    · rw [h]; exact ih

end CommandRegistry

/-! ## Classification of events -/

namespace Event

@[simp]
theorem isLog_log (level : LogLevel) (format : String) (args : List String) :
    (Event.log level format args).isLog = true := rfl

@[simp]
theorem isLog_getCommand (cmdName : String) :
    (Event.getCommand cmdName).isLog = false := rfl

@[simp]
theorem isLog_runCommand (cmd : BasicCommand) (text : String) (runCtx : RunContext) :
    (Event.runCommand cmd text runCtx).isLog = false := rfl

@[simp]
theorem isLog_runPattern (pattern : PatternCommand) (allSubmatches : List (List String)) (runCtx : RunContext) :
    (Event.runPattern pattern allSubmatches runCtx).isLog = false := rfl

@[simp]
theorem isLog_runReaction (handler : ReactionCommand) (reaction : Option Reaction) (runCtx : RunContext) :
    (Event.runReaction handler reaction runCtx).isLog = false := rfl

@[simp]
theorem isLog_sendMessage (text channelID : String) :
    (Event.sendMessage text channelID).isLog = false := rfl

@[simp]
theorem isLog_addReaction (reaction : String) (message : Option Message) :
    (Event.addReaction reaction message).isLog = false := rfl

@[simp]
theorem isLookup_log (level : LogLevel) (format : String) (args : List String) :
    (Event.log level format args).isLookup = false := rfl

@[simp]
theorem isLookup_getCommand (cmdName : String) :
    (Event.getCommand cmdName).isLookup = true := rfl

@[simp]
theorem isLookup_runCommand (cmd : BasicCommand) (text : String) (runCtx : RunContext) :
    (Event.runCommand cmd text runCtx).isLookup = false := rfl

@[simp]
theorem isLookup_runPattern (pattern : PatternCommand) (allSubmatches : List (List String)) (runCtx : RunContext) :
    (Event.runPattern pattern allSubmatches runCtx).isLookup = false := rfl

@[simp]
theorem isLookup_runReaction (handler : ReactionCommand) (reaction : Option Reaction) (runCtx : RunContext) :
    (Event.runReaction handler reaction runCtx).isLookup = false := rfl

@[simp]
theorem isLookup_sendMessage (text channelID : String) :
    (Event.sendMessage text channelID).isLookup = false := rfl

@[simp]
theorem isLookup_addReaction (reaction : String) (message : Option Message) :
    (Event.addReaction reaction message).isLookup = false := rfl

@[simp]
theorem isRun_log (level : LogLevel) (format : String) (args : List String) :
    (Event.log level format args).isRun = false := rfl

@[simp]
theorem isRun_getCommand (cmdName : String) :
    (Event.getCommand cmdName).isRun = false := rfl

@[simp]
theorem isRun_runCommand (cmd : BasicCommand) (text : String) (runCtx : RunContext) :
    (Event.runCommand cmd text runCtx).isRun = true := rfl

@[simp]
theorem isRun_runPattern (pattern : PatternCommand) (allSubmatches : List (List String)) (runCtx : RunContext) :
    (Event.runPattern pattern allSubmatches runCtx).isRun = true := rfl

@[simp]
theorem isRun_runReaction (handler : ReactionCommand) (reaction : Option Reaction) (runCtx : RunContext) :
    (Event.runReaction handler reaction runCtx).isRun = true := rfl

@[simp]
theorem isRun_sendMessage (text channelID : String) :
    (Event.sendMessage text channelID).isRun = false := rfl

@[simp]
theorem isRun_addReaction (reaction : String) (message : Option Message) :
    (Event.addReaction reaction message).isRun = false := rfl

@[simp]
theorem isSend_log (level : LogLevel) (format : String) (args : List String) :
    (Event.log level format args).isSend = false := rfl

@[simp]
theorem isSend_getCommand (cmdName : String) :
    (Event.getCommand cmdName).isSend = false := rfl

@[simp]
theorem isSend_runCommand (cmd : BasicCommand) (text : String) (runCtx : RunContext) :
    (Event.runCommand cmd text runCtx).isSend = false := rfl

@[simp]
theorem isSend_runPattern (pattern : PatternCommand) (allSubmatches : List (List String)) (runCtx : RunContext) :
    (Event.runPattern pattern allSubmatches runCtx).isSend = false := rfl

@[simp]
theorem isSend_runReaction (handler : ReactionCommand) (reaction : Option Reaction) (runCtx : RunContext) :
    (Event.runReaction handler reaction runCtx).isSend = false := rfl

@[simp]
theorem isSend_sendMessage (text channelID : String) :
    (Event.sendMessage text channelID).isSend = true := rfl

@[simp]
theorem isSend_addReaction (reaction : String) (message : Option Message) :
    (Event.addReaction reaction message).isSend = false := rfl

@[simp]
theorem isReaction_log (level : LogLevel) (format : String) (args : List String) :
    (Event.log level format args).isReaction = false := rfl

@[simp]
theorem isReaction_getCommand (cmdName : String) :
    (Event.getCommand cmdName).isReaction = false := rfl

@[simp]
theorem isReaction_runCommand (cmd : BasicCommand) (text : String) (runCtx : RunContext) :
    (Event.runCommand cmd text runCtx).isReaction = false := rfl

@[simp]
theorem isReaction_runPattern (pattern : PatternCommand) (allSubmatches : List (List String)) (runCtx : RunContext) :
    (Event.runPattern pattern allSubmatches runCtx).isReaction = false := rfl

@[simp]
theorem isReaction_runReaction (handler : ReactionCommand) (reaction : Option Reaction) (runCtx : RunContext) :
    (Event.runReaction handler reaction runCtx).isReaction = false := rfl

@[simp]
theorem isReaction_sendMessage (text channelID : String) :
    (Event.sendMessage text channelID).isReaction = false := rfl

@[simp]
theorem isReaction_addReaction (reaction : String) (message : Option Message) :
    (Event.addReaction reaction message).isReaction = true := rfl

@[simp]
theorem isChat_log (level : LogLevel) (format : String) (args : List String) :
    (Event.log level format args).isChat = false := rfl

@[simp]
theorem isChat_getCommand (cmdName : String) :
    (Event.getCommand cmdName).isChat = false := rfl

@[simp]
theorem isChat_runCommand (cmd : BasicCommand) (text : String) (runCtx : RunContext) :
    (Event.runCommand cmd text runCtx).isChat = false := rfl

@[simp]
theorem isChat_runPattern (pattern : PatternCommand) (allSubmatches : List (List String)) (runCtx : RunContext) :
    (Event.runPattern pattern allSubmatches runCtx).isChat = false := rfl

@[simp]
theorem isChat_runReaction (handler : ReactionCommand) (reaction : Option Reaction) (runCtx : RunContext) :
    (Event.runReaction handler reaction runCtx).isChat = false := rfl

@[simp]
theorem isChat_sendMessage (text channelID : String) :
    (Event.sendMessage text channelID).isChat = true := rfl

@[simp]
theorem isChat_addReaction (reaction : String) (message : Option Message) :
    (Event.addReaction reaction message).isChat = true := rfl

end Event

/-! ## Dispatcher: replies and reactions -/

namespace botImpl

theorem addReactionsLoop_actions (b : botImpl) (m : Option Message) (rs : List String) :
    (b.addReactionsLoop m rs).filter (fun e => !e.isLog) =
      rs.map (fun r => Event.addReaction r m) := by
  induction rs with
  | nil => rfl
  | cons r rest ih =>
    unfold addReactionsLoop
    cases b.slack.AddReaction r m with
    | none => simp [ih]
    | some err => simp [ih]

theorem addReactions_actions (b : botImpl) (rs : List String) (m : Option Message) :
    (b.addReactions rs m).filter (fun e => !e.isLog) =
      rs.map (fun r => Event.addReaction r m) := by
  unfold addReactions
  rw [List.filter_append, addReactionsLoop_actions]
  split <;> simp

theorem handleRunResult_actions (b : botImpl) (msg : Message) (res : RunResult) :
    (b.handleRunResult (some msg) res).actions =
      (if res.Message ≠ "" then [Event.sendMessage res.Message msg.ChannelID] else []) ++
        res.Reactji.map (fun r => Event.addReaction r (some msg)) := by
  unfold handleRunResult Outcome.actions
  by_cases h : res.Message = ""
  · simp [h, addReactions_actions]
  · simp [h, addReactions_actions]

theorem handleRunResult_ok (b : botImpl) (msg : Message) (res : RunResult) :
    (b.handleRunResult (some msg) res).panicked = false := by
  unfold handleRunResult
  split <;> rfl

end botImpl

theorem not_reserved_of_isReserved {cmdName : String} (h : isReserved cmdName = false) :
    ¬ (cmdName = "help" ∨ cmdName = "-h" ∨ cmdName = "--help") := by
  intro hh
  rcases hh with hh | hh | hh <;> simp [isReserved, hh] at h

/-- C8: for every run result and every non-nil message, `handleRunResult`
sends the reply to the channel of the message exactly once when the reply text
is non-empty and sends nothing when it is empty, and then requests
`AddReaction` once per element of the reaction list, in list order and without
removing duplicates.  This holds whatever the client answers to each
`AddReaction`, so a failed request does not stop the later ones; the call
does not panic. -/
theorem handleRunResult_reply_and_reactions (b : botImpl) (msg : Message) (res : RunResult) :
    (b.handleRunResult (some msg) res).actions =
      (if res.Message ≠ "" then [Event.sendMessage res.Message msg.ChannelID] else []) ++
        res.Reactji.map (fun r => Event.addReaction r (some msg)) ∧
    (b.handleRunResult (some msg) res).panicked = false :=
  ⟨botImpl.handleRunResult_actions b msg res, botImpl.handleRunResult_ok b msg res⟩

/-- C6: for every command name that is not empty, not reserved and not
registered, `handleCommandMessage` looks the name up, invokes no handler, sends
no reply and requests exactly one reaction, `interrobang`, on the triggering
message. -/
theorem unknown_command_interrobang (b : botImpl) (cmdName rest : String)
    (m : Option Message) (hne : cmdName ≠ "") (hres : isReserved cmdName = false)
    (hun : b.registry.GetCommand cmdName = none) :
    (b.handleCommandMessage cmdName rest m).actions =
      [Event.getCommand cmdName, Event.addReaction "interrobang" m] ∧
    (b.handleCommandMessage cmdName rest m).panicked = false := by
  have hr := not_reserved_of_isReserved hres
  unfold botImpl.handleCommandMessage
  rw [if_neg hne, if_neg hr, hun]
  refine ⟨?_, rfl⟩
  simp [Outcome.actions, botImpl.addReactions_actions]

/-- Witness for C6: `blorp` on a fresh registry, with a nil message as in
`TestHandleCommandMessageUnknownCmd`. -/
theorem unknown_command_interrobang_witness :
    (emptyBot.handleCommandMessage "blorp" "" none).actions =
      [Event.getCommand "blorp", Event.addReaction "interrobang" none] ∧
    (emptyBot.handleCommandMessage "blorp" "" none).panicked = false :=
  unknown_command_interrobang emptyBot "blorp" "" none (by decide) (by decide) rfl

/-! ## Dispatcher: which events a run can hold -/

theorem filter_actions (p : Event → Bool) (hp : ∀ e, p e = true → e.isLog = false)
    (es : List Event) : es.filter p = (es.filter (fun e => !e.isLog)).filter p := by
  rw [List.filter_filter]
  congr 1
  funext e
  cases hpe : p e with
  | false => simp
  | true => simp [hp e hpe]

theorem isRun_not_log (e : Event) (h : e.isRun = true) : e.isLog = false := by
  cases e <;> simp_all

namespace botImpl

theorem addReactions_no_run (b : botImpl) (rs : List String) (m : Option Message) :
    (b.addReactions rs m).filter Event.isRun = [] := by
  rw [filter_actions Event.isRun isRun_not_log, addReactions_actions]
  induction rs with
  | nil => rfl
  | cons r rest ih => simp

theorem handleRunResult_no_run (b : botImpl) (m : Option Message) (res : RunResult) :
    (b.handleRunResult m res).events.filter Event.isRun = [] := by
  unfold handleRunResult
  split
  · cases m with
    | none => simp
    | some msg => simp [addReactions_no_run]
  · exact addReactions_no_run b _ _

theorem botHelp_no_run (b : botImpl) (m : Option Message) :
    (b.botHelp m).events.filter Event.isRun = [] := by
  unfold botHelp
  cases m with
  | none => rfl
  | some msg => exact handleRunResult_no_run b _ _

/-- A lookup that finds an entry with a handler runs that handler once with
the rest string and the context of the message. -/
theorem handleCommandMessage_runs (b : botImpl) (cmdName rest : String) (m : Option Message)
    (cmd : BasicCommand) (h : CommandHandler) (hne : cmdName ≠ "")
    (hres : isReserved cmdName = false) (hreg : b.registry.GetCommand cmdName = some cmd)
    (hH : cmd.Handler = some h) :
    (b.handleCommandMessage cmdName rest m).events.filter Event.isRun =
      [Event.runCommand cmd rest (b.runCtx m)] := by
  have hr := not_reserved_of_isReserved hres
  unfold handleCommandMessage
  rw [if_neg hne, if_neg hr, hreg]
  simp only [hH]
  rcases hrun : h.Run rest (b.runCtx m) with ⟨res, err⟩
  cases err with
  | some e => simp [addReactions_no_run]
  | none => simp [Outcome.after, handleRunResult_no_run]

/-- A handler is run only for a name that is neither empty nor reserved. -/
theorem handleCommandMessage_run_name (b : botImpl) (cmdName rest : String)
    (m : Option Message)
    (hinv : (b.handleCommandMessage cmdName rest m).events.filter Event.isRun ≠ []) :
    cmdName ≠ "" ∧ isReserved cmdName = false := by
  constructor
  · intro h0
    apply hinv
    unfold handleCommandMessage
    rw [if_pos h0]
    rfl
  · cases hres : isReserved cmdName with
    | false => rfl
    | true =>
      exfalso
      apply hinv
      have hr : cmdName = "help" ∨ cmdName = "-h" ∨ cmdName = "--help" := by
        simpa [isReserved, or_assoc] using hres
      unfold handleCommandMessage
      by_cases h0 : cmdName = ""
      · rw [if_pos h0]; rfl
      · rw [if_neg h0, if_pos hr]
        exact botHelp_no_run b m

end botImpl

/-- C7, the claim as stated fails: the command `help` is registered with a
handler that returns the error `bogus`, and `handleCommandMessage` on the name
`help` never runs it: the help text is sent as a reply and no reaction is
requested, so there is no `negative_squared_cross_mark`. -/
theorem reserved_command_error_no_cross_mark :
    failingHelpBot.registry.GetCommand "help" = some failingHelpCommand ∧
    failingHelpCommand.Handler = some failingCmdHandler ∧
    failingCmdHandler.Run "x" (failingHelpBot.runCtx (some (textMessage "!help x"))) =
      ({ Message := "ignored", Reactji := ["thumbsup"] }, some "bogus") ∧
    (failingHelpBot.handleCommandMessage "help" "x" (some (textMessage "!help x"))).actions =
      [Event.sendMessage (failingHelpBot.botHelpText "") "C000"] ∧
    (failingHelpBot.handleCommandMessage "help" "x"
      (some (textMessage "!help x"))).events.filter Event.isReaction = [] ∧
    (failingHelpBot.handleCommandMessage "help" "x"
      (some (textMessage "!help x"))).events.filter Event.isRun = [] :=
  ⟨rfl, rfl, rfl, rfl, rfl, rfl⟩

/-- C7, amended: for every command registered under a name that is not one of
the reserved names `help`, `-h`, `--help`, when its handler returns an error,
whatever run result comes with it, `handleCommandMessage` sends no reply, adds
none of the reactions of the result, requests exactly one reaction,
`negative_squared_cross_mark`, on the triggering message, and returns
normally: its calls are the lookup, the invocation of the handler and that
one reaction. -/
theorem command_error_cross_mark (b : botImpl) (hreach : b.registry.Reachable)
    (cmdName rest : String) (m : Option Message)
    (cmd : BasicCommand) (h : CommandHandler) (res : RunResult) (err : String)
    (hreg : b.registry.GetCommand cmdName = some cmd) (hH : cmd.Handler = some h)
    (hres : isReserved cmdName = false)
    (herr : h.Run rest (b.runCtx m) = (res, some err)) :
    (b.handleCommandMessage cmdName rest m).actions =
      [Event.getCommand cmdName, Event.runCommand cmd rest (b.runCtx m),
       Event.addReaction "negative_squared_cross_mark" m] ∧
    (b.handleCommandMessage cmdName rest m).panicked = false := by
  obtain ⟨_, hne, _⟩ := hreach.cmdsMap_valid _ _ hreg
  have hr := not_reserved_of_isReserved hres
  unfold botImpl.handleCommandMessage
  rw [if_neg hne, if_neg hr, hreg]
  simp only [hH, herr]
  simp [Outcome.actions, botImpl.addReactions_actions]

/-- Witness for C7: the command `test` failing with `bogus` on the rest
`hello`, with a nil message as in `TestHandleCommandMessageError`. -/
theorem command_error_cross_mark_witness :
    (failingBot.handleCommandMessage "test" "hello" none).actions =
      [Event.getCommand "test", Event.runCommand failingCommand "hello" (failingBot.runCtx none),
       Event.addReaction "negative_squared_cross_mark" none] ∧
    (failingBot.handleCommandMessage "test" "hello" none).panicked = false :=
  command_error_cross_mark failingBot
    (CommandRegistry.Reachable.addCommand _ _ CommandRegistry.Reachable.new)
    "test" "hello" none failingCommand failingCmdHandler
    { Message := "ignored", Reactji := ["thumbsup"] } "bogus" rfl rfl (by decide) rfl

/-! ## Dispatcher: classification of a message text -/

theorem HasPrefix_mention_bang (id : String) :
    strings.HasPrefix ("<@" ++ id ++ ">") "!" = false := by
  have hd : "!".data = ['!'] := rfl
  unfold strings.HasPrefix
  rw [hd]
  simp [String.data_append, List.isPrefixOf]

theorem HasPrefix_mention (id : String) :
    strings.HasPrefix ("<@" ++ id ++ ">") "<@" = true := by
  have hd : "<@".data = ['<', '@'] := rfl
  unfold strings.HasPrefix
  rw [hd]
  simp [String.data_append, List.isPrefixOf]

theorem actions_after_log (level : LogLevel) (format : String) (args : List String)
    (o : Outcome) : (Outcome.after [Event.log level format args] o).actions = o.actions := by
  simp [Outcome.actions, Outcome.after]

theorem runs_after_log (level : LogLevel) (format : String) (args : List String)
    (o : Outcome) :
    (Outcome.after [Event.log level format args] o).events.filter Event.isRun =
      o.events.filter Event.isRun := by
  simp [Outcome.after]

namespace botImpl

/-- A text whose first token starts with `!` is handed to
`handleCommandMessage` with the first token stripped of the marker and with
what follows the first space. -/
theorem tryMessageAsCommand_bang (b : botImpl) (msg : Message)
    (hbang : strings.HasPrefix (firstToken msg.Text) "!" = true) :
    b.tryMessageAsCommand (some msg) =
      Outcome.after
        [Event.log LogLevel.info
          "Processing potential command message, first word: %q hasCmdPrefix: %v hasMentionPrefix: %v\n"
          [firstToken msg.Text, toString true,
           toString (strings.HasPrefix (firstToken msg.Text) "<@")]]
        (Outcome.after
          [Event.log LogLevel.info "Processing heard cmd: %q with rest %q\n"
            [stripMarker (firstToken msg.Text), afterFirstSpace msg.Text]]
          (b.handleCommandMessage (stripMarker (firstToken msg.Text))
            (afterFirstSpace msg.Text) (some msg))) := by
  unfold tryMessageAsCommand
  simp only [Split_eq msg.Text, hbang, TrimPrefix_bang, Join_rest]
  simp

/-- A text whose first token is the mention of the bot and that holds a space
is handed to `handleCommandMessage` with the second token stripped of the
marker and with what follows the second space. -/
theorem tryMessageAsCommand_mention (b : botImpl) (msg : Message)
    (hmention : firstToken msg.Text = "<@" ++ b.slack.BotID ++ ">")
    (hsecond : hasSecondToken msg.Text = true) :
    b.tryMessageAsCommand (some msg) =
      Outcome.after
        [Event.log LogLevel.info
          "Processing potential command message, first word: %q hasCmdPrefix: %v hasMentionPrefix: %v\n"
          [firstToken msg.Text, toString false, toString true]]
        (Outcome.after
          [Event.log LogLevel.info "Processing mentioned cmd: %q with rest %q\n"
            [stripMarker (firstToken (afterFirstSpace msg.Text)),
             afterFirstSpace (afterFirstSpace msg.Text)]]
          (b.handleCommandMessage (stripMarker (firstToken (afterFirstSpace msg.Text)))
            (afterFirstSpace (afterFirstSpace msg.Text)) (some msg))) := by
  have h1 : strings.HasPrefix (firstToken msg.Text) "!" = false := by
    rw [hmention]; exact HasPrefix_mention_bang _
  have h2 : strings.HasPrefix (firstToken msg.Text) "<@" = true := by
    rw [hmention]; exact HasPrefix_mention _
  unfold tryMessageAsCommand
  simp only [Split_eq msg.Text, hsecond, if_true, h1, h2]
  rw [Split_eq (afterFirstSpace msg.Text)]
  simp only [TrimPrefix_bang, Join_rest]
  simp [hmention]

/-- A text that is neither a bare command nor a mention of the bot followed by
a further token only causes logger calls. -/
theorem tryMessageAsCommand_ignored (b : botImpl) (msg : Message)
    (hbang : strings.HasPrefix (firstToken msg.Text) "!" = false)
    (hmention : ¬ (firstToken msg.Text = "<@" ++ b.slack.BotID ++ ">" ∧
      hasSecondToken msg.Text = true)) :
    (b.tryMessageAsCommand (some msg)).actions = [] ∧
    (b.tryMessageAsCommand (some msg)).panicked = false := by
  unfold tryMessageAsCommand
  simp only [Split_eq msg.Text, hbang]
  cases h2 : strings.HasPrefix (firstToken msg.Text) "<@" with
  | false => simp [Outcome.actions]
  | true =>
    by_cases he : firstToken msg.Text = "<@" ++ b.slack.BotID ++ ">"
    · have hs : ¬ (hasSecondToken msg.Text = true) := fun h => hmention ⟨he, h⟩
      simp [Outcome.actions, Outcome.after, he, hs]
    · simp [Outcome.actions, Outcome.after, he]

end botImpl

/-- C5: for every message whose first token neither starts with `!` nor is
the mention of the bot followed by a further token (ordinary text, the empty
text, a mention of somebody else, a mention of the bot with nothing after it),
`tryMessageAsCommand` makes no call but logger calls: no registry lookup, no
handler invocation, no reply, no reaction; and it does not panic. -/
theorem no_command_no_dispatch (b : botImpl) (msg : Message)
    (hbang : strings.HasPrefix (firstToken msg.Text) "!" = false)
    (hmention : ¬ (firstToken msg.Text = "<@" ++ b.slack.BotID ++ ">" ∧
      hasSecondToken msg.Text = true)) :
    (b.tryMessageAsCommand (some msg)).actions = [] ∧
    (b.tryMessageAsCommand (some msg)).events.filter Event.isLookup = [] ∧
    (b.tryMessageAsCommand (some msg)).events.filter Event.isRun = [] ∧
    (b.tryMessageAsCommand (some msg)).events.filter Event.isSend = [] ∧
    (b.tryMessageAsCommand (some msg)).events.filter Event.isReaction = [] ∧
    (b.tryMessageAsCommand (some msg)).panicked = false := by
  obtain ⟨ha, hp⟩ := botImpl.tryMessageAsCommand_ignored b msg hbang hmention
  have hl : ∀ e, Event.isLookup e = true → e.isLog = false := by
    intro e h; cases e <;> simp_all
  have hs : ∀ e, Event.isSend e = true → e.isLog = false := by
    intro e h; cases e <;> simp_all
  have hr : ∀ e, Event.isReaction e = true → e.isLog = false := by
    intro e h; cases e <;> simp_all
  unfold Outcome.actions at ha
  refine ⟨ha, ?_, ?_, ?_, ?_, hp⟩
  · rw [filter_actions _ hl, ha]; rfl
  · rw [filter_actions _ isRun_not_log, ha]; rfl
  · rw [filter_actions _ hs, ha]; rfl
  · rw [filter_actions _ hr, ha]; rfl

/-- Witness for C5: the mention `<@UXXX>` of somebody else when the bot is
`U000`, on the bot that knows the command `test`. -/
theorem no_command_no_dispatch_witness :
    (testBot.tryMessageAsCommand (some (textMessage "<@UXXX>"))).actions = [] ∧
    (testBot.tryMessageAsCommand (some (textMessage "<@UXXX>"))).events.filter
      Event.isLookup = [] ∧
    (testBot.tryMessageAsCommand (some (textMessage "<@UXXX>"))).events.filter
      Event.isRun = [] ∧
    (testBot.tryMessageAsCommand (some (textMessage "<@UXXX>"))).events.filter
      Event.isSend = [] ∧
    (testBot.tryMessageAsCommand (some (textMessage "<@UXXX>"))).events.filter
      Event.isReaction = [] ∧
    (testBot.tryMessageAsCommand (some (textMessage "<@UXXX>"))).panicked = false :=
  no_command_no_dispatch testBot (textMessage "<@UXXX>") (by decide) (by decide)

/-! ## Dispatcher: bare commands and mentions -/

/-- A token that starts with `!` is `!` followed by its command name. -/
theorem bang_stripMarker (token : String) (h : strings.HasPrefix token "!" = true) :
    token = "!" ++ stripMarker token := by
  obtain ⟨l⟩ := token
  have hd : "!".data = ['!'] := rfl
  unfold strings.HasPrefix at h
  rw [hd] at h
  cases l with
  | nil => simp [List.isPrefixOf] at h
  | cons c cs =>
    have hc : c = '!' := by
      simp only [List.isPrefixOf, Bool.and_eq_true, beq_iff_eq] at h
      exact h.1.symm
    subst hc
    rfl

/-- C3, the claim as stated fails: on a registry that holds a command named
`help`, the text `!help` has a first token starting with `!`, the resolved name
`help` is registered, and yet no handler is invoked (the help text is sent to
the channel instead). -/
theorem bare_reserved_command_not_run :
    strings.HasPrefix (firstToken (textMessage "!help").Text) "!" = true ∧
    helpBot.registry.GetCommand (stripMarker (firstToken (textMessage "!help").Text)) =
      some helpCommand ∧
    (helpBot.tryMessageAsCommand (some (textMessage "!help"))).events.filter Event.isRun = [] ∧
    (helpBot.tryMessageAsCommand (some (textMessage "!help"))).actions =
      [Event.sendMessage (helpBot.botHelpText "") "C000"] :=
  ⟨by decide, rfl, rfl, rfl⟩

/-- C3, amended: for every message text whose first token starts with `!`, the
first token is `!` followed by the resolved command name, and
`tryMessageAsCommand` behaves as `handleCommandMessage` on that name and on
everything after the first space of the text (empty when there is no space,
inner spacing kept); when that name is registered and is not one of the
reserved names `help`, `-h`, `--help`, the handler of the registered entry is
invoked exactly once, with that rest string and a run context bound to the
message: it holds the message itself, the storage of the bot and its Slack
client. -/
theorem bare_command_dispatch (b : botImpl) (hreach : b.registry.Reachable) (msg : Message)
    (hbang : strings.HasPrefix (firstToken msg.Text) "!" = true) :
    firstToken msg.Text = "!" ++ stripMarker (firstToken msg.Text) ∧
    (b.tryMessageAsCommand (some msg)).actions =
      (b.handleCommandMessage (stripMarker (firstToken msg.Text))
        (afterFirstSpace msg.Text) (some msg)).actions ∧
    (b.tryMessageAsCommand (some msg)).panicked =
      (b.handleCommandMessage (stripMarker (firstToken msg.Text))
        (afterFirstSpace msg.Text) (some msg)).panicked ∧
    (∀ cmd, isReserved (stripMarker (firstToken msg.Text)) = false →
      b.registry.GetCommand (stripMarker (firstToken msg.Text)) = some cmd →
      (b.tryMessageAsCommand (some msg)).events.filter Event.isRun =
        [Event.runCommand cmd (afterFirstSpace msg.Text)
          { Message := some msg, Storage := b.storage, Slack := b.slack }]) ∧
    (b.runCtx (some msg)).Message = some msg := by
  refine ⟨bang_stripMarker _ hbang, ?_, ?_, ?_, rfl⟩
  · rw [botImpl.tryMessageAsCommand_bang b msg hbang, actions_after_log, actions_after_log]
  · rw [botImpl.tryMessageAsCommand_bang b msg hbang]
    rfl
  · intro cmd hres hreg
    obtain ⟨_, hne, hH⟩ := hreach.cmdsMap_valid _ _ hreg
    obtain ⟨h, hh⟩ := Option.ne_none_iff_exists'.mp hH
    rw [botImpl.tryMessageAsCommand_bang b msg hbang, runs_after_log, runs_after_log]
    exact botImpl.handleCommandMessage_runs b _ _ _ cmd h hne hres hreg hh

/-- Witness for C3: `!test hello world!!!` runs the handler of `test` once,
with the rest `hello world!!!`. -/
theorem bare_command_dispatch_witness :
    (testBot.tryMessageAsCommand (some (textMessage "!test hello world!!!"))).events.filter
        Event.isRun =
      [Event.runCommand testCommand "hello world!!!"
        { Message := some (textMessage "!test hello world!!!"), Storage := { handle := 0 },
          Slack := mockClient }] :=
  (bare_command_dispatch testBot
    (CommandRegistry.Reachable.addCommand _ _ CommandRegistry.Reachable.new)
    (textMessage "!test hello world!!!") (by decide)).2.2.2.1 testCommand (by decide) rfl

/-- C4, the claim as stated fails: on a registry that holds a command named
`help`, the text `<@U000> help` addressed to the bot `U000` has the mention as
first token and `help` as second token, the name `help` is registered, and yet
no handler is invoked (the help text is sent to the channel instead). -/
theorem mention_reserved_command_not_run :
    firstToken (textMessage "<@U000> help").Text = "<@" ++ helpBot.slack.BotID ++ ">" ∧
    hasSecondToken (textMessage "<@U000> help").Text = true ∧
    helpBot.registry.GetCommand
        (stripMarker (firstToken (afterFirstSpace (textMessage "<@U000> help").Text))) =
      some helpCommand ∧
    (helpBot.tryMessageAsCommand (some (textMessage "<@U000> help"))).events.filter
      Event.isRun = [] ∧
    (helpBot.tryMessageAsCommand (some (textMessage "<@U000> help"))).actions =
      [Event.sendMessage (helpBot.botHelpText "") "C000"] :=
  ⟨by decide, by decide, rfl, rfl, rfl⟩

/-- C4, amended: for every message text whose first token equals
`<@` + BotID + `>` and that has a second token, `tryMessageAsCommand` behaves
as `handleCommandMessage` on the second token with one leading `!` (if present)
removed and on everything after the second token; when that name is registered
and is not one of the reserved names `help`, `-h`, `--help`, the handler of the
registered entry is invoked exactly once, with that rest string and the run
context of the message. -/
theorem mention_command_dispatch (b : botImpl) (hreach : b.registry.Reachable) (msg : Message)
    (hmention : firstToken msg.Text = "<@" ++ b.slack.BotID ++ ">")
    (hsecond : hasSecondToken msg.Text = true) :
    (b.tryMessageAsCommand (some msg)).actions =
      (b.handleCommandMessage (stripMarker (firstToken (afterFirstSpace msg.Text)))
        (afterFirstSpace (afterFirstSpace msg.Text)) (some msg)).actions ∧
    (b.tryMessageAsCommand (some msg)).panicked =
      (b.handleCommandMessage (stripMarker (firstToken (afterFirstSpace msg.Text)))
        (afterFirstSpace (afterFirstSpace msg.Text)) (some msg)).panicked ∧
    (∀ cmd, isReserved (stripMarker (firstToken (afterFirstSpace msg.Text))) = false →
      b.registry.GetCommand (stripMarker (firstToken (afterFirstSpace msg.Text))) = some cmd →
      (b.tryMessageAsCommand (some msg)).events.filter Event.isRun =
        [Event.runCommand cmd (afterFirstSpace (afterFirstSpace msg.Text))
          (b.runCtx (some msg))]) := by
  refine ⟨?_, ?_, ?_⟩
  · rw [botImpl.tryMessageAsCommand_mention b msg hmention hsecond, actions_after_log,
      actions_after_log]
  · rw [botImpl.tryMessageAsCommand_mention b msg hmention hsecond]
    rfl
  · intro cmd hres hreg
    obtain ⟨_, hne, hH⟩ := hreach.cmdsMap_valid _ _ hreg
    obtain ⟨h, hh⟩ := Option.ne_none_iff_exists'.mp hH
    rw [botImpl.tryMessageAsCommand_mention b msg hmention hsecond, runs_after_log,
      runs_after_log]
    exact botImpl.handleCommandMessage_runs b _ _ _ cmd h hne hres hreg hh

/-- Witness for C4: with the bot `U000`, the texts `<@U000> !test` and
`<@U000> test` run the handler of `test` once with the empty rest, and
`<@U000> test hello world!!!` runs it once with the rest `hello world!!!`. -/
theorem mention_command_dispatch_witness :
    (testBot.tryMessageAsCommand (some (textMessage "<@U000> !test"))).events.filter
        Event.isRun =
      [Event.runCommand testCommand "" (testBot.runCtx (some (textMessage "<@U000> !test")))] ∧
    (testBot.tryMessageAsCommand (some (textMessage "<@U000> test"))).events.filter
        Event.isRun =
      [Event.runCommand testCommand "" (testBot.runCtx (some (textMessage "<@U000> test")))] ∧
    (testBot.tryMessageAsCommand
        (some (textMessage "<@U000> test hello world!!!"))).events.filter Event.isRun =
      [Event.runCommand testCommand "hello world!!!"
        (testBot.runCtx (some (textMessage "<@U000> test hello world!!!")))] :=
  ⟨(mention_command_dispatch testBot
      (CommandRegistry.Reachable.addCommand _ _ CommandRegistry.Reachable.new)
      (textMessage "<@U000> !test") (by decide) (by decide)).2.2 testCommand (by decide) rfl,
   (mention_command_dispatch testBot
      (CommandRegistry.Reachable.addCommand _ _ CommandRegistry.Reachable.new)
      (textMessage "<@U000> test") (by decide) (by decide)).2.2 testCommand (by decide) rfl,
   (mention_command_dispatch testBot
      (CommandRegistry.Reachable.addCommand _ _ CommandRegistry.Reachable.new)
      (textMessage "<@U000> test hello world!!!") (by decide) (by decide)).2.2
      testCommand (by decide) rfl⟩

/-! ## Dispatcher: the pattern phase -/

namespace botImpl

theorem tryPatterns_nil (b : botImpl) (m : Option Message) :
    b.tryPatterns m [] = { events := [], panicked := false } := rfl

/-- One turn of the loop for a pattern that has a handler and an expression,
on a non-nil message. -/
theorem tryPatterns_step (b : botImpl) (msg : Message) (p : PatternCommand)
    (rest : List PatternCommand) (h : PatternHandler) (re : Regexp)
    (hh : p.Handler = some h) (hre : p.Pattern = some re) :
    b.tryPatterns (some msg) (p :: rest) =
      if (re.FindAllStringSubmatch msg.Text).length > 0 then
        match h.Run (re.FindAllStringSubmatch msg.Text) (b.runCtx (some msg)) with
        | (_, some err) =>
          Outcome.after
            [Event.log LogLevel.info "pattern %q matched with %q" [p.Name, re.expr],
             Event.runPattern p (re.FindAllStringSubmatch msg.Text) (b.runCtx (some msg)),
             Event.log LogLevel.error "Pattern %q returned an error: %v" [p.Name, err]]
            (b.tryPatterns (some msg) rest)
        | (res, none) =>
          Outcome.after
            [Event.log LogLevel.info "pattern %q matched with %q" [p.Name, re.expr],
             Event.runPattern p (re.FindAllStringSubmatch msg.Text) (b.runCtx (some msg))]
            (Outcome.andThen (b.handleRunResult (some msg) res)
              (b.tryPatterns (some msg) rest))
      else b.tryPatterns (some msg) rest := by
  obtain ⟨name, ph, pp⟩ := p
  simp only at hh hre
  subst hh hre
  rfl

/-- The events of the loop body for one pattern that has a handler and an
expression, on a non-nil message. -/
theorem tryPatterns_cons (b : botImpl) (msg : Message) (p : PatternCommand)
    (rest : List PatternCommand) (hp : p.Handler ≠ none ∧ p.Pattern ≠ none) :
    (b.tryPatterns (some msg) (p :: rest)).events =
      (b.tryPatterns (some msg) [p]).events ++ (b.tryPatterns (some msg) rest).events ∧
    (b.tryPatterns (some msg) (p :: rest)).panicked =
      (b.tryPatterns (some msg) rest).panicked ∧
    (b.tryPatterns (some msg) [p]).panicked = false := by
  obtain ⟨h, hh⟩ := Option.ne_none_iff_exists'.mp hp.1
  obtain ⟨re, hre⟩ := Option.ne_none_iff_exists'.mp hp.2
  rw [tryPatterns_step b msg p rest h re hh hre, tryPatterns_step b msg p [] h re hh hre,
    tryPatterns_nil]
  by_cases hm : (re.FindAllStringSubmatch msg.Text).length > 0
  · simp only [hm, if_true]
    rcases hrun : h.Run (re.FindAllStringSubmatch msg.Text) (b.runCtx (some msg)) with ⟨res, err⟩
    cases err with
    | some e => simp [Outcome.after]
    | none =>
      have hok := handleRunResult_ok b msg res
      simp [Outcome.after, Outcome.andThen, hok]
  · simp [hm]

theorem tryPatterns_ok (b : botImpl) (msg : Message) (l : List PatternCommand)
    (hl : ∀ p ∈ l, p.Handler ≠ none ∧ p.Pattern ≠ none) :
    (b.tryPatterns (some msg) l).panicked = false := by
  induction l with
  | nil => rfl
  | cons p rest ih =>
    rw [(tryPatterns_cons b msg p rest (hl p (List.mem_cons_self _ _))).2.1]
    exact ih (fun q hq => hl q (List.mem_cons_of_mem _ hq))

theorem tryPatterns_append (b : botImpl) (msg : Message) (l1 l2 : List PatternCommand)
    (hl : ∀ p ∈ l1, p.Handler ≠ none ∧ p.Pattern ≠ none) :
    (b.tryPatterns (some msg) (l1 ++ l2)).events =
      (b.tryPatterns (some msg) l1).events ++ (b.tryPatterns (some msg) l2).events := by
  induction l1 with
  | nil => simp [tryPatterns]
  | cons p rest ih =>
    have hp := hl p (List.mem_cons_self _ _)
    rw [List.cons_append, (tryPatterns_cons b msg p (rest ++ l2) hp).1,
      (tryPatterns_cons b msg p rest hp).1,
      ih (fun q hq => hl q (List.mem_cons_of_mem _ hq)), List.append_assoc]

/-- The handler invocation of the loop body for one pattern. -/
theorem tryPatterns_single_runs (b : botImpl) (msg : Message) (p : PatternCommand)
    (hp : p.Handler ≠ none ∧ p.Pattern ≠ none) :
    (b.tryPatterns (some msg) [p]).events.filter Event.isRun =
      (patternRun b msg p).toList := by
  obtain ⟨h, hh⟩ := Option.ne_none_iff_exists'.mp hp.1
  obtain ⟨re, hre⟩ := Option.ne_none_iff_exists'.mp hp.2
  rw [tryPatterns_step b msg p [] h re hh hre, tryPatterns_nil]
  unfold patternRun
  simp only [hre]
  by_cases hm : (re.FindAllStringSubmatch msg.Text).length > 0
  · simp only [hm, if_true]
    rcases hrun : h.Run (re.FindAllStringSubmatch msg.Text) (b.runCtx (some msg)) with ⟨res, err⟩
    cases err with
    | some e =>
      simp [Outcome.after]
      rfl
    | none =>
      have hok := handleRunResult_ok b msg res
      have hnr := handleRunResult_no_run b (some msg) res
      simp [Outcome.after, Outcome.andThen, hok, hnr]
      rfl
  · simp [hm]

theorem tryPatterns_runs (b : botImpl) (msg : Message) (l : List PatternCommand)
    (hl : ∀ p ∈ l, p.Handler ≠ none ∧ p.Pattern ≠ none) :
    (b.tryPatterns (some msg) l).events.filter Event.isRun = l.filterMap (patternRun b msg) := by
  induction l with
  | nil => rfl
  | cons p rest ih =>
    have hp := hl p (List.mem_cons_self _ _)
    rw [(tryPatterns_cons b msg p rest hp).1, List.filter_append,
      tryPatterns_single_runs b msg p hp, ih (fun q hq => hl q (List.mem_cons_of_mem _ hq))]
    cases hr : patternRun b msg p with
    | none => simp [List.filterMap_cons, hr]
    | some e => simp [List.filterMap_cons, hr]

end botImpl

/-- C9: for every message, `tryMessageAsPattern` goes through the registered
patterns in registration order and runs the handler of a pattern exactly when
the find-all-submatches of its expression on the message text is non-empty,
once, with that full list of submatches and a run context bound to the
message: the handler invocations of the run are, in order, the invocations due
for the registered patterns, a pattern without match contributing none; the run
context that every invocation gets holds the message itself, the storage of
the bot and its Slack client; the run does not panic. -/
theorem pattern_phase_invocations (b : botImpl) (hreach : b.registry.Reachable)
    (msg : Message) :
    (b.tryMessageAsPattern (some msg)).events.filter Event.isRun =
      b.registry.GetPatterns.filterMap (patternRun b msg) ∧
    (∀ p subs ctx, Event.runPattern p subs ctx ∈ (b.tryMessageAsPattern (some msg)).events →
      ctx.Message = some msg ∧ ctx.Storage = b.storage ∧ ctx.Slack = b.slack) ∧
    (b.runCtx (some msg)).Message = some msg ∧
    (b.tryMessageAsPattern (some msg)).panicked = false := by
  have hruns : (b.tryMessageAsPattern (some msg)).events.filter Event.isRun =
      b.registry.GetPatterns.filterMap (patternRun b msg) :=
    botImpl.tryPatterns_runs b msg _ hreach.patternsList_valid
  refine ⟨hruns, ?_, rfl, botImpl.tryPatterns_ok b msg _ hreach.patternsList_valid⟩
  intro p subs ctx hmem
  have hf : Event.runPattern p subs ctx ∈
      (b.tryMessageAsPattern (some msg)).events.filter Event.isRun :=
    List.mem_filter.mpr ⟨hmem, rfl⟩
  rw [hruns] at hf
  obtain ⟨q, _, hq⟩ := List.mem_filterMap.mp hf
  unfold patternRun at hq
  split at hq
  · split at hq
    · injection hq with hq
      injection hq with _ _ hctx
      subst hctx
      exact ⟨rfl, rfl, rfl⟩
    · cases hq
  · cases hq

/-- Witness for C9: the pattern `hello (.*)` is run on `hello world` with the
submatches `[["hello world", "world"]]`, and is not run on `whatever`. -/
theorem pattern_phase_invocations_witness :
    (helloBot.tryMessageAsPattern (some (textMessage "hello world"))).events.filter
        Event.isRun =
      [Event.runPattern helloPattern [["hello world", "world"]]
        { Message := some (textMessage "hello world"), Storage := { handle := 0 },
          Slack := mockClient }] ∧
    (helloBot.tryMessageAsPattern (some (textMessage "whatever"))).events.filter
        Event.isRun = [] :=
  ⟨(pattern_phase_invocations helloBot
      (CommandRegistry.Reachable.addPattern _ _ CommandRegistry.Reachable.new)
      (textMessage "hello world")).1,
   (pattern_phase_invocations helloBot
      (CommandRegistry.Reachable.addPattern _ _ CommandRegistry.Reachable.new)
      (textMessage "whatever")).1⟩

/-! ## Dispatcher: a failing pattern handler -/

namespace botImpl

theorem addReactionsLoop_registry (b : botImpl) (r : CommandRegistry) (m : Option Message)
    (rs : List String) :
    addReactionsLoop { b with registry := r } m rs = addReactionsLoop b m rs := by
  induction rs with
  | nil => rfl
  | cons x xs ih =>
    show Event.addReaction x m ::
        ((match b.slack.AddReaction x m with
          | some err => [Event.log LogLevel.error "Failed to add reaction: %v" [err]]
          | none => []) ++ addReactionsLoop { b with registry := r } m xs) = _
    rw [ih]
    rfl

theorem handleRunResult_registry (b : botImpl) (r : CommandRegistry) (m : Option Message)
    (res : RunResult) :
    handleRunResult { b with registry := r } m res = handleRunResult b m res := by
  unfold handleRunResult addReactions
  rw [addReactionsLoop_registry]

/-- The pattern loop reads the storage and the client of the bot, not its
registry. -/
theorem tryPatterns_registry (b : botImpl) (r : CommandRegistry) (m : Option Message)
    (l : List PatternCommand) :
    tryPatterns { b with registry := r } m l = tryPatterns b m l := by
  induction l with
  | nil => rfl
  | cons p rest ih =>
    unfold tryPatterns
    rw [ih]
    simp only [handleRunResult_registry]
    rfl

/-- The loop body for a matching pattern whose handler returns an error: the
match is logged, the handler is run, the error is logged. -/
theorem tryPatterns_single_error (b : botImpl) (msg : Message) (bad : PatternCommand)
    (h : PatternHandler) (re : Regexp) (res : RunResult) (err : String)
    (hH : bad.Handler = some h) (hre : bad.Pattern = some re)
    (hmatch : (re.FindAllStringSubmatch msg.Text).length > 0)
    (herr : h.Run (re.FindAllStringSubmatch msg.Text) (b.runCtx (some msg)) = (res, some err)) :
    (b.tryPatterns (some msg) [bad]).events =
      [Event.log LogLevel.info "pattern %q matched with %q" [bad.Name, re.expr],
       Event.runPattern bad (re.FindAllStringSubmatch msg.Text) (b.runCtx (some msg)),
       Event.log LogLevel.error "Pattern %q returned an error: %v" [bad.Name, err]] := by
  rw [tryPatterns_step b msg bad [] h re hH hre, tryPatterns_nil, if_pos hmatch, herr]
  rfl

end botImpl

/-- C10: a handler error in the pattern phase is isolated.  When the
registered patterns are `pre`, then a pattern `bad` that matches the message
and whose handler returns an error, then `post`, the run is the run over `pre`,
followed by the invocation of `bad` between two logger calls (no reply, no
reaction), followed by the run over `post`: every other matching pattern is
still invoked, and the replies and reactions are exactly those of the same bot
with a registry that lists `pre` and `post` only. -/
theorem pattern_error_isolated (b : botImpl) (hreach : b.registry.Reachable)
    (r : CommandRegistry) (msg : Message) (pre post : List PatternCommand)
    (bad : PatternCommand) (h : PatternHandler) (re : Regexp) (res : RunResult) (err : String)
    (hlist : b.registry.GetPatterns = pre ++ bad :: post)
    (hr : r.GetPatterns = pre ++ post)
    (hH : bad.Handler = some h) (hre : bad.Pattern = some re)
    (hmatch : (re.FindAllStringSubmatch msg.Text).length > 0)
    (herr : h.Run (re.FindAllStringSubmatch msg.Text) (b.runCtx (some msg)) = (res, some err)) :
    (b.tryMessageAsPattern (some msg)).events =
      (b.tryPatterns (some msg) pre).events ++
        [Event.log LogLevel.info "pattern %q matched with %q" [bad.Name, re.expr],
         Event.runPattern bad (re.FindAllStringSubmatch msg.Text) (b.runCtx (some msg)),
         Event.log LogLevel.error "Pattern %q returned an error: %v" [bad.Name, err]] ++
        (b.tryPatterns (some msg) post).events ∧
    (botImpl.tryMessageAsPattern { b with registry := r } (some msg)).events =
      (b.tryPatterns (some msg) pre).events ++ (b.tryPatterns (some msg) post).events ∧
    (b.tryMessageAsPattern (some msg)).events.filter Event.isRun =
      pre.filterMap (patternRun b msg) ++
        Event.runPattern bad (re.FindAllStringSubmatch msg.Text) (b.runCtx (some msg)) ::
        post.filterMap (patternRun b msg) ∧
    (b.tryMessageAsPattern (some msg)).events.filter Event.isChat =
      (botImpl.tryMessageAsPattern { b with registry := r } (some msg)).events.filter
        Event.isChat ∧
    (b.tryMessageAsPattern (some msg)).panicked = false := by
  have hvalid : ∀ p ∈ pre ++ bad :: post, p.Handler ≠ none ∧ p.Pattern ≠ none := by
    rw [← hlist]; exact hreach.patternsList_valid
  have hpre : ∀ p ∈ pre, p.Handler ≠ none ∧ p.Pattern ≠ none :=
    fun p hp => hvalid p (List.mem_append_left _ hp)
  have hbad : bad.Handler ≠ none ∧ bad.Pattern ≠ none :=
    hvalid bad (List.mem_append_right _ (List.mem_cons_self _ _))
  have hpost : ∀ p ∈ post, p.Handler ≠ none ∧ p.Pattern ≠ none :=
    fun p hp => hvalid p (List.mem_append_right _ (List.mem_cons_of_mem _ hp))
  have hA : (b.tryMessageAsPattern (some msg)).events =
      (b.tryPatterns (some msg) pre).events ++
        [Event.log LogLevel.info "pattern %q matched with %q" [bad.Name, re.expr],
         Event.runPattern bad (re.FindAllStringSubmatch msg.Text) (b.runCtx (some msg)),
         Event.log LogLevel.error "Pattern %q returned an error: %v" [bad.Name, err]] ++
        (b.tryPatterns (some msg) post).events := by
    unfold botImpl.tryMessageAsPattern
    rw [hlist, botImpl.tryPatterns_append b msg pre _ hpre,
      (botImpl.tryPatterns_cons b msg bad post hbad).1,
      botImpl.tryPatterns_single_error b msg bad h re res err hH hre hmatch herr,
      List.append_assoc]
  have hB : (botImpl.tryMessageAsPattern { b with registry := r } (some msg)).events =
      (b.tryPatterns (some msg) pre).events ++ (b.tryPatterns (some msg) post).events := by
    unfold botImpl.tryMessageAsPattern
    rw [botImpl.tryPatterns_registry]
    show (b.tryPatterns (some msg) r.GetPatterns).events = _
    rw [hr, botImpl.tryPatterns_append b msg pre _ hpre]
  refine ⟨hA, hB, ?_, ?_, ?_⟩
  · rw [hA, List.filter_append, List.filter_append, botImpl.tryPatterns_runs b msg pre hpre,
      botImpl.tryPatterns_runs b msg post hpost]
    simp
  · rw [hA, hB]
    simp [List.filter_append]
  · unfold botImpl.tryMessageAsPattern
    exact botImpl.tryPatterns_ok b msg _ hreach.patternsList_valid

/-- Witness for C10: with the failing `hello (.*)` pattern registered before a
pattern that greets every message, `hello world` still gets the greeting and
its reaction, which is all the bot without the failing pattern does. -/
theorem pattern_error_isolated_witness :
    (isolationBot.tryMessageAsPattern (some (textMessage "hello world"))).events.filter
        Event.isChat =
      (greetBot.tryMessageAsPattern (some (textMessage "hello world"))).events.filter
        Event.isChat ∧
    (greetBot.tryMessageAsPattern (some (textMessage "hello world"))).events.filter
        Event.isChat =
      [Event.sendMessage "hi" "C000",
       Event.addReaction "wave" (some (textMessage "hello world"))] :=
  ⟨(pattern_error_isolated isolationBot
      (CommandRegistry.Reachable.addPattern _ _
        (CommandRegistry.Reachable.addPattern _ _ CommandRegistry.Reachable.new))
      greetBot.registry (textMessage "hello world") [] [greetPattern] failingPattern
      { Run := fun _ _ =>
          ({ Message := "never sent", Reactji := ["boom"] }, some "danger danger") }
      helloRegexp { Message := "never sent", Reactji := ["boom"] } "danger danger"
      rfl rfl rfl rfl (by decide) rfl).2.2.2.1,
   rfl⟩

/-! ## Registry: what an `Add` call does -/

namespace CommandRegistry

/-- An `AddCommand` call either rejects and returns the registry as it was, or
accepts a complete entry whose name was not bound and appends it. -/
theorem AddCommand_result (c : CommandRegistry) (cmd : Option BasicCommand) :
    ((c.AddCommand cmd).1 = c ∧ (c.AddCommand cmd).2 = false) ∨
    ∃ x, cmd = some x ∧ x.Name ≠ "" ∧ x.Handler ≠ none ∧
      GoMap.get c.cmdsMap x.Name = none ∧
      (c.AddCommand cmd).1 =
        { c with cmdsList := c.cmdsList ++ [x], cmdsMap := GoMap.set c.cmdsMap x.Name x } ∧
      (c.AddCommand cmd).2 = true := by
  cases cmd with
  | none => exact Or.inl ⟨rfl, rfl⟩
  | some x =>
    unfold AddCommand GoMap.found
    cases h1 : GoMap.get c.cmdsMap x.Name with
    | some y => simp [h1]
    | none =>
      by_cases h2 : x.Name = ""
      · simp [h1, h2]
      · cases h3 : x.Handler with
        | none => simp [h1, h2, h3]
        | some hd => exact Or.inr ⟨x, rfl, h2, by simp [h3], h1, by simp [h1, h2, h3], by simp [h1, h2, h3]⟩

/-- An `AddPattern` call either rejects and returns the registry as it was, or
accepts a complete entry whose name was not bound and appends it. -/
theorem AddPattern_result (c : CommandRegistry) (cmd : Option PatternCommand) :
    ((c.AddPattern cmd).1 = c ∧ (c.AddPattern cmd).2 = false) ∨
    ∃ x, cmd = some x ∧ x.Name ≠ "" ∧ (x.Handler ≠ none ∧ x.Pattern ≠ none) ∧
      GoMap.get c.patternsMap x.Name = none ∧
      (c.AddPattern cmd).1 =
        { c with patternsList := c.patternsList ++ [x],
                 patternsMap := GoMap.set c.patternsMap x.Name x } ∧
      (c.AddPattern cmd).2 = true := by
  cases cmd with
  | none => exact Or.inl ⟨rfl, rfl⟩
  | some x =>
    unfold AddPattern GoMap.found
    cases h1 : GoMap.get c.patternsMap x.Name with
    | some y => simp [h1]
    | none =>
      by_cases h2 : x.Name = ""
      · simp [h1, h2]
      · cases h3 : x.Handler with
        | none => simp [h1, h2, h3]
        | some hd =>
          cases h4 : x.Pattern with
          | none => simp [h1, h2, h3, h4]
          | some re =>
            exact Or.inr ⟨x, rfl, h2, ⟨by simp [h3], by simp [h4]⟩, h1,
              by simp [h1, h2, h3, h4], by simp [h1, h2, h3, h4]⟩

/-- An `AddReactionHandler` call either rejects and returns the registry as it
was, or accepts a complete entry whose name was not bound and appends it. -/
theorem AddReactionHandler_result (c : CommandRegistry) (cmd : Option ReactionCommand) :
    ((c.AddReactionHandler cmd).1 = c ∧ (c.AddReactionHandler cmd).2 = false) ∨
    ∃ x, cmd = some x ∧ x.Name ≠ "" ∧ x.Handler ≠ none ∧
      GoMap.get c.reactionHandlerMap x.Name = none ∧
      (c.AddReactionHandler cmd).1 =
        { c with reactionHandlerList := c.reactionHandlerList ++ [x],
                 reactionHandlerMap := GoMap.set c.reactionHandlerMap x.Name x } ∧
      (c.AddReactionHandler cmd).2 = true := by
  cases cmd with
  | none => exact Or.inl ⟨rfl, rfl⟩
  | some x =>
    unfold AddReactionHandler GoMap.found
    by_cases h2 : x.Name = ""
    · simp [h2]
    · cases h1 : GoMap.get c.reactionHandlerMap x.Name with
      | some y => simp [h1, h2]
      | none =>
        cases h3 : x.Handler with
        | none => simp [h1, h2, h3]
        | some hd =>
          exact Or.inr ⟨x, rfl, h2, by simp [h3], h1, by simp [h1, h2, h3], by simp [h1, h2, h3]⟩

end CommandRegistry

/-! ## Registry: the store invariant -/

theorem StoreInv_empty {α : Type} (name : α → String) (complete : α → Prop) :
    StoreInv name complete [] (GoMap.get ([] : GoMap α)) := by
  refine ⟨List.nodup_nil, ?_, ?_⟩
  · intro x hx; cases hx
  · intro n x
    constructor
    · intro h; cases h
    · intro h; cases h.1

/-- Appending a complete entry under a name that was not bound keeps the
invariant of a store. -/
theorem StoreInv_add {α : Type} (name : α → String) (complete : α → Prop) (list : List α)
    (map : GoMap α) (x : α) (hinv : StoreInv name complete list (GoMap.get map))
    (hname : name x ≠ "") (hx : complete x) (hfresh : GoMap.get map (name x) = none) :
    StoreInv name complete (list ++ [x]) (GoMap.get (GoMap.set map (name x) x)) := by
  obtain ⟨hnd, hval, hget⟩ := hinv
  have hnot : ∀ y ∈ list, name y ≠ name x := by
    intro y hy he
    have : GoMap.get map (name x) = some y := (hget (name x) y).mpr ⟨hy, he⟩
    rw [hfresh] at this
    cases this
  refine ⟨?_, ?_, ?_⟩
  · rw [List.map_append, List.nodup_append]
    refine ⟨hnd, List.nodup_singleton _, ?_⟩
    intro a ha hb
    simp only [List.map_cons, List.map_nil, List.mem_singleton] at hb
    obtain ⟨y, hy, rfl⟩ := List.mem_map.mp ha
    exact hnot y hy hb
  · intro y hy
    rcases List.mem_append.mp hy with h | h
    · exact hval y h
    · rw [List.mem_singleton.mp h]; exact ⟨hname, hx⟩
  · intro n y
    by_cases hn : n = name x
    · subst hn
      rw [GoMap.get_set_self]
      constructor
      · intro h
        cases h
        exact ⟨List.mem_append_right _ (List.mem_singleton_self _), rfl⟩
      · rintro ⟨hy, he⟩
        rcases List.mem_append.mp hy with h | h
        · exact absurd he (hnot y h)
        · rw [List.mem_singleton.mp h]
    · rw [GoMap.get_set_ne _ _ _ _ hn, hget]
      constructor
      · rintro ⟨hy, he⟩
        exact ⟨List.mem_append_left _ hy, he⟩
      · rintro ⟨hy, he⟩
        rcases List.mem_append.mp hy with h | h
        · exact ⟨h, he⟩
        · rw [List.mem_singleton.mp h] at he
          exact absurd he.symm hn

/-- The three stores of a reachable registry satisfy the store invariant. -/
theorem Reachable_stores {c : CommandRegistry} (hc : c.Reachable) :
    StoreInv BasicCommand.Name (fun x => x.Handler ≠ none) c.GetCommands c.GetCommand ∧
    StoreInv PatternCommand.Name (fun x => x.Handler ≠ none ∧ x.Pattern ≠ none)
      c.GetPatterns c.GetPattern ∧
    StoreInv ReactionCommand.Name (fun x => x.Handler ≠ none)
      c.GetReactionHandlers c.GetReactionHandler := by
  induction hc with
  | new => exact ⟨StoreInv_empty _ _, StoreInv_empty _ _, StoreInv_empty _ _⟩
  | addCommand c cmd _ ih =>
    rcases CommandRegistry.AddCommand_result c cmd with ⟨h, _⟩ | ⟨x, _, h1, h2, h3, h, _⟩
    · rw [h]; exact ih
    · rw [h]
      exact ⟨StoreInv_add _ _ _ _ x ih.1 h1 h2 h3, ih.2.1, ih.2.2⟩
  | addPattern c cmd _ ih =>
    rcases CommandRegistry.AddPattern_result c cmd with ⟨h, _⟩ | ⟨x, _, h1, h2, h3, h, _⟩
    · rw [h]; exact ih
    · rw [h]
      exact ⟨ih.1, StoreInv_add _ _ _ _ x ih.2.1 h1 h2 h3, ih.2.2⟩
  | addReactionHandler c cmd _ ih =>
    rcases CommandRegistry.AddReactionHandler_result c cmd with
      ⟨h, _⟩ | ⟨x, _, h1, h2, h3, h, _⟩
    · rw [h]; exact ih
    · rw [h]
      exact ⟨ih.1, ih.2.1, StoreInv_add _ _ _ _ x ih.2.2 h1 h2 h3⟩

theorem validRegistry_reachable : validRegistry.Reachable :=
  CommandRegistry.Reachable.addReactionHandler _ _
    (CommandRegistry.Reachable.addPattern _ _
      (CommandRegistry.Reachable.addCommand _ _ CommandRegistry.Reachable.new))

/-- C17: every registry reachable from `NewRegistry` by `AddCommand`,
`AddPattern` and `AddReactionHandler` calls, accepted or rejected, satisfies
for each of the three kinds: no two entries of the list share a name, every
listed entry has a non-empty name and a non-nil handler (and a non-nil
expression for patterns), and `Get(name)` returns an entry exactly when the
list holds that entry under that name. -/
theorem reachable_registry_invariant (c : CommandRegistry) (hc : c.Reachable) :
    StoreInv BasicCommand.Name (fun x => x.Handler ≠ none) c.GetCommands c.GetCommand ∧
    StoreInv PatternCommand.Name (fun x => x.Handler ≠ none ∧ x.Pattern ≠ none)
      c.GetPatterns c.GetPattern ∧
    StoreInv ReactionCommand.Name (fun x => x.Handler ≠ none)
      c.GetReactionHandlers c.GetReactionHandler :=
  Reachable_stores hc

/-- Witness for C17: the registry of the tests that holds `valid` in each
kind. -/
theorem reachable_registry_invariant_witness :
    StoreInv BasicCommand.Name (fun x => x.Handler ≠ none)
      validRegistry.GetCommands validRegistry.GetCommand ∧
    StoreInv PatternCommand.Name (fun x => x.Handler ≠ none ∧ x.Pattern ≠ none)
      validRegistry.GetPatterns validRegistry.GetPattern ∧
    StoreInv ReactionCommand.Name (fun x => x.Handler ≠ none)
      validRegistry.GetReactionHandlers validRegistry.GetReactionHandler :=
  reachable_registry_invariant validRegistry validRegistry_reachable

/-! ## Dispatcher: reaction events -/

namespace botImpl

/-- One turn of the reaction loop for an entry that has a handler. -/
theorem tryReactions_step (b : botImpl) (reaction : Option Reaction) (x : ReactionCommand)
    (rest : List ReactionCommand) (h : ReactionHandler) (hh : x.Handler = some h) :
    b.tryReactions reaction (x :: rest) =
      match h.Run reaction (b.runCtx none) with
      | some err =>
        Outcome.after
          [Event.runReaction x reaction (b.runCtx none),
           Event.log LogLevel.error "Reaction handler %q returned an error: %v" [x.Name, err]]
          (b.tryReactions reaction rest)
      | none =>
        Outcome.after [Event.runReaction x reaction (b.runCtx none)]
          (b.tryReactions reaction rest) := by
  obtain ⟨name, xh⟩ := x
  simp only at hh
  subst hh
  rfl

theorem tryReactions_actions (b : botImpl) (reaction : Option Reaction)
    (l : List ReactionCommand) (hl : ∀ x ∈ l, x.Handler ≠ none) :
    (b.tryReactions reaction l).actions =
      l.map (fun x => Event.runReaction x reaction (b.runCtx none)) ∧
    (b.tryReactions reaction l).panicked = false := by
  induction l with
  | nil => exact ⟨rfl, rfl⟩
  | cons x rest ih =>
    obtain ⟨h, hh⟩ := Option.ne_none_iff_exists'.mp (hl x (List.mem_cons_self _ _))
    have ih' := ih (fun y hy => hl y (List.mem_cons_of_mem _ hy))
    rw [tryReactions_step b reaction x rest h hh]
    unfold Outcome.actions at ih' ⊢
    cases h.Run reaction (b.runCtx none) with
    | none => simp [Outcome.after, ih'.1, ih'.2]
    | some err => simp [Outcome.after, ih'.1, ih'.2]

end botImpl

theorem isChat_not_log (e : Event) (h : e.isChat = true) : e.isLog = false := by
  cases e <;> simp_all

/-- C11: for every reaction event, `tryReactionHandlers` invokes the handler
of every registered reaction handler exactly once, in registration order, with
that reaction and a run context whose message is nil; this holds whatever the
handlers return, so a handler error does not keep the later handlers from being
invoked; apart from logger calls the dispatcher makes no other call: it sends
no reply and adds no reaction, and it does not panic. -/
theorem reaction_handlers_all_invoked (b : botImpl) (hreach : b.registry.Reachable)
    (reaction : Option Reaction) :
    (b.tryReactionHandlers reaction).actions =
      b.registry.GetReactionHandlers.map
        (fun x => Event.runReaction x reaction (b.runCtx none)) ∧
    (b.runCtx none).Message = none ∧
    (b.tryReactionHandlers reaction).events.filter Event.isChat = [] ∧
    (b.tryReactionHandlers reaction).panicked = false := by
  have hl : ∀ x ∈ b.registry.GetReactionHandlers, x.Handler ≠ none :=
    fun x hx => ((Reachable_stores hreach).2.2.2.1 x hx).2
  obtain ⟨ha, hp⟩ := botImpl.tryReactions_actions b reaction _ hl
  refine ⟨ha, rfl, ?_, hp⟩
  unfold botImpl.tryReactionHandlers
  unfold Outcome.actions at ha
  rw [filter_actions Event.isChat isChat_not_log, ha]
  simp [List.filter_eq_nil_iff]

/-- Witness for C11: a failing reaction handler registered before a quiet one;
both are run on the reaction, in that order. -/
theorem reaction_handlers_all_invoked_witness :
    (reactionBot.tryReactionHandlers (some thumbsup)).actions =
      [Event.runReaction failingReaction (some thumbsup) (reactionBot.runCtx none),
       Event.runReaction quietReaction (some thumbsup) (reactionBot.runCtx none)] :=
  (reaction_handlers_all_invoked reactionBot
    (CommandRegistry.Reachable.addReactionHandler _ _
      (CommandRegistry.Reachable.addReactionHandler _ _ CommandRegistry.Reachable.new))
    (some thumbsup)).1

/-! ## Registry: configurables -/

/-- C19: in a reachable registry `GetConfigurables` is the handlers of
`GetCommands()`, then the handlers of `GetPatterns()`, then the handlers of
`GetReactionHandlers()`, each block in the order of its list; its length is the
sum of the three list lengths and none of its elements is nil. -/
theorem configurables_concatenated (c : CommandRegistry) (hc : c.Reachable) :
    c.GetConfigurables =
      c.GetCommands.map (fun cmd => cmd.Handler.map Configurable.command) ++
      c.GetPatterns.map (fun p => p.Handler.map Configurable.pattern) ++
      c.GetReactionHandlers.map (fun h => h.Handler.map Configurable.reaction) ∧
    c.GetConfigurables.length =
      c.GetCommands.length + c.GetPatterns.length + c.GetReactionHandlers.length ∧
    (∀ x ∈ c.GetConfigurables, x ≠ none) := by
  obtain ⟨h1, h2, h3⟩ := Reachable_stores hc
  refine ⟨rfl, by simp [CommandRegistry.GetConfigurables, Nat.add_assoc], ?_⟩
  intro x hx
  unfold CommandRegistry.GetConfigurables at hx
  rcases List.mem_append.mp hx with hx | hx
  · rcases List.mem_append.mp hx with hx | hx
    · obtain ⟨y, hy, rfl⟩ := List.mem_map.mp hx
      obtain ⟨h, hh⟩ := Option.ne_none_iff_exists'.mp (h1.2.1 y hy).2
      simp [hh]
    · obtain ⟨y, hy, rfl⟩ := List.mem_map.mp hx
      obtain ⟨h, hh⟩ := Option.ne_none_iff_exists'.mp (h2.2.1 y hy).2.1
      simp [hh]
  · obtain ⟨y, hy, rfl⟩ := List.mem_map.mp hx
    obtain ⟨h, hh⟩ := Option.ne_none_iff_exists'.mp (h3.2.1 y hy).2
    simp [hh]

/-- Witness for C19: the registry holding `valid` in each kind has three
configurables: the command handler, the pattern handler, the reaction
handler. -/
theorem configurables_concatenated_witness :
    validRegistry.GetConfigurables =
      [some (Configurable.command mockCmdHandler), some (Configurable.pattern mockPatternHandler),
       some (Configurable.reaction mockReactionHandler)] ∧
    validRegistry.GetConfigurables.length =
      validRegistry.GetCommands.length + validRegistry.GetPatterns.length +
        validRegistry.GetReactionHandlers.length :=
  ⟨(configurables_concatenated validRegistry validRegistry_reachable).1,
   (configurables_concatenated validRegistry validRegistry_reachable).2.1⟩

/-! ## Registry: independent stores and the `MustAdd` functions -/

namespace CommandRegistry

/-- `AddCommand` returns false exactly for a nil entry, an empty name, a nil
handler or a name that is already bound. -/
theorem AddCommand_flag (c : CommandRegistry) (cmd : Option BasicCommand) :
    (c.AddCommand cmd).2 = false ↔
      (match cmd with
        | none => True
        | some x => x.Name = "" ∨ x.Handler = none ∨ c.GetCommand x.Name ≠ none) := by
  cases cmd with
  | none => simp [AddCommand]
  | some x =>
    unfold AddCommand GoMap.found GetCommand
    cases h1 : GoMap.get c.cmdsMap x.Name with
    | some y => simp [h1]
    | none =>
      by_cases h2 : x.Name = ""
      · simp [h1, h2]
      · cases h3 : x.Handler with
        | none => simp [h1, h2, h3]
        | some hd => simp [h1, h2, h3]

/-- `AddPattern` returns false exactly for a nil entry, an empty name, a nil
handler, a nil pattern or a name that is already bound. -/
theorem AddPattern_flag (c : CommandRegistry) (cmd : Option PatternCommand) :
    (c.AddPattern cmd).2 = false ↔
      (match cmd with
        | none => True
        | some x => x.Name = "" ∨ x.Handler = none ∨ x.Pattern = none ∨
            c.GetPattern x.Name ≠ none) := by
  cases cmd with
  | none => simp [AddPattern]
  | some x =>
    unfold AddPattern GoMap.found GetPattern
    cases h1 : GoMap.get c.patternsMap x.Name with
    | some y => simp [h1]
    | none =>
      by_cases h2 : x.Name = ""
      · simp [h1, h2]
      · cases h3 : x.Handler with
        | none => simp [h1, h2, h3]
        | some hd =>
          cases h4 : x.Pattern with
          | none => simp [h1, h2, h3, h4]
          | some re => simp [h1, h2, h3, h4]

/-- `AddReactionHandler` returns false exactly for a nil entry, an empty name,
a nil handler or a name that is already bound. -/
theorem AddReactionHandler_flag (c : CommandRegistry) (cmd : Option ReactionCommand) :
    (c.AddReactionHandler cmd).2 = false ↔
      (match cmd with
        | none => True
        | some x => x.Name = "" ∨ x.Handler = none ∨ c.GetReactionHandler x.Name ≠ none) := by
  cases cmd with
  | none => simp [AddReactionHandler]
  | some x =>
    unfold AddReactionHandler GoMap.found GetReactionHandler
    by_cases h2 : x.Name = ""
    · simp [h2]
    · cases h1 : GoMap.get c.reactionHandlerMap x.Name with
      | some y => simp [h1, h2]
      | none =>
        cases h3 : x.Handler with
        | none => simp [h1, h2, h3]
        | some hd => simp [h1, h2, h3]

theorem AddCommand_rejected (c : CommandRegistry) (cmd : Option BasicCommand)
    (h : (c.AddCommand cmd).2 = false) : (c.AddCommand cmd).1 = c := by
  rcases AddCommand_result c cmd with ⟨h1, _⟩ | ⟨x, _, _, _, _, _, h2⟩
  · exact h1
  · rw [h] at h2; cases h2

theorem AddPattern_rejected (c : CommandRegistry) (cmd : Option PatternCommand)
    (h : (c.AddPattern cmd).2 = false) : (c.AddPattern cmd).1 = c := by
  rcases AddPattern_result c cmd with ⟨h1, _⟩ | ⟨x, _, _, _, _, _, h2⟩
  · exact h1
  · rw [h] at h2; cases h2

theorem AddReactionHandler_rejected (c : CommandRegistry) (cmd : Option ReactionCommand)
    (h : (c.AddReactionHandler cmd).2 = false) : (c.AddReactionHandler cmd).1 = c := by
  rcases AddReactionHandler_result c cmd with ⟨h1, _⟩ | ⟨x, _, _, _, _, _, h2⟩
  · exact h1
  · rw [h] at h2; cases h2

/-- `AddCommand` leaves the pattern store and the reaction handler store as
they were. -/
theorem AddCommand_frame (c : CommandRegistry) (cmd : Option BasicCommand) :
    (c.AddCommand cmd).1.patternsList = c.patternsList ∧
    (c.AddCommand cmd).1.patternsMap = c.patternsMap ∧
    (c.AddCommand cmd).1.reactionHandlerList = c.reactionHandlerList ∧
    (c.AddCommand cmd).1.reactionHandlerMap = c.reactionHandlerMap := by
  rcases AddCommand_result c cmd with ⟨h, _⟩ | ⟨x, _, _, _, _, h, _⟩ <;> rw [h] <;>
    exact ⟨rfl, rfl, rfl, rfl⟩

/-- `AddPattern` leaves the command store and the reaction handler store as
they were. -/
theorem AddPattern_frame (c : CommandRegistry) (cmd : Option PatternCommand) :
    (c.AddPattern cmd).1.cmdsList = c.cmdsList ∧
    (c.AddPattern cmd).1.cmdsMap = c.cmdsMap ∧
    (c.AddPattern cmd).1.reactionHandlerList = c.reactionHandlerList ∧
    (c.AddPattern cmd).1.reactionHandlerMap = c.reactionHandlerMap := by
  rcases AddPattern_result c cmd with ⟨h, _⟩ | ⟨x, _, _, _, _, h, _⟩ <;> rw [h] <;>
    exact ⟨rfl, rfl, rfl, rfl⟩

/-- `AddReactionHandler` leaves the command store and the pattern store as
they were. -/
theorem AddReactionHandler_frame (c : CommandRegistry) (cmd : Option ReactionCommand) :
    (c.AddReactionHandler cmd).1.cmdsList = c.cmdsList ∧
    (c.AddReactionHandler cmd).1.cmdsMap = c.cmdsMap ∧
    (c.AddReactionHandler cmd).1.patternsList = c.patternsList ∧
    (c.AddReactionHandler cmd).1.patternsMap = c.patternsMap := by
  rcases AddReactionHandler_result c cmd with ⟨h, _⟩ | ⟨x, _, _, _, _, h, _⟩ <;> rw [h] <;>
    exact ⟨rfl, rfl, rfl, rfl⟩

end CommandRegistry

/-- C18: the three stores of a registry are independent.  `AddCommand` changes
neither the pattern store nor the reaction handler store, `AddPattern` and
`AddReactionHandler` likewise change only their own store, and whether an `Add`
accepts depends on the entry and on the name lookup of its own kind only: two
registries that agree on that lookup give the same answer, whatever the other
two stores hold. -/
theorem stores_independent (c : CommandRegistry) :
    (∀ cmd : Option BasicCommand,
      (c.AddCommand cmd).1.patternsList = c.patternsList ∧
      (c.AddCommand cmd).1.patternsMap = c.patternsMap ∧
      (c.AddCommand cmd).1.reactionHandlerList = c.reactionHandlerList ∧
      (c.AddCommand cmd).1.reactionHandlerMap = c.reactionHandlerMap) ∧
    (∀ cmd : Option PatternCommand,
      (c.AddPattern cmd).1.cmdsList = c.cmdsList ∧
      (c.AddPattern cmd).1.cmdsMap = c.cmdsMap ∧
      (c.AddPattern cmd).1.reactionHandlerList = c.reactionHandlerList ∧
      (c.AddPattern cmd).1.reactionHandlerMap = c.reactionHandlerMap) ∧
    (∀ cmd : Option ReactionCommand,
      (c.AddReactionHandler cmd).1.cmdsList = c.cmdsList ∧
      (c.AddReactionHandler cmd).1.cmdsMap = c.cmdsMap ∧
      (c.AddReactionHandler cmd).1.patternsList = c.patternsList ∧
      (c.AddReactionHandler cmd).1.patternsMap = c.patternsMap) ∧
    (∀ (c' : CommandRegistry) (cmd : Option BasicCommand),
      (∀ n, c'.GetCommand n = c.GetCommand n) →
      (c'.AddCommand cmd).2 = (c.AddCommand cmd).2) ∧
    (∀ (c' : CommandRegistry) (cmd : Option PatternCommand),
      (∀ n, c'.GetPattern n = c.GetPattern n) →
      (c'.AddPattern cmd).2 = (c.AddPattern cmd).2) ∧
    (∀ (c' : CommandRegistry) (cmd : Option ReactionCommand),
      (∀ n, c'.GetReactionHandler n = c.GetReactionHandler n) →
      (c'.AddReactionHandler cmd).2 = (c.AddReactionHandler cmd).2) := by
  refine ⟨CommandRegistry.AddCommand_frame c, CommandRegistry.AddPattern_frame c,
    CommandRegistry.AddReactionHandler_frame c, ?_, ?_, ?_⟩
  · intro c' cmd h
    have h1 := CommandRegistry.AddCommand_flag c cmd
    have h2 := CommandRegistry.AddCommand_flag c' cmd
    cases cmd with
    | none => simp [CommandRegistry.AddCommand]
    | some x =>
      simp only [h x.Name] at h2
      cases ha : (c.AddCommand (some x)).2 with
      | false => exact h2.mpr (h1.mp ha)
      | true =>
        cases hb : (c'.AddCommand (some x)).2 with
        | true => rfl
        | false => rw [h1.mpr (h2.mp hb)] at ha; cases ha
  · intro c' cmd h
    have h1 := CommandRegistry.AddPattern_flag c cmd
    have h2 := CommandRegistry.AddPattern_flag c' cmd
    cases cmd with
    | none => simp [CommandRegistry.AddPattern]
    | some x =>
      simp only [h x.Name] at h2
      cases ha : (c.AddPattern (some x)).2 with
      | false => exact h2.mpr (h1.mp ha)
      | true =>
        cases hb : (c'.AddPattern (some x)).2 with
        | true => rfl
        | false => rw [h1.mpr (h2.mp hb)] at ha; cases ha
  · intro c' cmd h
    have h1 := CommandRegistry.AddReactionHandler_flag c cmd
    have h2 := CommandRegistry.AddReactionHandler_flag c' cmd
    cases cmd with
    | none => simp [CommandRegistry.AddReactionHandler]
    | some x =>
      simp only [h x.Name] at h2
      cases ha : (c.AddReactionHandler (some x)).2 with
      | false => exact h2.mpr (h1.mp ha)
      | true =>
        cases hb : (c'.AddReactionHandler (some x)).2 with
        | true => rfl
        | false => rw [h1.mpr (h2.mp hb)] at ha; cases ha

/-- Witness for C18: as in `TestGlobalRegistry`, after the commands `one`,
`two`, `three` are registered, the patterns `one` and `two` and then the
reaction handlers `one` and `two` are all accepted; adding the pattern `one` to
the registry of the commands gives the same answer as adding it to a fresh
registry, and leaves the commands as they were. -/
theorem stores_independent_witness :
    ((NewRegistry.AddCommands (testCommands.map some)).1.AddPattern
        (some { Name := "one", Handler := some mockPatternHandler,
                Pattern := some egRegexp })).2 =
      (NewRegistry.AddPattern
        (some { Name := "one", Handler := some mockPatternHandler,
                Pattern := some egRegexp })).2 ∧
    ((NewRegistry.AddCommands (testCommands.map some)).1.AddPattern
        (some { Name := "one", Handler := some mockPatternHandler,
                Pattern := some egRegexp })).1.cmdsList =
      (NewRegistry.AddCommands (testCommands.map some)).1.cmdsList ∧
    ((NewRegistry.AddCommands (testCommands.map some)).1.AddPatterns
        (testPatterns.map some)).2 = [true, true] ∧
    (((NewRegistry.AddCommands (testCommands.map some)).1.AddPatterns
        (testPatterns.map some)).1.AddReactionHandlers (testReactionHandlers.map some)).2 =
      [true, true] :=
  ⟨(stores_independent NewRegistry).2.2.2.2.1
      (NewRegistry.AddCommands (testCommands.map some)).1 _ (fun _ => rfl),
   ((stores_independent (NewRegistry.AddCommands (testCommands.map some)).1).2.1 _).1,
   rfl, rfl⟩

/-- C20: `MustAddCommand`, `MustAddPattern` and `MustAddReactionHandler` panic
exactly when the corresponding `Add` on the default registry returns false,
that is for a nil entry, an empty name, a nil handler, a nil pattern or a name
that is already bound, and the default registry is then left as it was;
otherwise they return normally and the default registry is the one the plain
`Add` produces. -/
theorem must_add_panics_iff_rejected (d : CommandRegistry) :
    (∀ cmd : Option BasicCommand,
      ((MustAddCommand d cmd).panicked = true ↔ (d.AddCommand cmd).2 = false) ∧
      ((MustAddCommand d cmd).panicked = true ↔
        (match cmd with
          | none => True
          | some x => x.Name = "" ∨ x.Handler = none ∨ d.GetCommand x.Name ≠ none)) ∧
      ((MustAddCommand d cmd).panicked = true → (MustAddCommand d cmd).registry = d) ∧
      (MustAddCommand d cmd).registry = (d.AddCommand cmd).1) ∧
    (∀ cmd : Option PatternCommand,
      ((MustAddPattern d cmd).panicked = true ↔ (d.AddPattern cmd).2 = false) ∧
      ((MustAddPattern d cmd).panicked = true ↔
        (match cmd with
          | none => True
          | some x => x.Name = "" ∨ x.Handler = none ∨ x.Pattern = none ∨
              d.GetPattern x.Name ≠ none)) ∧
      ((MustAddPattern d cmd).panicked = true → (MustAddPattern d cmd).registry = d) ∧
      (MustAddPattern d cmd).registry = (d.AddPattern cmd).1) ∧
    (∀ cmd : Option ReactionCommand,
      ((MustAddReactionHandler d cmd).panicked = true ↔
        (d.AddReactionHandler cmd).2 = false) ∧
      ((MustAddReactionHandler d cmd).panicked = true ↔
        (match cmd with
          | none => True
          | some x => x.Name = "" ∨ x.Handler = none ∨
              d.GetReactionHandler x.Name ≠ none)) ∧
      ((MustAddReactionHandler d cmd).panicked = true →
        (MustAddReactionHandler d cmd).registry = d) ∧
      (MustAddReactionHandler d cmd).registry = (d.AddReactionHandler cmd).1) := by
  refine ⟨?_, ?_, ?_⟩
  · intro cmd
    have hp : (MustAddCommand d cmd).panicked = true ↔ (d.AddCommand cmd).2 = false := by
      unfold MustAddCommand
      cases (d.AddCommand cmd).2 <;> simp
    have hr : (MustAddCommand d cmd).registry = (d.AddCommand cmd).1 := by
      unfold MustAddCommand
      split <;> rfl
    exact ⟨hp, hp.trans (CommandRegistry.AddCommand_flag d cmd),
      fun h => hr.trans (CommandRegistry.AddCommand_rejected d cmd (hp.mp h)), hr⟩
  · intro cmd
    have hp : (MustAddPattern d cmd).panicked = true ↔ (d.AddPattern cmd).2 = false := by
      unfold MustAddPattern
      cases (d.AddPattern cmd).2 <;> simp
    have hr : (MustAddPattern d cmd).registry = (d.AddPattern cmd).1 := by
      unfold MustAddPattern
      split <;> rfl
    exact ⟨hp, hp.trans (CommandRegistry.AddPattern_flag d cmd),
      fun h => hr.trans (CommandRegistry.AddPattern_rejected d cmd (hp.mp h)), hr⟩
  · intro cmd
    have hp : (MustAddReactionHandler d cmd).panicked = true ↔
        (d.AddReactionHandler cmd).2 = false := by
      unfold MustAddReactionHandler
      cases (d.AddReactionHandler cmd).2 <;> simp
    have hr : (MustAddReactionHandler d cmd).registry = (d.AddReactionHandler cmd).1 := by
      unfold MustAddReactionHandler
      split <;> rfl
    exact ⟨hp, hp.trans (CommandRegistry.AddReactionHandler_flag d cmd),
      fun h => hr.trans (CommandRegistry.AddReactionHandler_rejected d cmd (hp.mp h)), hr⟩

/-- Witness for C20: on the registry that holds `valid` in each kind, a second
command named `valid` makes `MustAddCommand` panic and leaves the registry as
it was, and the new command `test` is registered without panic. -/
theorem must_add_panics_iff_rejected_witness :
    (MustAddCommand validRegistry
        (some { Name := "valid", Description := "", Icon := "",
                Handler := some mockCmdHandler })).registry = validRegistry ∧
    (MustAddCommand validRegistry (some testCommand)).panicked = false ∧
    (MustAddCommand validRegistry (some testCommand)).registry.GetCommand "test" =
      some testCommand :=
  ⟨((must_add_panics_iff_rejected validRegistry).1 _).2.2.1 rfl, rfl, rfl⟩

/-! ## Help text -/

theorem String_join_cons (x : String) (xs : List String) :
    String.join (x :: xs) = x ++ String.join xs := by
  apply String.ext
  simp [String.data_append]

theorem joinLines_cons (l : String) (T : List String) (hT : T ≠ []) :
    joinLines (l :: T) = l ++ "\n" ++ joinLines T := by
  cases T with
  | nil => exact absurd rfl hT
  | cons t ts => rfl

theorem joinLines_append {α : Type} (f : α → String) (xs : List α) (T : List String)
    (hT : T ≠ []) :
    joinLines (xs.map f ++ T) =
      String.join (xs.map (fun x => f x ++ "\n")) ++ joinLines T := by
  induction xs with
  | nil =>
    show joinLines T = "" ++ joinLines T
    rw [String.empty_append]
  | cons x rest ih =>
    have hne : rest.map f ++ T ≠ [] := by simp [hT]
    rw [List.map_cons, List.cons_append, joinLines_cons _ _ hne, ih, List.map_cons,
      String_join_cons]
    simp only [String.append_assoc]

theorem botHelpText_eq (b : botImpl) (userName : String) :
    b.botHelpText userName =
      joinLines (helpLines userName b.registry.GetCommands b.registry.GetPatterns
        b.registry.GetReactionHandlers) := by
  unfold helpLines
  simp only [List.append_assoc, List.cons_append, List.nil_append]
  rw [joinLines_cons _ _ (by simp), joinLines_cons _ _ (by simp),
    joinLines_append helpCommandLine _ _ (by simp), joinLines_cons _ _ (by simp),
    joinLines_append (fun p : PatternCommand => helpTrackLine p.Name) _ _ (by simp),
    joinLines_append (fun h : ReactionCommand => helpTrackLine h.Name) _ _ (by simp)]
  have hJ1 : (fun cmd : BasicCommand =>
      "\t\t :three_button_mouse: " ++ cmd.Icon ++ " `!" ++ cmd.Name ++ "` - " ++
        cmd.Description ++ "\n") = fun x => helpCommandLine x ++ "\n" := rfl
  have hJ2 : (fun pattern : PatternCommand => "\t\t :eyes: _" ++ pattern.Name ++ "_\n") =
      fun x => helpTrackLine x.Name ++ "\n" := by
    funext x
    unfold helpTrackLine
    rw [String.append_assoc _ "_" "\n"]
    rfl
  have hJ3 : (fun handler : ReactionCommand => "\t\t :eyes: _" ++ handler.Name ++ "_\n") =
      fun x => helpTrackLine x.Name ++ "\n" := by
    funext x
    unfold helpTrackLine
    rw [String.append_assoc _ "_" "\n"]
    rfl
  have h1 : ":speech_balloon: I'm *Gorfbot* - Here are the commands I know:\n" =
      ":speech_balloon: I'm *Gorfbot* - Here are the commands I know:" ++ "\n" := by decide
  have h2 : ":speech_balloon: I'm also keeping track of\n" =
      ":speech_balloon: I'm also keeping track of" ++ "\n" := by decide
  have h3 : ":speech_balloon: - To run a command say `!<command> [arguments]` in a channel/conversation that we're both in.\n" =
      ":speech_balloon: - To run a command say `!<command> [arguments]` in a channel/conversation that we're both in." ++ "\n" := by
    decide
  have h4 : ":speech_balloon: - Most commands offer help, try `!<command> -h`, like `!emoji -h`\n" =
      ":speech_balloon: - Most commands offer help, try `!<command> -h`, like `!emoji -h`" ++ "\n" := by
    decide
  unfold botImpl.botHelpText
  rw [hJ1, hJ2, hJ3, h1, h2, h3, h4]
  simp only [joinLines, String.append_assoc]

theorem botHelpText_ne_empty (b : botImpl) (userName : String) :
    b.botHelpText userName ≠ "" := by
  intro h
  have hl := congrArg String.length h
  unfold botImpl.botHelpText at hl
  simp only [String.append_assoc, String.length_append] at hl
  have h0 : ":wave: Hello ".length = 13 := by decide
  have h1 : "".length = 0 := by decide
  omega

namespace botImpl

theorem botHelp_actions (b : botImpl) (msg : Message) :
    (b.botHelp (some msg)).actions =
      [Event.sendMessage (b.botHelpText (b.slack.UserName msg.UserID)) msg.ChannelID] ∧
    (b.botHelp (some msg)).panicked = false := by
  unfold botHelp
  refine ⟨?_, handleRunResult_ok b msg _⟩
  rw [handleRunResult_actions]
  simp [botHelpText_ne_empty]

end botImpl

/-- C13: the help text that `botHelp` sends is, line by line, the greeting
naming the user and the heading of the commands, one line per registered basic
command in registration order with its icon, its name as `!name` and its
description, the heading of what is tracked, one line per pattern name and
then one line per reaction handler name, each in registration order, and the
fixed usage guidance, with a line break between consecutive lines.  It is the
only call `botHelp` makes besides logging, to the channel of the message; and
it is determined by the three lists of the registry and the resolved user
name, so an unchanged registry gives the same text again. -/
theorem help_text_layout (b : botImpl) :
    (∀ userName, b.botHelpText userName =
      joinLines (helpLines userName b.registry.GetCommands b.registry.GetPatterns
        b.registry.GetReactionHandlers)) ∧
    (∀ userName, (helpLines userName b.registry.GetCommands b.registry.GetPatterns
        b.registry.GetReactionHandlers).length =
      b.registry.GetCommands.length + b.registry.GetPatterns.length +
        b.registry.GetReactionHandlers.length + 6) ∧
    (∀ msg : Message,
      (b.botHelp (some msg)).actions =
        [Event.sendMessage
          (joinLines (helpLines (b.slack.UserName msg.UserID) b.registry.GetCommands
            b.registry.GetPatterns b.registry.GetReactionHandlers)) msg.ChannelID] ∧
      (b.botHelp (some msg)).panicked = false) ∧
    (∀ (b' : botImpl) (userName : String),
      b'.registry.GetCommands = b.registry.GetCommands →
      b'.registry.GetPatterns = b.registry.GetPatterns →
      b'.registry.GetReactionHandlers = b.registry.GetReactionHandlers →
      b'.botHelpText userName = b.botHelpText userName) := by
  refine ⟨botHelpText_eq b, ?_, ?_, ?_⟩
  · intro userName
    simp only [helpLines, List.length_append, List.length_map, List.length_cons,
      List.length_nil]
    omega
  · intro msg
    rw [← botHelpText_eq]
    exact botImpl.botHelp_actions b msg
  · intro b' userName h1 h2 h3
    rw [botHelpText_eq, botHelpText_eq, h1, h2, h3]

/-- Witness for C13: the help text of the bot that knows the command `test`,
the pattern `hello (.*)` and the greeting pattern, for the user `gorf`; a bot
with the same lists and another client has the same text. -/
theorem help_text_layout_witness :
    fullBot.botHelpText "gorf" =
      joinLines
        [":wave: Hello gorf",
         ":speech_balloon: I'm *Gorfbot* - Here are the commands I know:",
         "\t\t :three_button_mouse:  `!test` - ",
         ":speech_balloon: I'm also keeping track of",
         "\t\t :eyes: _test_",
         "\t\t :eyes: _greet_",
         ":speech_balloon: - To run a command say `!<command> [arguments]` in a channel/conversation that we're both in.",
         ":speech_balloon: - Most commands offer help, try `!<command> -h`, like `!emoji -h`",
         ":nose: :kissing_cat: Smell ya later!"] ∧
    botImpl.botHelpText
        { fullBot with slack := { mockClient with BotID := "U999" } } "gorf" =
      fullBot.botHelpText "gorf" :=
  ⟨((help_text_layout fullBot).1 "gorf").trans rfl,
   (help_text_layout fullBot).2.2.2 _ "gorf" rfl rfl rfl⟩

/-! ## Dispatcher: the reserved help names -/

theorem isSend_not_log (e : Event) (h : e.isSend = true) : e.isLog = false := by
  cases e <;> simp_all

theorem isReserved_iff (cmdName : String) :
    isReserved cmdName = true ↔ (cmdName = "help" ∨ cmdName = "-h" ∨ cmdName = "--help") := by
  simp [isReserved, or_assoc]

namespace botImpl

theorem addReactions_no_send (b : botImpl) (rs : List String) (m : Option Message)
    (text ch : String) : Event.sendMessage text ch ∉ b.addReactions rs m := by
  intro h
  have hf : Event.sendMessage text ch ∈ (b.addReactions rs m).filter Event.isSend :=
    List.mem_filter.mpr ⟨h, rfl⟩
  rw [filter_actions Event.isSend isSend_not_log, addReactions_actions] at hf
  simp [List.mem_filter] at hf

/-- The only message `handleRunResult` sends is the reply of the result, to
the channel of the message. -/
theorem handleRunResult_send (b : botImpl) (msg : Message) (res : RunResult)
    (text ch : String)
    (h : Event.sendMessage text ch ∈ (b.handleRunResult (some msg) res).events) :
    text = res.Message ∧ ch = msg.ChannelID := by
  have hf : Event.sendMessage text ch ∈
      (b.handleRunResult (some msg) res).events.filter Event.isSend :=
    List.mem_filter.mpr ⟨h, rfl⟩
  rw [filter_actions Event.isSend isSend_not_log] at hf
  have ha := handleRunResult_actions b msg res
  unfold Outcome.actions at ha
  rw [ha] at hf
  by_cases hm : res.Message = ""
  · simp [hm, List.mem_filter] at hf
  · simp [hm, List.mem_filter] at hf
    exact hf

/-- For a name that is not reserved, a message is sent only as the reply of
the handler registered under that name. -/
theorem handleCommandMessage_send (b : botImpl) (cmdName rest : String) (msg : Message)
    (hres : isReserved cmdName = false) (text ch : String)
    (h : Event.sendMessage text ch ∈ (b.handleCommandMessage cmdName rest (some msg)).events) :
    ∃ cmd hd res, b.registry.GetCommand cmdName = some cmd ∧ cmd.Handler = some hd ∧
      hd.Run rest (b.runCtx (some msg)) = (res, none) ∧ text = res.Message ∧
      ch = msg.ChannelID := by
  have hr := not_reserved_of_isReserved hres
  unfold handleCommandMessage at h
  by_cases h0 : cmdName = ""
  · rw [if_pos h0] at h
    simp at h
  · rw [if_neg h0, if_neg hr] at h
    cases hreg : b.registry.GetCommand cmdName with
    | none =>
      rw [hreg] at h
      simp only [List.mem_cons] at h
      rcases h with h | h | h
      · cases h
      · cases h
      · exact absurd h (addReactions_no_send b _ _ _ _)
    | some cmd =>
      rw [hreg] at h
      cases hH : cmd.Handler with
      | none =>
        simp only [hH] at h
        simp at h
      | some hd =>
        simp only [hH] at h
        rcases hrun : hd.Run rest (b.runCtx (some msg)) with ⟨res, err⟩
        rw [hrun] at h
        cases err with
        | some e =>
          simp only [List.mem_cons] at h
          rcases h with h | h | h | h
          · cases h
          · cases h
          · cases h
          · exact absurd h (addReactions_no_send b _ _ _ _)
        | none =>
          simp only [Outcome.after, List.cons_append, List.nil_append, List.mem_cons] at h
          rcases h with h | h | h
          · cases h
          · cases h
          · obtain ⟨ht, hc⟩ := handleRunResult_send b msg res text ch h
            exact ⟨cmd, hd, res, rfl, hH, hrun, ht, hc⟩

end botImpl

/-- C12, the claim as stated fails in its last part: the command `echo` of the
repository replies with its argument, so for the command name `echo`, which is
not reserved, and the help text as argument, the help text is sent. -/
theorem help_text_sent_by_echo :
    isReserved "echo" = false ∧
    (echoBot.handleCommandMessage "echo" (echoBot.botHelpText "")
        (some (textMessage ("!echo " ++ echoBot.botHelpText "")))).actions =
      [Event.getCommand "echo",
       Event.runCommand echoCommand (echoBot.botHelpText "")
         (echoBot.runCtx (some (textMessage ("!echo " ++ echoBot.botHelpText "")))),
       Event.sendMessage (echoBot.botHelpText "") "C000"] :=
  ⟨by decide, rfl⟩

/-- C12, amended: for a command name equal to `help`, `-h` or `--help` and a
non-nil message, `handleCommandMessage` performs no registry lookup and invokes
no command handler; its only call besides logging is one `SendMessage` of the
help text to the channel of the triggering message, and it adds no reaction.
For every other command name the help responder does not run: a message is
sent only as the reply returned by the handler registered under that name. -/
theorem help_names_shortcut (b : botImpl) (cmdName rest : String) (msg : Message) :
    (isReserved cmdName = true →
      (b.handleCommandMessage cmdName rest (some msg)).actions =
        [Event.sendMessage (b.botHelpText (b.slack.UserName msg.UserID)) msg.ChannelID] ∧
      (b.handleCommandMessage cmdName rest (some msg)).panicked = false) ∧
    (isReserved cmdName = false →
      ∀ text ch,
        Event.sendMessage text ch ∈ (b.handleCommandMessage cmdName rest (some msg)).events →
        ∃ cmd hd res, b.registry.GetCommand cmdName = some cmd ∧ cmd.Handler = some hd ∧
          hd.Run rest (b.runCtx (some msg)) = (res, none) ∧ text = res.Message ∧
          ch = msg.ChannelID) := by
  refine ⟨?_, fun hres text ch h => botImpl.handleCommandMessage_send b cmdName rest msg
    hres text ch h⟩
  intro hres
  have hr := (isReserved_iff cmdName).mp hres
  have h0 : cmdName ≠ "" := by
    rintro rfl
    rcases hr with h | h | h <;> exact absurd h (by decide)
  have he : b.handleCommandMessage cmdName rest (some msg) = b.botHelp (some msg) := by
    unfold botImpl.handleCommandMessage
    rw [if_neg h0, if_pos hr]
  rw [he]
  exact botImpl.botHelp_actions b msg

/-- Witness for C12: `help` on the bot that knows the command `test` sends the
help text to the channel `C000` and nothing else; a message sent for `test` is
the reply of its handler. -/
theorem help_names_shortcut_witness :
    ((testBot.handleCommandMessage "help" "" (some (textMessage "!help"))).actions =
        [Event.sendMessage (testBot.botHelpText "") "C000"] ∧
      (testBot.handleCommandMessage "help" "" (some (textMessage "!help"))).panicked = false) ∧
    (∀ text ch,
      Event.sendMessage text ch ∈
        (testBot.handleCommandMessage "test" "" (some (textMessage "!test"))).events →
      ∃ cmd hd res, testBot.registry.GetCommand "test" = some cmd ∧ cmd.Handler = some hd ∧
        hd.Run "" (testBot.runCtx (some (textMessage "!test"))) = (res, none) ∧
        text = res.Message ∧ ch = (textMessage "!test").ChannelID) :=
  ⟨(help_names_shortcut testBot "help" "" (textMessage "!help")).1 (by decide),
   (help_names_shortcut testBot "test" "" (textMessage "!test")).2 (by decide)⟩

/-! ## Run loop: pattern phase before command phase -/

theorem not_log_of (p : Event → Bool) (hlog : ∀ l f a, p (Event.log l f a) = false) :
    ∀ e, p e = true → e.isLog = false := by
  intro e h
  cases e with
  | log l f a => rw [hlog] at h; cases h
  | _ => rfl

namespace botImpl

/-- A class of events that holds no logger call, no reply and no reaction
request does not occur in `addReactions`. -/
theorem addReactions_none_of (p : Event → Bool) (hlog : ∀ l f a, p (Event.log l f a) = false)
    (hreact : ∀ r m, p (Event.addReaction r m) = false) (b : botImpl) (rs : List String)
    (m : Option Message) : (b.addReactions rs m).filter p = [] := by
  rw [filter_actions p (not_log_of p hlog), addReactions_actions]
  simp [List.filter_eq_nil_iff, hreact]

theorem handleRunResult_none_of (p : Event → Bool)
    (hlog : ∀ l f a, p (Event.log l f a) = false)
    (hsend : ∀ t c, p (Event.sendMessage t c) = false)
    (hreact : ∀ r m, p (Event.addReaction r m) = false) (b : botImpl) (m : Option Message)
    (res : RunResult) : (b.handleRunResult m res).events.filter p = [] := by
  unfold handleRunResult
  split
  · cases m with
    | none => simp [hlog]
    | some msg => simp [hlog, hsend, addReactions_none_of p hlog hreact]
  · exact addReactions_none_of p hlog hreact b _ _

/-- The pattern phase makes no call of a class that holds no logger call, no
reply, no reaction request and no pattern handler invocation. -/
theorem tryPatterns_none_of (p : Event → Bool)
    (hlog : ∀ l f a, p (Event.log l f a) = false)
    (hsend : ∀ t c, p (Event.sendMessage t c) = false)
    (hreact : ∀ r m, p (Event.addReaction r m) = false)
    (hrun : ∀ x s c, p (Event.runPattern x s c) = false)
    (b : botImpl) (msg : Message) (l : List PatternCommand)
    (hl : ∀ x ∈ l, x.Handler ≠ none ∧ x.Pattern ≠ none) :
    (b.tryPatterns (some msg) l).events.filter p = [] := by
  induction l with
  | nil => rfl
  | cons x rest ih =>
    have hx := hl x (List.mem_cons_self _ _)
    obtain ⟨h, hh⟩ := Option.ne_none_iff_exists'.mp hx.1
    obtain ⟨re, hre⟩ := Option.ne_none_iff_exists'.mp hx.2
    have ih' := ih (fun y hy => hl y (List.mem_cons_of_mem _ hy))
    rw [tryPatterns_step b msg x rest h re hh hre]
    by_cases hm : (re.FindAllStringSubmatch msg.Text).length > 0
    · rw [if_pos hm]
      rcases h.Run (re.FindAllStringSubmatch msg.Text) (b.runCtx (some msg)) with ⟨res, err⟩
      cases err with
      | some e => simp [Outcome.after, hlog, hrun, ih']
      | none =>
        have hok := handleRunResult_ok b msg res
        have hnone := handleRunResult_none_of p hlog hsend hreact b (some msg) res
        simp [Outcome.after, Outcome.andThen, hok, hlog, hrun, ih', hnone]
    · rw [if_neg hm]
      exact ih'

/-- The handling of a command name makes no call of a class that holds no
logger call, no reply, no reaction request, no registry lookup and no command
handler invocation. -/
theorem handleCommandMessage_none_of (p : Event → Bool)
    (hlog : ∀ l f a, p (Event.log l f a) = false)
    (hsend : ∀ t c, p (Event.sendMessage t c) = false)
    (hreact : ∀ r m, p (Event.addReaction r m) = false)
    (hget : ∀ n, p (Event.getCommand n) = false)
    (hrun : ∀ x t c, p (Event.runCommand x t c) = false)
    (b : botImpl) (cmdName rest : String) (m : Option Message) :
    (b.handleCommandMessage cmdName rest m).events.filter p = [] := by
  unfold handleCommandMessage
  by_cases h0 : cmdName = ""
  · rw [if_pos h0]
    simp [hlog]
  · rw [if_neg h0]
    by_cases hr : cmdName = "help" ∨ cmdName = "-h" ∨ cmdName = "--help"
    · rw [if_pos hr]
      unfold botHelp
      cases m with
      | none => rfl
      | some msg => exact handleRunResult_none_of p hlog hsend hreact b _ _
    · rw [if_neg hr]
      cases b.registry.GetCommand cmdName with
      | none => simp [hlog, hget, addReactions_none_of p hlog hreact]
      | some cmd =>
        cases hH : cmd.Handler with
        | none => simp [hH, hget]
        | some hd =>
          simp only [hH]
          rcases hrun' : hd.Run rest (b.runCtx m) with ⟨res, err⟩
          cases err with
          | some e => simp [hlog, hget, hrun, addReactions_none_of p hlog hreact]
          | none =>
            simp [Outcome.after, hget, hrun, handleRunResult_none_of p hlog hsend hreact]

/-- The handling of a command name invokes at most one handler. -/
theorem handleCommandMessage_runs_le (b : botImpl) (cmdName rest : String)
    (m : Option Message) :
    ((b.handleCommandMessage cmdName rest m).events.filter Event.isRun).length ≤ 1 := by
  by_cases hne : (b.handleCommandMessage cmdName rest m).events.filter Event.isRun = []
  · rw [hne]; exact Nat.zero_le _
  · obtain ⟨h0, hres⟩ := handleCommandMessage_run_name b cmdName rest m hne
    have hr := not_reserved_of_isReserved hres
    cases hreg : b.registry.GetCommand cmdName with
    | none =>
      exfalso
      apply hne
      unfold handleCommandMessage
      rw [if_neg h0, if_neg hr, hreg]
      simp [addReactions_no_run]
    | some cmd =>
      cases hH : cmd.Handler with
      | none =>
        exfalso
        apply hne
        unfold handleCommandMessage
        rw [if_neg h0, if_neg hr, hreg]
        simp [hH]
      | some hd =>
        rw [handleCommandMessage_runs b cmdName rest m cmd hd h0 hres hreg hH]
        exact Nat.le_refl _

/-- The command phase either hands the message to `handleCommandMessage` or
makes no call but logger calls. -/
theorem tryMessageAsCommand_cases (b : botImpl) (msg : Message) :
    (∃ name rest, ∀ p : Event → Bool, (∀ l f a, p (Event.log l f a) = false) →
      (b.tryMessageAsCommand (some msg)).events.filter p =
        (b.handleCommandMessage name rest (some msg)).events.filter p) ∨
    (∀ p : Event → Bool, (∀ l f a, p (Event.log l f a) = false) →
      (b.tryMessageAsCommand (some msg)).events.filter p = []) := by
  cases hbang : strings.HasPrefix (firstToken msg.Text) "!" with
  | true =>
    refine Or.inl ⟨stripMarker (firstToken msg.Text), afterFirstSpace msg.Text,
      fun p hlog => ?_⟩
    rw [tryMessageAsCommand_bang b msg hbang]
    simp [Outcome.after, hlog]
  | false =>
    by_cases hm : firstToken msg.Text = "<@" ++ b.slack.BotID ++ ">" ∧
        hasSecondToken msg.Text = true
    · refine Or.inl ⟨stripMarker (firstToken (afterFirstSpace msg.Text)),
        afterFirstSpace (afterFirstSpace msg.Text), fun p hlog => ?_⟩
      rw [tryMessageAsCommand_mention b msg hm.1 hm.2]
      simp [Outcome.after, hlog]
    · refine Or.inr (fun p hlog => ?_)
      have ha := (tryMessageAsCommand_ignored b msg hbang hm).1
      unfold Outcome.actions at ha
      rw [filter_actions p (not_log_of p hlog), ha]
      rfl

end botImpl

/-- C14: for each non-nil inbound message the iteration of the run loop is the
whole pattern phase followed by the whole command phase: its calls are the
calls of `tryMessageAsPattern` and then those of `tryMessageAsCommand`.  The
pattern phase holds no registry lookup by command name and no command handler
invocation, the command phase holds no pattern handler invocation, so every
pattern handler invocation, with the replies and reactions it causes, precedes
the command handler invocation and what it causes.  Within the pattern phase
the handlers run in registration order, and the command phase invokes at most
one handler. -/
theorem pattern_phase_before_command_phase (b : botImpl) (hreach : b.registry.Reachable)
    (msg : Message) :
    (b.runIteration (Inbound.msg (some msg))).events =
      Event.log LogLevel.trace "msg: %q" [msg.Text] ::
        ((b.tryMessageAsPattern (some msg)).events ++
          (b.tryMessageAsCommand (some msg)).events) ∧
    (b.tryMessageAsPattern (some msg)).events.filter Event.isCommandCall = [] ∧
    (b.tryMessageAsCommand (some msg)).events.filter Event.isPatternRun = [] ∧
    (b.tryMessageAsPattern (some msg)).events.filter Event.isRun =
      b.registry.GetPatterns.filterMap (patternRun b msg) ∧
    ((b.tryMessageAsCommand (some msg)).events.filter Event.isRun).length ≤ 1 := by
  have hvalid := hreach.patternsList_valid
  have hok : (b.tryMessageAsPattern (some msg)).panicked = false :=
    botImpl.tryPatterns_ok b msg _ hvalid
  refine ⟨?_, ?_, ?_, botImpl.tryPatterns_runs b msg _ hvalid, ?_⟩
  · show (Outcome.after _ (Outcome.andThen _ _)).events = _
    simp [Outcome.after, Outcome.andThen, hok]
  · exact botImpl.tryPatterns_none_of Event.isCommandCall (fun _ _ _ => rfl) (fun _ _ => rfl)
      (fun _ _ => rfl) (fun _ _ _ => rfl) b msg _ hvalid
  · rcases botImpl.tryMessageAsCommand_cases b msg with ⟨name, rest, h⟩ | h
    · rw [h Event.isPatternRun (fun _ _ _ => rfl)]
      exact botImpl.handleCommandMessage_none_of Event.isPatternRun (fun _ _ _ => rfl)
        (fun _ _ => rfl) (fun _ _ => rfl) (fun _ => rfl) (fun _ _ _ => rfl) b _ _ _
    · exact h Event.isPatternRun (fun _ _ _ => rfl)
  · rcases botImpl.tryMessageAsCommand_cases b msg with ⟨name, rest, h⟩ | h
    · rw [h Event.isRun (fun _ _ _ => rfl)]
      exact botImpl.handleCommandMessage_runs_le b _ _ _
    · rw [h Event.isRun (fun _ _ _ => rfl)]
      exact Nat.zero_le _

/-- Witness for C14: on `!test hello world` the bot that knows the pattern
`hello (.*)`, the greeting pattern and the command `test` first runs the two
patterns, each followed by its reply, and then the command. -/
theorem pattern_phase_before_command_phase_witness :
    (fullBot.runIteration (Inbound.msg (some (textMessage "!test hello world")))).actions =
      [Event.runPattern helloPattern [["hello world", "world"]]
         (fullBot.runCtx (some (textMessage "!test hello world"))),
       Event.sendMessage "hello world!!!" "C000",
       Event.runPattern greetPattern [["!test hello world"]]
         (fullBot.runCtx (some (textMessage "!test hello world"))),
       Event.sendMessage "hi" "C000",
       Event.addReaction "wave" (some (textMessage "!test hello world")),
       Event.getCommand "test",
       Event.runCommand testCommand "hello world"
         (fullBot.runCtx (some (textMessage "!test hello world")))] ∧
    (fullBot.runIteration (Inbound.msg (some (textMessage "!test hello world")))).events =
      Event.log LogLevel.trace "msg: %q" ["!test hello world"] ::
        ((fullBot.tryMessageAsPattern (some (textMessage "!test hello world"))).events ++
          (fullBot.tryMessageAsCommand (some (textMessage "!test hello world"))).events) :=
  ⟨rfl,
   (pattern_phase_before_command_phase fullBot
    (CommandRegistry.Reachable.addPattern _ _
      (CommandRegistry.Reachable.addPattern _ _
        (CommandRegistry.Reachable.addCommand _ _ CommandRegistry.Reachable.new)))
    (textMessage "!test hello world")).1⟩

/-! ## Dispatcher: the command token -/

theorem takeWhile_before_space (l rest : List Char) (h : ' ' ∉ l) :
    (l ++ ' ' :: rest).takeWhile (fun ch => decide (ch ≠ ' ')) = l := by
  induction l with
  | nil => simp [List.takeWhile]
  | cons c cs ih =>
    have hc : c ≠ ' ' := fun e => h (e ▸ List.mem_cons_self _ _)
    have hcs : ' ' ∉ cs := fun e => h (List.mem_cons_of_mem _ e)
    simp only [List.cons_append, List.takeWhile, ne_eq, hc, not_false_eq_true, decide_True]
    exact congrArg (c :: ·) (ih hcs)

theorem dropWhile_before_space (l rest : List Char) (h : ' ' ∉ l) :
    (l ++ ' ' :: rest).dropWhile (fun ch => decide (ch ≠ ' ')) = ' ' :: rest := by
  induction l with
  | nil => simp [List.dropWhile]
  | cons c cs ih =>
    have hc : c ≠ ' ' := fun e => h (e ▸ List.mem_cons_self _ _)
    have hcs : ' ' ∉ cs := fun e => h (List.mem_cons_of_mem _ e)
    simp only [List.cons_append, List.dropWhile, ne_eq, hc, not_false_eq_true, decide_True]
    exact ih hcs

theorem bang_text_data (n r : String) :
    ("!" ++ n ++ " " ++ r).data = ('!' :: n.data) ++ ' ' :: r.data := by
  have h1 : "!".data = ['!'] := rfl
  have h2 : " ".data = [' '] := rfl
  simp [String.data_append, h1, h2]

/-- The tokens of the text `!` + n + space + r when n holds no space. -/
theorem bang_text_tokens (n r : String) (hn : ' ' ∉ n.data) :
    firstToken ("!" ++ n ++ " " ++ r) = "!" ++ n ∧
    stripMarker (firstToken ("!" ++ n ++ " " ++ r)) = n ∧
    afterFirstSpace ("!" ++ n ++ " " ++ r) = r := by
  have hl : ' ' ∉ '!' :: n.data := by
    intro h
    rcases List.mem_cons.mp h with h | h
    · exact absurd h (by decide)
    · exact hn h
  have hft : firstToken ("!" ++ n ++ " " ++ r) = String.mk ('!' :: n.data) := by
    unfold firstToken
    rw [bang_text_data, takeWhile_before_space _ _ hl]
  refine ⟨?_, ?_, ?_⟩
  · rw [hft]; rfl
  · rw [hft]
    simp [stripMarker]
  · unfold afterFirstSpace
    rw [bang_text_data, dropWhile_before_space _ _ hl]
    rfl

/-- C15, the claim as stated fails for the tab and for the line break: the
text is split at spaces only, so `!test` followed by a tab (or a line break)
and `hello` resolves to a command name that still holds the tab (or the line
break) and what follows it, not to `test`; on the bot that knows `test` the
lookup misses and the unknown-command reaction is requested. -/
theorem tab_does_not_end_command_token :
    stripMarker (firstToken "!test\thello") = "test\thello" ∧
    stripMarker (firstToken "!test\thello") ≠ "test" ∧
    (testBot.tryMessageAsCommand (some (textMessage "!test\thello"))).actions =
      [Event.getCommand "test\thello",
       Event.addReaction "interrobang" (some (textMessage "!test\thello"))] ∧
    stripMarker (firstToken "!test\nhello") ≠ "test" ∧
    (testBot.tryMessageAsCommand (some (textMessage "!test\nhello"))).actions =
      [Event.getCommand "test\nhello",
       Event.addReaction "interrobang" (some (textMessage "!test\nhello"))] :=
  ⟨by decide, by decide, rfl, by decide, rfl⟩

/-- C15, amended: the command phase takes the first space-delimited token of
the message text as the candidate command token: for every command name n free
of spaces and every string r, the text `!` + n + space + r has the first token
`!` + n, resolves to the command name n with the rest r, and is handled as
`handleCommandMessage` handles n and r.  Only the space delimits tokens; a tab
or a line break stays part of the token. -/
theorem space_delimits_command_token (b : botImpl) (msg : Message) (n r : String)
    (hn : ' ' ∉ n.data) (ht : msg.Text = "!" ++ n ++ " " ++ r) :
    firstToken msg.Text = "!" ++ n ∧
    stripMarker (firstToken msg.Text) = n ∧
    afterFirstSpace msg.Text = r ∧
    (b.tryMessageAsCommand (some msg)).actions =
      (b.handleCommandMessage n r (some msg)).actions ∧
    (b.tryMessageAsCommand (some msg)).panicked =
      (b.handleCommandMessage n r (some msg)).panicked := by
  obtain ⟨h1, h2, h3⟩ := bang_text_tokens n r hn
  rw [← ht] at h1 h2 h3
  have hbang : strings.HasPrefix (firstToken msg.Text) "!" = true := by
    rw [h1]
    have hd : "!".data = ['!'] := rfl
    unfold strings.HasPrefix
    simp [String.data_append, hd, List.isPrefixOf]
  refine ⟨h1, h2, h3, ?_, ?_⟩
  · rw [botImpl.tryMessageAsCommand_bang b msg hbang, actions_after_log, actions_after_log,
      h2, h3]
  · rw [botImpl.tryMessageAsCommand_bang b msg hbang, h2, h3]
    rfl

/-- Witness for C15: `!test hello world!!!` resolves to the name `test` with
the rest `hello world!!!`. -/
theorem space_delimits_command_token_witness :
    firstToken (textMessage "!test hello world!!!").Text = "!" ++ "test" ∧
    stripMarker (firstToken (textMessage "!test hello world!!!").Text) = "test" ∧
    afterFirstSpace (textMessage "!test hello world!!!").Text = "hello world!!!" ∧
    (testBot.tryMessageAsCommand (some (textMessage "!test hello world!!!"))).actions =
      (testBot.handleCommandMessage "test" "hello world!!!"
        (some (textMessage "!test hello world!!!"))).actions ∧
    (testBot.tryMessageAsCommand (some (textMessage "!test hello world!!!"))).panicked =
      (testBot.handleCommandMessage "test" "hello world!!!"
        (some (textMessage "!test hello world!!!"))).panicked :=
  space_delimits_command_token testBot (textMessage "!test hello world!!!") "test"
    "hello world!!!" (by decide) (by decide)

/-! ## Dispatcher: the empty command name -/

/-- C16: a command token that resolves to the empty name is a no-op.
`handleCommandMessage` on the empty name only logs the warning: no registry
lookup, no handler, no reply, no reaction, and no panic even for a nil
message.  So does `tryMessageAsCommand` on a text whose first token is `!`
alone, and on a mention of the bot whose second token is empty or `!`
alone. -/
theorem empty_command_noop (b : botImpl) :
    (∀ (rest : String) (m : Option Message),
      (b.handleCommandMessage "" rest m).events =
        [Event.log LogLevel.warn "Got empty command name in handleCommandMessage" []] ∧
      (b.handleCommandMessage "" rest m).actions = [] ∧
      (b.handleCommandMessage "" rest m).panicked = false) ∧
    (∀ msg : Message, strings.HasPrefix (firstToken msg.Text) "!" = true →
      stripMarker (firstToken msg.Text) = "" →
      (b.tryMessageAsCommand (some msg)).actions = [] ∧
      (b.tryMessageAsCommand (some msg)).panicked = false) ∧
    (∀ msg : Message, firstToken msg.Text = "<@" ++ b.slack.BotID ++ ">" →
      hasSecondToken msg.Text = true →
      stripMarker (firstToken (afterFirstSpace msg.Text)) = "" →
      (b.tryMessageAsCommand (some msg)).actions = [] ∧
      (b.tryMessageAsCommand (some msg)).panicked = false) := by
  have h0 : ∀ (rest : String) (m : Option Message),
      b.handleCommandMessage "" rest m =
        { events := [Event.log LogLevel.warn
            "Got empty command name in handleCommandMessage" []],
          panicked := false } := by
    intro rest m
    unfold botImpl.handleCommandMessage
    rw [if_pos rfl]
  refine ⟨?_, ?_, ?_⟩
  · intro rest m
    rw [h0]
    exact ⟨rfl, rfl, rfl⟩
  · intro msg hbang hempty
    rw [botImpl.tryMessageAsCommand_bang b msg hbang, hempty, h0]
    exact ⟨rfl, rfl⟩
  · intro msg hmention hsecond hempty
    rw [botImpl.tryMessageAsCommand_mention b msg hmention hsecond, hempty, h0]
    exact ⟨rfl, rfl⟩

/-- Witness for C16: the empty name with a nil message, as in
`TestHandleCommandMessageEmptyCmd`, and the texts `!`, `! args`, `<@U000> `
and `<@U000> !` on the bot `U000`. -/
theorem empty_command_noop_witness :
    (emptyBot.handleCommandMessage "" "" none).actions = [] ∧
    (emptyBot.handleCommandMessage "" "" none).panicked = false ∧
    (testBot.tryMessageAsCommand (some (textMessage "!"))).actions = [] ∧
    (testBot.tryMessageAsCommand (some (textMessage "! args"))).actions = [] ∧
    (testBot.tryMessageAsCommand (some (textMessage "<@U000> "))).actions = [] ∧
    (testBot.tryMessageAsCommand (some (textMessage "<@U000> !"))).actions = [] :=
  ⟨((empty_command_noop emptyBot).1 "" none).2.1,
   ((empty_command_noop emptyBot).1 "" none).2.2,
   ((empty_command_noop testBot).2.1 (textMessage "!") (by decide) (by decide)).1,
   ((empty_command_noop testBot).2.1 (textMessage "! args") (by decide) (by decide)).1,
   ((empty_command_noop testBot).2.2 (textMessage "<@U000> ") (by decide) (by decide)
      (by decide)).1,
   ((empty_command_noop testBot).2.2 (textMessage "<@U000> !") (by decide) (by decide)
      (by decide)).1⟩

/-! ## Reserved names in the registry -/

/-- C30: a basic command with a handler and a reserved name (`help`, `-h` or
`--help`) that is not yet bound is accepted by `AddCommand`, is listed by
`GetCommands` and has its line in the help text of every bot that owns the
registry; yet for every bot, whatever its registry, every rest string and
every message, `handleCommandMessage` with that name is the help responder
and invokes no handler. -/
theorem reserved_name_registered_never_run (c : CommandRegistry) (cmd : BasicCommand)
    (hres : isReserved cmd.Name = true) (hH : cmd.Handler ≠ none)
    (hfree : c.GetCommand cmd.Name = none) :
    (c.AddCommand (some cmd)).2 = true ∧
    cmd ∈ (c.AddCommand (some cmd)).1.GetCommands ∧
    (c.AddCommand (some cmd)).1.GetCommand cmd.Name = some cmd ∧
    (∀ (b : botImpl) (userName : String), b.registry = (c.AddCommand (some cmd)).1 →
      b.botHelpText userName =
        joinLines (helpLines userName b.registry.GetCommands b.registry.GetPatterns
          b.registry.GetReactionHandlers) ∧
      helpCommandLine cmd ∈ helpLines userName b.registry.GetCommands b.registry.GetPatterns
        b.registry.GetReactionHandlers) ∧
    (∀ (b : botImpl) (rest : String) (m : Option Message),
      b.handleCommandMessage cmd.Name rest m = b.botHelp m ∧
      (b.handleCommandMessage cmd.Name rest m).events.filter Event.isRun = []) := by
  have hr := (isReserved_iff cmd.Name).mp hres
  have h0 : cmd.Name ≠ "" := by
    intro h
    rw [h] at hr
    rcases hr with h | h | h <;> exact absurd h (by decide)
  have hflag : (c.AddCommand (some cmd)).2 = true := by
    cases hf : (c.AddCommand (some cmd)).2 with
    | true => rfl
    | false =>
      have := (CommandRegistry.AddCommand_flag c (some cmd)).mp hf
      rcases this with h | h | h
      · exact absurd h h0
      · exact absurd h hH
      · exact absurd hfree h
  have hreg : (c.AddCommand (some cmd)).1 =
      { c with cmdsList := c.cmdsList ++ [cmd],
               cmdsMap := GoMap.set c.cmdsMap cmd.Name cmd } := by
    rcases CommandRegistry.AddCommand_result c (some cmd) with ⟨_, h⟩ | ⟨x, hx, _, _, _, h, _⟩
    · rw [hflag] at h; cases h
    · cases hx
      exact h
  have hmem : cmd ∈ (c.AddCommand (some cmd)).1.GetCommands := by
    rw [hreg]
    exact List.mem_append_right _ (List.mem_singleton_self _)
  refine ⟨hflag, hmem, ?_, ?_, ?_⟩
  · rw [hreg]
    exact GoMap.get_set_self _ _ _
  · intro b userName hb
    refine ⟨botHelpText_eq b userName, ?_⟩
    rw [hb]
    unfold helpLines
    simp only [List.mem_append, List.mem_map]
    exact Or.inl (Or.inl (Or.inl (Or.inl (Or.inr ⟨cmd, hmem, rfl⟩))))
  · intro b rest m
    have he : b.handleCommandMessage cmd.Name rest m = b.botHelp m := by
      unfold botImpl.handleCommandMessage
      rw [if_neg h0, if_pos hr]
    exact ⟨he, by rw [he]; exact botImpl.botHelp_no_run b m⟩

/-- Witness for C30: the command `help` added to a fresh registry, and the
bot that owns it asked for `help`. -/
theorem reserved_name_registered_never_run_witness :
    (NewRegistry.AddCommand (some helpCommand)).2 = true ∧
    helpCommand ∈ (NewRegistry.AddCommand (some helpCommand)).1.GetCommands ∧
    helpCommandLine helpCommand ∈
      helpLines "gorf" helpBot.registry.GetCommands helpBot.registry.GetPatterns
        helpBot.registry.GetReactionHandlers ∧
    (helpBot.handleCommandMessage "help" "" (some (textMessage "!help"))).events.filter
      Event.isRun = [] :=
  have h := reserved_name_registered_never_run NewRegistry helpCommand (by decide)
    (by simp [helpCommand]) rfl
  ⟨h.1, h.2.1, (h.2.2.2.1 helpBot "gorf" rfl).2,
   (h.2.2.2.2 helpBot "" (some (textMessage "!help"))).2⟩

/-! ## Slack state: lookups after a refresh -/

namespace GoMap

theorem get_setAll_some {α : Type} (key : α → String) (xs : List α) (m : GoMap α)
    (n : String) (x : α) (h : get (setAll key m xs) n = some x) :
    (x ∈ xs ∧ key x = n) ∨ get m n = some x := by
  induction xs generalizing m with
  | nil => exact Or.inr h
  | cons y ys ih =>
    have h' : get (setAll key (set m (key y) y) ys) n = some x := h
    rcases ih _ h' with ⟨hx, hk⟩ | hm
    · exact Or.inl ⟨List.mem_cons_of_mem _ hx, hk⟩
    · by_cases hn : n = key y
      · subst hn
        rw [get_set_self] at hm
        cases hm
        exact Or.inl ⟨List.mem_cons_self _ _, rfl⟩
      · rw [get_set_ne _ _ _ _ hn] at hm
        exact Or.inr hm

theorem get_setAll_isSome {α : Type} (key : α → String) (xs : List α) (m : GoMap α)
    (n : String) (h : n ∈ xs.map key ∨ (get m n).isSome = true) :
    (get (setAll key m xs) n).isSome = true := by
  induction xs generalizing m with
  | nil =>
    rcases h with h | h
    · cases h
    · exact h
  | cons y ys ih =>
    show (get (setAll key (set m (key y) y) ys) n).isSome = true
    apply ih
    rcases h with h | h
    · rcases List.mem_cons.mp h with h | h
      · right
        rw [h, get_set_self]
        rfl
      · exact Or.inl h
    · by_cases hn : n = key y
      · right
        rw [hn, get_set_self]
        rfl
      · right
        rw [get_set_ne _ _ _ _ hn]
        exact h

/-- A map filled from a list resolves exactly the entries of the list. -/
theorem lookup_setAll {α : Type} (key : α → String) (zero : α) (xs : List α) :
    ResolvesExactly key zero xs (lookup zero (setAll key [] xs)) := by
  intro n
  unfold lookup
  cases hg : get (setAll key [] xs) n with
  | none =>
    refine ⟨?_, ?_, fun _ => rfl⟩
    · constructor
      · intro h; cases h
      · rintro ⟨x, hx, hk⟩
        have := get_setAll_isSome key xs [] n (Or.inl (hk ▸ List.mem_map_of_mem key hx))
        rw [hg] at this
        cases this
    · intro h; cases h
  | some v =>
    have hv : v ∈ xs ∧ key v = n := by
      rcases get_setAll_some key xs [] n v hg with h | h
      · exact h
      · cases h
    refine ⟨?_, fun _ => hv, ?_⟩
    · constructor
      · intro _; exact ⟨v, hv.1, hv.2⟩
      · intro _; rfl
    · intro h; cases h

end GoMap

/-- C24: if `Refresh` returns an error, because the conversation fetch or the
user fetch fails, the state is left as it was, so every lookup through `User`,
`UserID`, `Conversation` and `ConversationID` returns what it returned
before. -/
theorem refresh_error_keeps_cache (s : slackStateImpl) (client : SlackAPI) (force : Bool)
    (now : Time) (fuel : Nat) (h : (s.Refresh client force now fuel).err ≠ none) :
    (s.Refresh client force now fuel).state = s ∧
    (∀ id, (s.Refresh client force now fuel).state.User id = s.User id) ∧
    (∀ n, (s.Refresh client force now fuel).state.UserID n = s.UserID n) ∧
    (∀ id, (s.Refresh client force now fuel).state.Conversation id = s.Conversation id) ∧
    (∀ n, (s.Refresh client force now fuel).state.ConversationID n = s.ConversationID n) := by
  have hs : (s.Refresh client force now fuel).state = s := by
    unfold slackStateImpl.Refresh at h ⊢
    split
    · rfl
    · next hc =>
      rw [if_neg hc] at h
      cases hconv : (slackStateImpl.conversations client fuel).result with
      | none => rfl
      | some r =>
        cases r with
        | error e => rfl
        | ok convs =>
          simp only [hconv] at h ⊢
          cases hu : slackStateImpl.users client with
          | error e => rfl
          | ok us =>
            simp only [hu] at h
            exact absurd rfl h
  rw [hs]
  exact ⟨rfl, fun _ => rfl, fun _ => rfl, fun _ => rfl, fun _ => rfl⟩

/-- Witness for C24: the user fetch fails on a state that is stale and holds
the user `Odie`; the error is returned and `Odie` is still found. -/
theorem refresh_error_keeps_cache_witness :
    (warmState.Refresh mockAPIUsersErr false someNow 0).err =
      some "slack client failed to get users: users are all gone man" ∧
    (warmState.Refresh mockAPIUsersErr false someNow 0).state = warmState ∧
    (warmState.Refresh mockAPIUsersErr false someNow 0).state.User "U009" =
      ({ ID := "U009", Name := "Odie" }, true) :=
  ⟨rfl, (refresh_error_keeps_cache warmState mockAPIUsersErr false someNow 0
      (by simp [slackStateImpl.Refresh, slackStateImpl.conversations, slackStateImpl.users,
        slackStateImpl.conversationsLoop, getConversationsBatch, mockAPIUsersErr,
        slackStateImpl.Stale, warmState, Time.Before, Time.Add, Time.zero, someNow,
        timeHour])).1,
   rfl⟩

/-- The loop of `conversations` on an API that serves pages: it gathers the
batches of all pages and requests each cursor once, in order. -/
theorem conversationsLoop_pages (client : SlackAPI) (rest : List (List ApiChannel × String)) :
    ∀ (fuel : Nat) (cursor : String) (n : Nat) (acc : List ApiChannel),
      ((cursor = "" ∧ rest = []) ∨ (cursor ≠ "" ∧ ServesFrom client cursor rest)) →
      rest.length ≤ fuel →
      (slackStateImpl.conversationsLoop client fuel cursor n acc).result =
        some (Except.ok (acc ++ (rest.map Prod.fst).flatten)) ∧
      (slackStateImpl.conversationsLoop client fuel cursor n acc).calls =
        (pageCursors cursor rest).map ApiCall.getConversations := by
  induction rest with
  | nil =>
    intro fuel cursor n acc h _
    have hc : cursor = "" := by
      rcases h with h | h
      · exact h.1
      · exact absurd h.2 (by simp [ServesFrom])
    subst hc
    cases fuel <;> simp [slackStateImpl.conversationsLoop, pageCursors]
  | cons page rest ih =>
    intro fuel cursor n acc h hlen
    obtain ⟨hne, hget, hnext⟩ : cursor ≠ "" ∧ client.GetConversations cursor = Except.ok page ∧
        ((page.2 = "" ∧ rest = []) ∨ (page.2 ≠ "" ∧ ServesFrom client page.2 rest)) := by
      rcases h with h | h
      · exact absurd h.2 (List.cons_ne_nil _ _)
      · exact ⟨h.1, h.2.1, h.2.2⟩
    obtain ⟨batch, nextCursor⟩ := page
    cases fuel with
    | zero => simp at hlen
    | succ f =>
      have hb : getConversationsBatch client cursor = Except.ok (batch, nextCursor) := by
        unfold getConversationsBatch
        rw [hget]
      obtain ⟨ih1, ih2⟩ := ih f nextCursor (n + 1) (acc ++ batch) hnext
        (by simpa using hlen)
      unfold slackStateImpl.conversationsLoop
      rw [if_neg hne]
      simp only [hb]
      refine ⟨?_, ?_⟩
      · rw [ih1]
        simp [List.append_assoc]
      · rw [ih2]
        rfl

/-- Method `conversations` on an API that serves pages from the empty cursor:
the conversations of all pages, after one request per page. -/
theorem conversations_pages (client : SlackAPI) (pages : List (List ApiChannel × String))
    (fuel : Nat) (hserve : ServesFrom client "" pages) (hfuel : pages.length ≤ fuel + 1) :
    (slackStateImpl.conversations client fuel).result =
      some (Except.ok (pageConversations pages)) ∧
    (slackStateImpl.conversations client fuel).calls =
      (pageCursors "" pages).map ApiCall.getConversations := by
  cases pages with
  | nil => exact absurd hserve (by simp [ServesFrom])
  | cons page rest =>
    obtain ⟨batch, cursor⟩ := page
    obtain ⟨hget, hnext⟩ : client.GetConversations "" = Except.ok (batch, cursor) ∧
        ((cursor = "" ∧ rest = []) ∨ (cursor ≠ "" ∧ ServesFrom client cursor rest)) := hserve
    have hb : getConversationsBatch client "" = Except.ok (batch, cursor) := by
      unfold getConversationsBatch
      rw [hget]
    obtain ⟨h1, h2⟩ := conversationsLoop_pages client rest fuel cursor 1 batch hnext
      (by simpa using hfuel)
    unfold slackStateImpl.conversations
    simp only [hb, h1, h2]
    exact ⟨rfl, rfl⟩

/-- C25: `Refresh(client, force)` makes no API call, changes nothing and
returns nil when the state is not stale and force is false.  When the state is
stale or force is true and both fetches succeed, that is when the client
answers the requests for conversations, from the empty cursor on, with pages
of which the last has no next cursor, and answers `GetUsers` with a list of
users, `Refresh` returns nil after requesting each page once, in order, and
then the users, and the cache is replaced as a whole: `User`, `UserID`,
`Conversation` and `ConversationID` resolve exactly the users the client gave
and the conversations of all the pages, by ID and by name, whatever was cached
before. -/
theorem refresh_replaces_cache (s : slackStateImpl) (client : SlackAPI) (force : Bool)
    (now : Time) (fuel : Nat) :
    (s.Stale now = false → force = false →
      (s.Refresh client force now fuel).state = s ∧
      (s.Refresh client force now fuel).err = none ∧
      (s.Refresh client force now fuel).calls = [] ∧
      (s.Refresh client force now fuel).returned = true) ∧
    (∀ (pages : List (List ApiChannel × String)) (apiUsers : List ApiUser),
      (s.Stale now = true ∨ force = true) →
      ServesFrom client "" pages →
      client.GetUsers = Except.ok apiUsers →
      pages.length ≤ fuel + 1 →
      (s.Refresh client force now fuel).returned = true ∧
      (s.Refresh client force now fuel).err = none ∧
      (s.Refresh client force now fuel).calls =
        (pageCursors "" pages).map ApiCall.getConversations ++ [ApiCall.getUsers] ∧
      ResolvesExactly User.ID { ID := "", Name := "" }
        (apiUsers.map (fun user => { ID := user.ID, Name := user.Name }))
        (s.Refresh client force now fuel).state.User ∧
      ResolvesExactly User.Name { ID := "", Name := "" }
        (apiUsers.map (fun user => { ID := user.ID, Name := user.Name }))
        (s.Refresh client force now fuel).state.UserID ∧
      ResolvesExactly Conversation.ID { ID := "", Name := "" } (pageConversations pages)
        (s.Refresh client force now fuel).state.Conversation ∧
      ResolvesExactly Conversation.Name { ID := "", Name := "" } (pageConversations pages)
        (s.Refresh client force now fuel).state.ConversationID) := by
  constructor
  · intro hst hf
    unfold slackStateImpl.Refresh
    simp [hst, hf]
  · intro pages apiUsers hsf hserve hgu hfuel
    obtain ⟨hc, hcalls⟩ := conversations_pages client pages fuel hserve hfuel
    have hu : slackStateImpl.users client =
        Except.ok (apiUsers.map (fun user => { ID := user.ID, Name := user.Name })) := by
      unfold slackStateImpl.users
      rw [hgu]
    have hcond : ¬ ((!s.Stale now && !force) = true) := by
      rcases hsf with h | h <;> simp [h]
    have hr : s.Refresh client force now fuel =
        { state :=
            { s with
              conversationsByID := GoMap.setAll Conversation.ID [] (pageConversations pages),
              conversationsByName :=
                GoMap.setAll Conversation.Name [] (pageConversations pages),
              usersByID := GoMap.setAll User.ID []
                (apiUsers.map (fun user => { ID := user.ID, Name := user.Name })),
              usersByName := GoMap.setAll User.Name []
                (apiUsers.map (fun user => { ID := user.ID, Name := user.Name })) },
          err := none,
          calls := (pageCursors "" pages).map ApiCall.getConversations ++ [ApiCall.getUsers],
          returned := true } := by
      unfold slackStateImpl.Refresh
      rw [if_neg hcond]
      simp only [hc, hu, hcalls]
    rw [hr]
    exact ⟨rfl, rfl, rfl, GoMap.lookup_setAll User.ID _ _,
      GoMap.lookup_setAll User.Name _ _, GoMap.lookup_setAll Conversation.ID _ _,
      GoMap.lookup_setAll Conversation.Name _ _⟩

/-- Witness for C25: the stale state that holds the user `Odie` and the
conversation `old` is refreshed from the API that answers in two batches: both
batches are requested, then the users; afterwards the conversations of both
batches and the users are found by ID and by name, `Odie` and `old` are gone,
and the lookups resolve exactly what the client gave. -/
theorem refresh_replaces_cache_witness :
    (warmState.Refresh pagedAPI false someNow 1).calls =
      [ApiCall.getConversations "", ApiCall.getConversations "next", ApiCall.getUsers] ∧
    (warmState.Refresh pagedAPI false someNow 1).state.Conversation "C002" =
      ({ ID := "C002", Name := "general" }, true) ∧
    (warmState.Refresh pagedAPI false someNow 1).state.ConversationID "random" =
      ({ ID := "C001", Name := "random" }, true) ∧
    (warmState.Refresh pagedAPI false someNow 1).state.Conversation "C009" =
      ({ ID := "", Name := "" }, false) ∧
    (warmState.Refresh pagedAPI false someNow 1).state.UserID "Garfbot" =
      ({ ID := "U001", Name := "Garfbot" }, true) ∧
    (warmState.Refresh pagedAPI false someNow 1).state.User "U009" =
      ({ ID := "", Name := "" }, false) ∧
    ResolvesExactly Conversation.ID { ID := "", Name := "" }
      [{ ID := "C002", Name := "general" }, { ID := "C001", Name := "random" }]
      (warmState.Refresh pagedAPI false someNow 1).state.Conversation ∧
    (warmState.Refresh mockAPI false someNow 0).calls =
      [ApiCall.getConversations "", ApiCall.getUsers] ∧
    (warmState.Refresh mockAPI false someNow 0).state.Conversation "C001" =
      ({ ID := "C001", Name := "random" }, true) :=
  ⟨((refresh_replaces_cache warmState pagedAPI false someNow 1).2
      [([{ ID := "C002", Name := "general" }], "next"),
       ([{ ID := "C001", Name := "random" }], "")]
      [{ ID := "U000", Name := "Gorfbot" }, { ID := "U001", Name := "Garfbot" }]
      (Or.inl (by decide)) ⟨rfl, Or.inr ⟨by decide, rfl, Or.inl ⟨rfl, rfl⟩⟩⟩ rfl
      (by decide)).2.2.1,
   rfl, rfl, rfl, rfl, rfl,
   ((refresh_replaces_cache warmState pagedAPI false someNow 1).2
      [([{ ID := "C002", Name := "general" }], "next"),
       ([{ ID := "C001", Name := "random" }], "")]
      [{ ID := "U000", Name := "Gorfbot" }, { ID := "U001", Name := "Garfbot" }]
      (Or.inl (by decide)) ⟨rfl, Or.inr ⟨by decide, rfl, Or.inl ⟨rfl, rfl⟩⟩⟩ rfl
      (by decide)).2.2.2.2.2.1,
   rfl, rfl⟩

/-- C29, the code at the failing input: `Refresh` never assigns `lastUpdated`,
so the state keeps the time it had.  A new state refreshed with success from
the mocked API is still stale at the very same instant, and the `Refresh`
without force that follows immediately makes both API calls again. -/
theorem refresh_does_not_record_time :
    (∀ (s : slackStateImpl) (client : SlackAPI) (force : Bool) (now : Time) (fuel : Nat),
      (s.Refresh client force now fuel).state.lastUpdated = s.lastUpdated ∧
      (s.Refresh client force now fuel).state.maxAge = s.maxAge) ∧
    ((newSlackStateImpl none).Refresh mockAPI false someNow 0).err = none ∧
    ((newSlackStateImpl none).Refresh mockAPI false someNow 0).returned = true ∧
    ((newSlackStateImpl none).Refresh mockAPI false someNow 0).calls =
      [ApiCall.getConversations "", ApiCall.getUsers] ∧
    ((newSlackStateImpl none).Refresh mockAPI false someNow 0).state.lastUpdated =
      Time.zero ∧
    ((newSlackStateImpl none).Refresh mockAPI false someNow 0).state.Stale someNow = true ∧
    (((newSlackStateImpl none).Refresh mockAPI false someNow 0).state.Refresh
      mockAPI false someNow 0).calls = [ApiCall.getConversations "", ApiCall.getUsers] := by
  refine ⟨?_, rfl, rfl, rfl, rfl, by decide, rfl⟩
  intro s client force now fuel
  unfold slackStateImpl.Refresh
  split
  · exact ⟨rfl, rfl⟩
  · cases (slackStateImpl.conversations client fuel).result with
    | none => exact ⟨rfl, rfl⟩
    | some r =>
      cases r with
      | error e => exact ⟨rfl, rfl⟩
      | ok convs =>
        simp only []
        cases slackStateImpl.users client with
        | error e => exact ⟨rfl, rfl⟩
        | ok us => exact ⟨rfl, rfl⟩

/-! ## URL patterns -/

/-- C27, the code against the claim.  A pattern built by `newURLPattern` from a
configuration with an empty `PathPattern` has no path expression, and `Matches`
returns the empty string for it on every URL, also when the host matches: at
the failing input the host pattern matches every host and the collection
`examples` is never returned.  With a non-empty `PathPattern` the claim holds:
`Matches` returns the collection exactly when the host and the path both
match, and the empty string otherwise. -/
theorem url_pattern_without_path_never_matches
    (Compile : String → Except String Regexp) (urlConf : URLConfig) (u : urlPattern)
    (hnew : newURLPattern Compile urlConf = Except.ok u) :
    (urlConf.PathPattern = "" → ∀ url : URL, u.Matches url = some "") ∧
    (urlConf.PathPattern ≠ "" → ∃ hostRe pathRe,
      Compile urlConf.HostPattern = Except.ok hostRe ∧
      Compile urlConf.PathPattern = Except.ok pathRe ∧
      ∀ url : URL, u.Matches url =
        some (if hostRe.MatchString url.Host = true ∧ pathRe.MatchString url.Path = true
          then urlConf.Collection else "")) ∧
    (∀ url : URL,
      (newURLPattern compileAny hostOnlyConfig).map (fun p => p.Matches url) =
        Except.ok (some "")) := by
  unfold newURLPattern at hnew
  by_cases h1 : urlConf.HostPattern = ""
  · simp [h1] at hnew
  by_cases h2 : urlConf.Collection = ""
  · simp [h1, h2] at hnew
  rw [if_neg h1, if_neg h2] at hnew
  cases hc : Compile urlConf.HostPattern with
  | error e => simp [hc] at hnew
  | ok hostRe =>
    simp only [hc] at hnew
    refine ⟨?_, ?_, fun url => rfl⟩
    · intro hp url
      simp only [hp, ne_eq, not_true_eq_false, if_false] at hnew
      cases hnew
      rfl
    · intro hp
      rw [if_pos hp] at hnew
      cases hcp : Compile urlConf.PathPattern with
      | error e => simp [hcp] at hnew
      | ok pathRe =>
        simp only [hcp] at hnew
        cases hnew
        refine ⟨hostRe, pathRe, rfl, rfl, fun url => ?_⟩
        unfold urlPattern.Matches
        cases hh : hostRe.MatchString url.Host <;> cases hq : pathRe.MatchString url.Path <;>
          simp [hh, hq]

/-- Witness for C27: the pattern built from a configuration without path
pattern returns the empty string for `www.example.com/x`, although its host
pattern matches every host. -/
theorem url_pattern_without_path_never_matches_witness :
    newURLPattern compileAny hostOnlyConfig = Except.ok hostOnlyPattern ∧
    (({ egRegexp with expr := ".*" } : Regexp).MatchString "www.example.com" = true) ∧
    hostOnlyPattern.Matches { Host := "www.example.com", Path := "/x" } = some "" :=
  ⟨rfl, by decide,
   (url_pattern_without_path_never_matches compileAny hostOnlyConfig hostOnlyPattern rfl).1 rfl
     { Host := "www.example.com", Path := "/x" }⟩

/-! ## Sorting strings -/

theorem charsLE_total (a b : List Char) : charsLE a b = true ∨ charsLE b a = true := by
  induction a generalizing b with
  | nil => left; simp [charsLE]
  | cons x xs ih =>
    cases b with
    | nil => right; simp [charsLE]
    | cons y ys =>
      rcases lt_trichotomy x y with h | h | h
      · left; simp [charsLE, h]
      · subst h
        simp only [charsLE, lt_irrefl, if_false]
        exact ih ys
      · right; simp [charsLE, h]

theorem charsLE_antisymm (a b : List Char) (h1 : charsLE a b = true) (h2 : charsLE b a = true) :
    a = b := by
  induction a generalizing b with
  | nil =>
    cases b with
    | nil => rfl
    | cons y ys => simp [charsLE] at h2
  | cons x xs ih =>
    cases b with
    | nil => simp [charsLE] at h1
    | cons y ys =>
      rcases lt_trichotomy x y with h | h | h
      · simp [charsLE, h, lt_asymm h] at h2
      · subst h
        simp only [charsLE, lt_irrefl, if_false] at h1 h2
        rw [ih ys h1 h2]
      · simp [charsLE, h, lt_asymm h] at h1

theorem charsLE_trans (a b c : List Char) (h1 : charsLE a b = true) (h2 : charsLE b c = true) :
    charsLE a c = true := by
  induction a generalizing b c with
  | nil => simp [charsLE]
  | cons x xs ih =>
    cases b with
    | nil => simp [charsLE] at h1
    | cons y ys =>
      cases c with
      | nil => simp [charsLE] at h2
      | cons z zs =>
        rcases lt_trichotomy x y with hxy | hxy | hxy
        · rcases lt_trichotomy y z with hyz | hyz | hyz
          · simp [charsLE, lt_trans hxy hyz]
          · subst hyz; simp [charsLE, hxy]
          · simp [charsLE, hyz, lt_asymm hyz] at h2
        · subst hxy
          rcases lt_trichotomy x z with hyz | hyz | hyz
          · simp [charsLE, hyz]
          · subst hyz
            simp only [charsLE, lt_irrefl, if_false] at h1 h2 ⊢
            exact ih ys zs h1 h2
          · simp [charsLE, hyz, lt_asymm hyz] at h2
        · simp [charsLE, hxy, lt_asymm hxy] at h1

theorem strLE_total : IsTotal String strLE := ⟨fun a b => charsLE_total a.data b.data⟩

theorem strLE_trans : IsTrans String strLE :=
  ⟨fun a b c h1 h2 => charsLE_trans a.data b.data c.data h1 h2⟩

theorem strLE_antisymm : IsAntisymm String strLE :=
  ⟨fun a b h1 h2 => String.ext (charsLE_antisymm a.data b.data h1 h2)⟩

theorem sortStrings_sorted (l : List String) : List.Sorted strLE (sortStrings l) := by
  haveI := strLE_total
  haveI := strLE_trans
  exact List.sorted_insertionSort strLE l

theorem sortStrings_perm (l : List String) : (sortStrings l).Perm l :=
  List.perm_insertionSort strLE l

/-! ## Reactions for keywords -/

namespace GoMap

theorem mem_keys_iff {α : Type} (m : GoMap α) (r : String) :
    r ∈ keys m ↔ (get m r).isSome = true := by
  induction m with
  | nil => simp [keys, get]
  | cons p rest ih =>
    obtain ⟨k, v⟩ := p
    by_cases hk : k = r
    · subst hk
      simp [keys, get]
    · have hk' : ¬ r = k := fun e => hk e.symm
      have ih' : r ∈ List.map Prod.fst rest ↔ (get rest r).isSome = true := ih
      simp only [keys, List.map_cons, List.mem_cons, hk', false_or, get, hk, if_false]
      exact ih'

theorem mem_keys_set {α : Type} (m : GoMap α) (k : String) (v : α) (r : String) :
    r ∈ keys (set m k v) ↔ r = k ∨ r ∈ keys m := by
  rw [mem_keys_iff, mem_keys_iff]
  by_cases hr : r = k
  · subst hr
    simp [get_set_self]
  · rw [get_set_ne _ _ _ _ hr]
    simp [hr]

theorem keys_set_nodup {α : Type} (m : GoMap α) (k : String) (v : α)
    (h : (keys m).Nodup) : (keys (set m k v)).Nodup := by
  unfold set keys
  rw [List.map_cons, List.nodup_cons]
  constructor
  · intro hmem
    obtain ⟨p, hp, hk⟩ := List.mem_map.mp hmem
    have := (List.mem_filter.mp hp).2
    simp only [ne_eq, decide_eq_true_eq] at this
    exact this hk
  · exact h.sublist ((List.filter_sublist m).map Prod.fst)

end GoMap

namespace reactjikeysPattern

theorem addAll_keys (m : GoMap Bool) (rs : List String) (h : (GoMap.keys m).Nodup) :
    (GoMap.keys (addAll m rs)).Nodup ∧
    ∀ r, r ∈ GoMap.keys (addAll m rs) ↔ r ∈ GoMap.keys m ∨ r ∈ rs := by
  induction rs generalizing m with
  | nil => exact ⟨h, fun r => by simp [addAll]⟩
  | cons x xs ih =>
    obtain ⟨h1, h2⟩ := ih (GoMap.set m x true) (GoMap.keys_set_nodup m x true h)
    refine ⟨h1, fun r => ?_⟩
    show r ∈ GoMap.keys (addAll (GoMap.set m x true) xs) ↔ _
    rw [h2, GoMap.mem_keys_set, List.mem_cons]
    tauto

theorem keywordReactions_nil (ToLower : String → String) (config : ReactjiKeysConfig)
    (r : String) : ¬ keywordReactions ToLower config [] r := by
  rintro ⟨s, hs, _⟩
  cases hs

theorem keywordReactions_cons (ToLower : String → String) (config : ReactjiKeysConfig)
    (first second : String) (rest : List (List String)) (r : String) :
    keywordReactions ToLower config ([first, second] :: rest) r ↔
      (∃ reactions, GoMap.get config.Keywords (ToLower second) = some reactions ∧
        r ∈ reactions) ∨ keywordReactions ToLower config rest r := by
  constructor
  · rintro ⟨s, hs, f, sec, rs, he, hg, hr⟩
    rcases List.mem_cons.mp hs with h | h
    · subst h
      simp only [List.cons.injEq, and_true] at he
      obtain ⟨_, rfl⟩ := he
      exact Or.inl ⟨rs, hg, hr⟩
    · exact Or.inr ⟨s, h, f, sec, rs, he, hg, hr⟩
  · rintro (⟨rs, hg, hr⟩ | ⟨s, hs, f, sec, rs, he, hg, hr⟩)
    · exact ⟨[first, second], List.mem_cons_self _ _, first, second, rs, rfl, hg, hr⟩
    · exact ⟨s, List.mem_cons_of_mem _ hs, f, sec, rs, he, hg, hr⟩

/-- The loop ends without error exactly when every submatch has two elements,
and then the keys of the reactions map are the keys it started with and the
reactions of the keywords met. -/
theorem collect_spec (ToLower : String → String) (config : ReactjiKeysConfig)
    (l : List (List String)) (m : GoMap Bool) (hm : (GoMap.keys m).Nodup) :
    ((∀ s ∈ l, s.length = 2) →
      ∃ m', collect ToLower config m l = Except.ok m' ∧ (GoMap.keys m').Nodup ∧
        ∀ r, r ∈ GoMap.keys m' ↔ r ∈ GoMap.keys m ∨ keywordReactions ToLower config l r) ∧
    ((∃ s ∈ l, s.length ≠ 2) → ∃ e, collect ToLower config m l = Except.error e) := by
  induction l generalizing m with
  | nil =>
    constructor
    · intro _
      exact ⟨m, rfl, hm, fun r => by simp [keywordReactions_nil]⟩
    · rintro ⟨s, hs, _⟩
      cases hs
  | cons s rest ih =>
    by_cases hlen : s.length = 2
    · obtain ⟨first, second, rfl⟩ : ∃ first second, s = [first, second] := by
        match s, hlen with
        | [a, b], _ => exact ⟨a, b, rfl⟩
      cases hg : GoMap.get config.Keywords (ToLower second) with
      | none =>
        have hstep : collect ToLower config m ([first, second] :: rest) =
            collect ToLower config m rest := by
          simp [collect, hg]
        rw [hstep]
        obtain ⟨ih1, ih2⟩ := ih m hm
        constructor
        · intro hall
          obtain ⟨m', h1, h2, h3⟩ := ih1 (fun x hx => hall x (List.mem_cons_of_mem _ hx))
          refine ⟨m', h1, h2, fun r => ?_⟩
          rw [h3, keywordReactions_cons]
          simp [hg]
        · rintro ⟨x, hx, hne⟩
          rcases List.mem_cons.mp hx with h | h
          · subst h; exact absurd rfl hne
          · exact ih2 ⟨x, h, hne⟩
      | some reactions =>
        have hstep : collect ToLower config m ([first, second] :: rest) =
            collect ToLower config (addAll m reactions) rest := by
          simp [collect, hg]
        rw [hstep]
        obtain ⟨ha1, ha2⟩ := addAll_keys m reactions hm
        obtain ⟨ih1, ih2⟩ := ih (addAll m reactions) ha1
        constructor
        · intro hall
          obtain ⟨m', h1, h2, h3⟩ := ih1 (fun x hx => hall x (List.mem_cons_of_mem _ hx))
          refine ⟨m', h1, h2, fun r => ?_⟩
          rw [h3, ha2, keywordReactions_cons]
          simp [hg]
          tauto
        · rintro ⟨x, hx, hne⟩
          rcases List.mem_cons.mp hx with h | h
          · subst h; exact absurd rfl hne
          · exact ih2 ⟨x, h, hne⟩
    · have hstep : collect ToLower config m (s :: rest) =
          Except.error (reactjikeysError.errUnexpectedSubmatchLen s) := by
        match s, hlen with
        | [], _ => rfl
        | [_], _ => rfl
        | _ :: _ :: _ :: _, _ => rfl
      rw [hstep]
      constructor
      · intro hall
        exact absurd (hall s (List.mem_cons_self _ _)) hlen
      · intro _
        exact ⟨_, rfl⟩

end reactjikeysPattern

theorem keywordReactions_of_words (ToLower : String → String) (config : ReactjiKeysConfig)
    (l1 l2 : List (List String)) (h2 : ∀ s ∈ l2, s.length = 2)
    (hw : ∀ w, w ∈ loweredWords ToLower l1 → w ∈ loweredWords ToLower l2) (r : String)
    (h : keywordReactions ToLower config l1 r) : keywordReactions ToLower config l2 r := by
  obtain ⟨s, hs, f, sec, rs, he, hg, hr⟩ := h
  subst he
  have hmem : ToLower sec ∈ loweredWords ToLower l1 :=
    List.mem_map.mpr ⟨[f, sec], hs, rfl⟩
  obtain ⟨s2, hs2, he2⟩ := List.mem_map.mp (hw _ hmem)
  have hlen := h2 s2 hs2
  match s2, hlen, hs2, he2 with
  | [a, b], _, hs2, he2 =>
    have he3 : ToLower b = ToLower sec := he2
    exact ⟨[a, b], hs2, a, b, rs, rfl, by rw [he3]; exact hg, hr⟩

theorem strictlyAscending_unique (l1 l2 : List String) (h1 : StrictlyAscending l1)
    (h2 : StrictlyAscending l2) (hm : ∀ r, r ∈ l1 ↔ r ∈ l2) : l1 = l2 := by
  have s1 : List.Sorted strLE l1 := List.Pairwise.imp (fun h => h.1) h1
  have s2 : List.Sorted strLE l2 := List.Pairwise.imp (fun h => h.1) h2
  have n1 : l1.Nodup := List.Pairwise.imp (fun h => h.2) h1
  have n2 : l2.Nodup := List.Pairwise.imp (fun h => h.2) h2
  haveI := strLE_antisymm
  exact List.eq_of_perm_of_sorted ((List.perm_ext_iff_of_nodup n1 n2).mpr hm) s1 s2

theorem sortStrings_strictlyAscending (l : List String) (h : l.Nodup) :
    StrictlyAscending (sortStrings l) := by
  have hs := sortStrings_sorted l
  have hn : (sortStrings l).Nodup := (sortStrings_perm l).nodup_iff.mpr h
  exact List.Pairwise.and hs hn

/-- What `Run` returns on submatches that all have two elements. -/
theorem reactjikeysPattern.Run_ok (ToLower : String → String) (config : ReactjiKeysConfig)
    (l : List (List String)) (hne : l ≠ []) (hall : ∀ s ∈ l, s.length = 2) :
    (reactjikeysPattern.Run ToLower config l).2 = none ∧
    (reactjikeysPattern.Run ToLower config l).1.Message = "" ∧
    StrictlyAscending (reactjikeysPattern.Run ToLower config l).1.Reactji ∧
    ∀ r, r ∈ (reactjikeysPattern.Run ToLower config l).1.Reactji ↔
      keywordReactions ToLower config l r := by
  have hlen : ¬ l.length < 1 := by
    cases l with
    | nil => exact absurd rfl hne
    | cons _ _ => simp
  obtain ⟨m', hc, hnod, hmem⟩ :=
    (reactjikeysPattern.collect_spec ToLower config l [] (by simp [GoMap.keys])).1 hall
  have hrun : reactjikeysPattern.Run ToLower config l =
      ({ Message := "", Reactji := sortStrings (GoMap.keys m') }, none) := by
    simp only [reactjikeysPattern.Run, hlen, if_false, hc]
  rw [hrun]
  refine ⟨rfl, rfl, sortStrings_strictlyAscending _ hnod, fun r => ?_⟩
  show r ∈ sortStrings (GoMap.keys m') ↔ _
  rw [(sortStrings_perm _).mem_iff, hmem]
  simp [GoMap.keys]

/-- What `Run` returns on no submatch or on a submatch that has not two
elements. -/
theorem reactjikeysPattern.Run_err (ToLower : String → String) (config : ReactjiKeysConfig)
    (l : List (List String)) (h : l = [] ∨ ∃ s ∈ l, s.length ≠ 2) :
    (reactjikeysPattern.Run ToLower config l).2 ≠ none := by
  rcases h with h | h
  · subst h
    simp [reactjikeysPattern.Run]
  · obtain ⟨e, he⟩ := (reactjikeysPattern.collect_spec ToLower config l [] (by simp [GoMap.keys])).2 h
    by_cases hlen : l.length < 1
    · simp [reactjikeysPattern.Run, hlen]
    · simp [reactjikeysPattern.Run, hlen, he]

/-- Claim C28: `reactjikeysPattern.Run` returns an error exactly when the list
of submatches is empty or some submatch has not exactly two elements; when it
returns no error the Message is empty, the Reactji list is strictly ascending
(sorted, no reaction twice), its elements are exactly the reactions that the
keywords map gives for the lower-cased second element of some submatch, and any
other list of two-element submatches with the same set of lower-cased words
gives the same result, whatever the order, the letter case or the repetition of
the words. -/
theorem reactjikeys_run_sorted_union (ToLower : String → String) (config : ReactjiKeysConfig)
    (allSubmatches : List (List String)) :
    ((reactjikeysPattern.Run ToLower config allSubmatches).2 ≠ none ↔
      (allSubmatches = [] ∨ ∃ s ∈ allSubmatches, s.length ≠ 2)) ∧
    ((reactjikeysPattern.Run ToLower config allSubmatches).2 = none →
      (reactjikeysPattern.Run ToLower config allSubmatches).1.Message = "" ∧
      StrictlyAscending (reactjikeysPattern.Run ToLower config allSubmatches).1.Reactji ∧
      (∀ r, r ∈ (reactjikeysPattern.Run ToLower config allSubmatches).1.Reactji ↔
        keywordReactions ToLower config allSubmatches r) ∧
      ∀ other : List (List String),
        (reactjikeysPattern.Run ToLower config other).2 = none →
        (∀ w, w ∈ loweredWords ToLower other ↔ w ∈ loweredWords ToLower allSubmatches) →
        reactjikeysPattern.Run ToLower config other =
          reactjikeysPattern.Run ToLower config allSubmatches) := by
  have key : ∀ l : List (List String),
      (reactjikeysPattern.Run ToLower config l).2 = none → l ≠ [] ∧ ∀ s ∈ l, s.length = 2 := by
    intro l hl
    constructor
    · intro h
      exact reactjikeysPattern.Run_err ToLower config l (Or.inl h) hl
    · intro s hs
      by_contra hne
      exact reactjikeysPattern.Run_err ToLower config l (Or.inr ⟨s, hs, hne⟩) hl
  constructor
  · constructor
    · intro herr
      by_contra hcon
      push_neg at hcon
      exact herr (reactjikeysPattern.Run_ok ToLower config allSubmatches hcon.1 hcon.2).1
    · exact reactjikeysPattern.Run_err ToLower config allSubmatches
  · intro hok
    obtain ⟨hne, hall⟩ := key allSubmatches hok
    obtain ⟨_, hmsg, hasc, hmem⟩ := reactjikeysPattern.Run_ok ToLower config allSubmatches hne hall
    refine ⟨hmsg, hasc, hmem, fun other hother hwords => ?_⟩
    obtain ⟨hne2, hall2⟩ := key other hother
    obtain ⟨_, hmsg2, hasc2, hmem2⟩ := reactjikeysPattern.Run_ok ToLower config other hne2 hall2
    have hreact : (reactjikeysPattern.Run ToLower config other).1.Reactji =
        (reactjikeysPattern.Run ToLower config allSubmatches).1.Reactji := by
      apply strictlyAscending_unique _ _ hasc2 hasc
      intro r
      rw [hmem, hmem2]
      constructor
      · exact keywordReactions_of_words ToLower config other allSubmatches hall
          (fun w hw => (hwords w).mp hw) r
      · exact keywordReactions_of_words ToLower config allSubmatches other hall2
          (fun w hw => (hwords w).mpr hw) r
    have e1 : ∀ a b : RunResult × Option reactjikeysError,
        a.1.Message = b.1.Message → a.1.Reactji = b.1.Reactji → a.2 = b.2 → a = b := by
      rintro ⟨⟨m1, r1⟩, x1⟩ ⟨⟨m2, r2⟩, x2⟩ h1 h2 h3
      simp only at h1 h2 h3
      subst h1; subst h2; subst h3
      rfl
    exact e1 _ _ (hmsg2.trans hmsg.symm) hreact (hother.trans hok.symm)

/-- The cases of `TestRun`, `TestRunTooFewMatches` and `TestRunTooSmallMatch`:
two distinct matches give `cry` and `wave` once each, a mixed-case match and a
five times repeated match give the reactions of `hello`. -/
theorem reactjikeys_run_sorted_union_witness :
    reactjikeysPattern.Run asciiToLower testKeywords
        [["hello", "hello"], ["goodbye", "goodbye"]] =
      ({ Message := "", Reactji := ["cry", "wave"] }, none) ∧
    reactjikeysPattern.Run asciiToLower testKeywords [["HeLLo", "HeLLo"]] =
      reactjikeysPattern.Run asciiToLower testKeywords [["hello", "hello"]] ∧
    reactjikeysPattern.Run asciiToLower testKeywords
        [["hello", "hello"], ["hello", "hello"], ["hello", "hello"], ["hello", "hello"],
          ["hello", "hello"]] =
      reactjikeysPattern.Run asciiToLower testKeywords [["hello", "hello"]] ∧
    (reactjikeysPattern.Run asciiToLower testKeywords []).2 ≠ none ∧
    (reactjikeysPattern.Run asciiToLower testKeywords [["a"]]).2 ≠ none :=
  ⟨by decide,
   ((reactjikeys_run_sorted_union asciiToLower testKeywords [["hello", "hello"]]).2
      (by decide)).2.2.2 [["HeLLo", "HeLLo"]] (by decide)
      (fun w => by
        have h : loweredWords asciiToLower [["HeLLo", "HeLLo"]] =
            loweredWords asciiToLower [["hello", "hello"]] := by decide
        rw [h]),
   ((reactjikeys_run_sorted_union asciiToLower testKeywords [["hello", "hello"]]).2
      (by decide)).2.2.2 _ (by decide)
      (fun w => by
        have h1 : loweredWords asciiToLower [["hello", "hello"], ["hello", "hello"],
            ["hello", "hello"], ["hello", "hello"], ["hello", "hello"]] =
            ["hello", "hello", "hello", "hello", "hello"] := by decide
        have h2 : loweredWords asciiToLower [["hello", "hello"]] = ["hello"] := by decide
        rw [h1, h2]
        simp),
   (reactjikeys_run_sorted_union asciiToLower testKeywords []).1.mpr (Or.inl rfl),
   (reactjikeys_run_sorted_union asciiToLower testKeywords [["a"]]).1.mpr
      (Or.inr ⟨["a"], by decide, by decide⟩)⟩

/-! ## Slack timestamps -/

namespace strconv

theorem maxUint64_eq : maxUint64 = 18446744073709551615 := by
  norm_num [maxUint64]

theorem digitVal_of_digit (c : Char) (h : '0' ≤ c ∧ c ≤ '9') :
    digitVal c = some (c.toNat - '0'.toNat) := by
  simp only [digitVal, if_pos h]

theorem digitVal_of_not_digit (c : Char) (h : ¬ ('0' ≤ c ∧ c ≤ '9')) : digitVal c = none := by
  simp only [digitVal, if_neg h]

theorem decimalValue_cons (n : Nat) (c : Char) (cs : List Char) :
    decimalValue n (c :: cs) = decimalValue (n * 10 + (c.toNat - '0'.toNat)) cs := rfl

theorem decimalValue_ge (n : Nat) (ds : List Char) : n ≤ decimalValue n ds := by
  induction ds generalizing n with
  | nil => exact le_refl _
  | cons c cs ih =>
    have h := ih (n * 10 + (c.toNat - '0'.toNat))
    rw [decimalValue_cons]
    omega

/-- On decimal digits the loop of `ParseUint` gives the number they write, or
`ErrRange` when that number leaves the 64 bits. -/
theorem parseUintLoop_digits (cs : List Char) (hd : ∀ c ∈ cs, '0' ≤ c ∧ c ≤ '9') (a : Nat)
    (ha : a ≤ maxUint64) :
    parseUintLoop a cs =
      if decimalValue a cs ≤ maxUint64 then Except.ok (decimalValue a cs)
      else Except.error NumError.ErrRange := by
  induction cs generalizing a with
  | nil => simp [parseUintLoop, decimalValue, ha]
  | cons c cs ih =>
    have hc := hd c (List.mem_cons_self _ _)
    have hge := decimalValue_ge (a * 10 + (c.toNat - '0'.toNat)) cs
    rw [decimalValue_cons]
    simp only [parseUintLoop, digitVal_of_digit c hc]
    rw [maxUint64_eq] at *
    by_cases h1 : a ≥ 18446744073709551615 / 10 + 1
    · have h3 : ¬ decimalValue (a * 10 + (c.toNat - '0'.toNat)) cs ≤ 18446744073709551615 := by
        omega
      rw [if_pos h1, if_neg h3]
    · by_cases h2 : a * 10 + (c.toNat - '0'.toNat) > 18446744073709551615
      · have h3 : ¬ decimalValue (a * 10 + (c.toNat - '0'.toNat)) cs ≤ 18446744073709551615 := by
          omega
        rw [if_neg h1, if_pos h2, if_neg h3]
      · rw [if_neg h1, if_neg h2]
        exact ih (fun c hc => hd c (List.mem_cons_of_mem _ hc))
          (a * 10 + (c.toNat - '0'.toNat)) (by omega)

/-- A character that is no decimal digit makes the loop of `ParseUint` fail. -/
theorem parseUintLoop_not_digits (cs : List Char) (hd : ∃ c ∈ cs, ¬ ('0' ≤ c ∧ c ≤ '9'))
    (a : Nat) : ∃ e, parseUintLoop a cs = Except.error e := by
  induction cs generalizing a with
  | nil =>
    obtain ⟨c, hc, _⟩ := hd
    cases hc
  | cons c cs ih =>
    by_cases hc : '0' ≤ c ∧ c ≤ '9'
    · have hd2 : ∃ c ∈ cs, ¬ ('0' ≤ c ∧ c ≤ '9') := by
        obtain ⟨x, hx, hnx⟩ := hd
        rcases List.mem_cons.mp hx with h | h
        · subst h; exact absurd hc hnx
        · exact ⟨x, h, hnx⟩
      simp only [parseUintLoop, digitVal_of_digit c hc]
      by_cases h1 : a ≥ maxUint64 / 10 + 1
      · rw [if_pos h1]; exact ⟨_, rfl⟩
      · by_cases h2 : a * 10 + (c.toNat - '0'.toNat) > maxUint64
        · rw [if_neg h1, if_pos h2]; exact ⟨_, rfl⟩
        · rw [if_neg h1, if_neg h2]; exact ih hd2 _
    · simp only [parseUintLoop, digitVal_of_not_digit c hc]
      exact ⟨_, rfl⟩

theorem ParseUint_ok_iff (cs : List Char) (v : Nat) :
    ParseUint cs = Except.ok v ↔
      cs ≠ [] ∧ (∀ c ∈ cs, '0' ≤ c ∧ c ≤ '9') ∧ v = decimalValue 0 cs ∧ v ≤ maxUint64 := by
  by_cases hnil : cs = []
  · subst hnil
    simp [ParseUint]
  · by_cases hd : ∀ c ∈ cs, '0' ≤ c ∧ c ≤ '9'
    · have h := parseUintLoop_digits cs hd 0 (Nat.zero_le _)
      simp only [ParseUint, if_neg hnil, h]
      by_cases hle : decimalValue 0 cs ≤ maxUint64
      · rw [if_pos hle]
        constructor
        · intro he
          have hv : decimalValue 0 cs = v := by injection he
          exact ⟨hnil, hd, hv.symm, hv ▸ hle⟩
        · rintro ⟨_, _, hv, _⟩
          rw [hv]
      · rw [if_neg hle]
        constructor
        · intro he; cases he
        · rintro ⟨_, _, hv, hv2⟩
          exact absurd (hv ▸ hv2) hle
    · have hd2 : ∃ c ∈ cs, ¬ ('0' ≤ c ∧ c ≤ '9') := by
        push_neg at hd
        obtain ⟨c, hc, h⟩ := hd
        exact ⟨c, hc, fun hh => absurd hh.2 (not_le.mpr (h hh.1))⟩
      obtain ⟨e, he⟩ := parseUintLoop_not_digits cs hd2 0
      simp only [ParseUint, if_neg hnil, he]
      constructor
      · intro h; cases h
      · rintro ⟨_, h, _⟩
        exact absurd h hd

end strconv

namespace strconv

theorem ParseInt_of_ok (s : String) (c : Char) (cs : List Char) (hs : s.data = c :: cs)
    (un : Nat) (hpu : ParseUint (if c = '+' ∨ c = '-' then cs else c :: cs) = Except.ok un) :
    ParseInt s =
      if (!decide (c = '-') && decide (un ≥ 2 ^ 63)) = true then Except.error NumError.ErrRange
      else if (decide (c = '-') && decide (un > 2 ^ 63)) = true then
        Except.error NumError.ErrRange
      else Except.ok (if decide (c = '-') = true then -(un : Int) else (un : Int)) := by
  unfold ParseInt
  rw [hs]
  simp only [hpu]

theorem ParseInt_of_error (s : String) (c : Char) (cs : List Char) (hs : s.data = c :: cs)
    (e : NumError) (hpu : ParseUint (if c = '+' ∨ c = '-' then cs else c :: cs) = Except.error e) :
    ParseInt s = Except.error e := by
  unfold ParseInt
  rw [hs]
  cases e <;> simp only [hpu]

theorem digit_not_sign (c : Char) (h : '0' ≤ c ∧ c ≤ '9') : c ≠ '+' ∧ c ≠ '-' := by
  constructor
  · rintro rfl
    exact absurd h.1 (by decide)
  · rintro rfl
    exact absurd h.1 (by decide)

/-- The texts that `ParseInt` accepts are the base-10 signed 64-bit integers,
and the number it returns is the one they write. -/
theorem ParseInt_ok_iff (s : String) (n : Int) :
    ParseInt s = Except.ok n ↔ IsInt64Decimal s n := by
  constructor
  · intro h
    cases hs : s.data with
    | nil =>
      unfold ParseInt at h
      rw [hs] at h
      cases h
    | cons c cs =>
      cases hpu : ParseUint (if c = '+' ∨ c = '-' then cs else c :: cs) with
      | error e =>
        rw [ParseInt_of_error s c cs hs e hpu] at h
        cases h
      | ok un =>
        rw [ParseInt_of_ok s c cs hs un hpu] at h
        obtain ⟨hne, hd, hv, hmax⟩ := (ParseUint_ok_iff _ _).mp hpu
        by_cases hminus : c = '-'
        · subst hminus
          simp only [or_true, if_true] at hne hd hv
          simp only [decide_True, Bool.not_true, Bool.false_and, Bool.true_and, if_true,
            Bool.false_eq_true, if_false, decide_eq_true_eq] at h
          by_cases hr : un > 2 ^ 63
          · rw [if_pos hr] at h
            cases h
          · rw [if_neg hr] at h
            have hn : -(un : Int) = n := by injection h
            refine ⟨cs, hne, hd, Or.inr ⟨hs, ?_⟩, ?_, ?_⟩
            · rw [← hn, hv]
            · rw [← hn]; omega
            · rw [← hn]; omega
        · simp only [hminus, decide_False, Bool.not_false, Bool.true_and, Bool.false_and,
            Bool.false_eq_true, if_false, decide_eq_true_eq, or_false] at h hne hd hv
          by_cases hr : un ≥ 2 ^ 63
          · rw [if_pos hr] at h
            cases h
          · rw [if_neg hr] at h
            have hn : (un : Int) = n := by injection h
            by_cases hplus : c = '+'
            · subst hplus
              simp only [if_true] at hne hd hv
              refine ⟨cs, hne, hd, Or.inl ⟨Or.inr hs, ?_⟩, ?_, ?_⟩
              · rw [← hn, hv]
              · rw [← hn]; omega
              · rw [← hn]; omega
            · simp only [hplus, if_false] at hne hd hv
              refine ⟨c :: cs, hne, hd, Or.inl ⟨Or.inl hs, ?_⟩, ?_, ?_⟩
              · rw [← hn, hv]
              · rw [← hn]; omega
              · rw [← hn]; omega
  · rintro ⟨digits, hne, hd, hcase, hlo, hhi⟩
    rcases hcase with ⟨hdata, hn⟩ | ⟨hdata, hn⟩
    · have hmax : decimalValue 0 digits ≤ maxUint64 := by
        rw [maxUint64_eq]; omega
      have hpu : ParseUint digits = Except.ok (decimalValue 0 digits) :=
        (ParseUint_ok_iff _ _).mpr ⟨hne, hd, rfl, hmax⟩
      have hr : ¬ decimalValue 0 digits ≥ 2 ^ 63 := by omega
      rcases hdata with hdata | hdata
      · obtain ⟨c, cs, rfl⟩ : ∃ c cs, digits = c :: cs := by
          cases digits with
          | nil => exact absurd rfl hne
          | cons c cs => exact ⟨c, cs, rfl⟩
        obtain ⟨hp, hm⟩ := digit_not_sign c (hd c (List.mem_cons_self _ _))
        have hpu2 : ParseUint (if c = '+' ∨ c = '-' then cs else c :: cs) =
            Except.ok (decimalValue 0 (c :: cs)) := by
          simp only [hp, hm, or_self, if_false]
          exact hpu
        rw [ParseInt_of_ok s c cs hdata _ hpu2]
        simp only [hm, decide_False, Bool.not_false, Bool.true_and, Bool.false_and,
          Bool.false_eq_true, if_false, decide_eq_true_eq]
        rw [if_neg hr, hn]
      · have hpu2 : ParseUint (if '+' = '+' ∨ '+' = '-' then digits else '+' :: digits) =
            Except.ok (decimalValue 0 digits) := by
          simp only [true_or, if_true]
          exact hpu
        rw [ParseInt_of_ok s '+' digits hdata _ hpu2]
        have hm : ¬ ('+' = '-') := by decide
        simp only [hm, decide_False, Bool.not_false, Bool.true_and, Bool.false_and,
          Bool.false_eq_true, if_false, decide_eq_true_eq]
        rw [if_neg hr, hn]
    · have hmax : decimalValue 0 digits ≤ maxUint64 := by
        rw [maxUint64_eq]; omega
      have hpu : ParseUint digits = Except.ok (decimalValue 0 digits) :=
        (ParseUint_ok_iff _ _).mpr ⟨hne, hd, rfl, hmax⟩
      have hr : ¬ decimalValue 0 digits > 2 ^ 63 := by omega
      have hpu2 : ParseUint (if '-' = '+' ∨ '-' = '-' then digits else '-' :: digits) =
          Except.ok (decimalValue 0 digits) := by
        simp only [or_true, if_true]
        exact hpu
      rw [ParseInt_of_ok s '-' digits hdata _ hpu2]
      simp only [decide_True, Bool.not_true, Bool.false_and, Bool.true_and, if_true,
        Bool.false_eq_true, if_false, decide_eq_true_eq]
      rw [if_neg hr, hn]

end strconv

/-- The first component of a timestamp split on `.` is the part before its
first `.`. -/
theorem Split_dot_head (ts : String) :
    (strings.Split ts '.').getD 0 "" = beforeFirstDot ts := by
  unfold strings.Split beforeFirstDot
  rw [strings.splitChars_eq]
  rfl

theorem ParseTimestamp_of_ok (localOffset : Int) (ts : String) (n : Int)
    (h : strconv.ParseInt (beforeFirstDot ts) = Except.ok n) :
    (ParseTimestamp localOffset ts).time = Time.Unix localOffset n ∧
    (ParseTimestamp localOffset ts).err = none := by
  unfold ParseTimestamp
  simp only [Split_dot_head, h, and_self]

theorem ParseTimestamp_of_error (localOffset : Int) (ts : String) (e : NumError)
    (h : strconv.ParseInt (beforeFirstDot ts) = Except.error e) :
    (ParseTimestamp localOffset ts).time = Time.zero ∧
    (ParseTimestamp localOffset ts).err = some { ts := ts } := by
  unfold ParseTimestamp
  simp only [Split_dot_head, h, and_self]

/-- Claim C23: `ParseTimestamp(ts)` returns no error exactly when the part of
`ts` before its first `.` is a base-10 signed 64-bit integer; for such an
integer `n` it returns the time `n` seconds after the Unix epoch and no error;
otherwise it returns the zero time and the error `errBadTimestamp` of the whole
input, whose message is `unable to convert Slack timestamp`, the quoted input,
`to time.Time`; and two inputs with the same part before the first `.` parse to
the same time. -/
theorem parse_timestamp_integer_part (localOffset : Int) (Quote : String → String)
    (ts : String) :
    ((ParseTimestamp localOffset ts).err = none ↔
      ∃ n, IsInt64Decimal (beforeFirstDot ts) n) ∧
    (∀ n, IsInt64Decimal (beforeFirstDot ts) n →
      (ParseTimestamp localOffset ts).time = Time.Unix localOffset n ∧
      (ParseTimestamp localOffset ts).time.unixNano = n * 1000000000 ∧
      (ParseTimestamp localOffset ts).err = none) ∧
    ((¬ ∃ n, IsInt64Decimal (beforeFirstDot ts) n) →
      (ParseTimestamp localOffset ts).time = Time.zero ∧
      (ParseTimestamp localOffset ts).err = some { ts := ts } ∧
      errBadTimestamp.Error Quote { ts := ts } =
        "unable to convert Slack timestamp " ++ Quote ts ++ " to time.Time") ∧
    (∀ other : String, beforeFirstDot other = beforeFirstDot ts →
      (ParseTimestamp localOffset other).time = (ParseTimestamp localOffset ts).time ∧
      ((ParseTimestamp localOffset other).err = none ↔
        (ParseTimestamp localOffset ts).err = none)) := by
  have hok : ∀ (t : String) (n : Int), IsInt64Decimal (beforeFirstDot t) n →
      (ParseTimestamp localOffset t).time = Time.Unix localOffset n ∧
      (ParseTimestamp localOffset t).err = none := fun t n hn =>
    ParseTimestamp_of_ok localOffset t n ((strconv.ParseInt_ok_iff _ _).mpr hn)
  have herr : ∀ t : String, (¬ ∃ n, IsInt64Decimal (beforeFirstDot t) n) →
      (ParseTimestamp localOffset t).time = Time.zero ∧
      (ParseTimestamp localOffset t).err = some { ts := t } := by
    intro t hno
    cases hp : strconv.ParseInt (beforeFirstDot t) with
    | ok n => exact absurd ⟨n, (strconv.ParseInt_ok_iff _ _).mp hp⟩ hno
    | error e => exact ParseTimestamp_of_error localOffset t e hp
  refine ⟨⟨?_, ?_⟩, ?_, ?_, ?_⟩
  · intro hnone
    by_contra hno
    rw [(herr ts hno).2] at hnone
    cases hnone
  · rintro ⟨n, hn⟩
    exact (hok ts n hn).2
  · intro n hn
    obtain ⟨h1, h2⟩ := hok ts n hn
    exact ⟨h1, by rw [h1]; rfl, h2⟩
  · intro hno
    exact ⟨(herr ts hno).1, (herr ts hno).2, rfl⟩
  · intro other hsame
    by_cases hex : ∃ n, IsInt64Decimal (beforeFirstDot ts) n
    · obtain ⟨n, hn⟩ := hex
      obtain ⟨h1, h2⟩ := hok ts n hn
      obtain ⟨h3, h4⟩ := hok other n (by rw [hsame]; exact hn)
      rw [h1, h2, h3, h4]
      exact ⟨rfl, Iff.rfl⟩
    · obtain ⟨h1, h2⟩ := herr ts hex
      obtain ⟨h3, h4⟩ := herr other (by rw [hsame]; exact hex)
      rw [h1, h2, h3, h4]
      exact ⟨rfl, by simp⟩

/-- The cases of `TestParseTimestamp`: a timestamp with and without the part
after the `.` gives the same time, 1607050812 seconds after the epoch, and a
timestamp that starts with letters gives the error that quotes it. -/
theorem parse_timestamp_integer_part_witness :
    (ParseTimestamp 0 "1607050812.008800").time = Time.Unix 0 1607050812 ∧
    (ParseTimestamp 0 "1607050812.008800.abcd").time = (ParseTimestamp 0 "1607050812").time ∧
    (ParseTimestamp 0 "abcdef.008800").err = some { ts := "abcdef.008800" } ∧
    errBadTimestamp.Error quotePlain { ts := "abcdef.008800" } =
      "unable to convert Slack timestamp \"abcdef.008800\" to time.Time" :=
  ⟨((parse_timestamp_integer_part 0 quotePlain "1607050812.008800").2.1 1607050812
      ((strconv.ParseInt_ok_iff _ _).mp rfl)).1,
   ((parse_timestamp_integer_part 0 quotePlain "1607050812").2.2.2
      "1607050812.008800.abcd" rfl).1,
   ((parse_timestamp_integer_part 0 quotePlain "abcdef.008800").2.2.1
      (fun h => by
        obtain ⟨n, hn⟩ := h
        have h2 := (strconv.ParseInt_ok_iff _ _).mpr hn
        have h3 : strconv.ParseInt (beforeFirstDot "abcdef.008800") =
            Except.error NumError.ErrSyntax := rfl
        rw [h3] at h2
        cases h2)).2.1,
   rfl⟩

/-! ## Formatting a time -/

/-- Claim C26: `FormatTime` does not format its argument as UTC.  It writes the
clock and calendar of the location that the time value carries and puts the
letters `UTC` after them: the result is that of the time value in UTC whose
instant is moved by the offset of the location.  The time 1607050812 seconds
after the epoch, made by `time.Unix` in a process whose local location is one
hour east of UTC (which is what `ParseTimestamp` returns there for the
timestamp `1607050812.008800`), is formatted as `Fri Dec 4 2020 04:00:12 UTC`,
and the same instant in the location UTC as `Fri Dec 4 2020 03:00:12 UTC`. -/
theorem formatTime_writes_location_clock :
    (∀ d : Time, FormatTime d =
      FormatTime
        { unixNano := (d.unixNano.fdiv 1000000000 + d.offset) * 1000000000, offset := 0 }) ∧
    (Time.Unix 3600 1607050812).unixNano = (Time.Unix 3600 1607050812).UTC.unixNano ∧
    (ParseTimestamp 3600 "1607050812.008800").time = Time.Unix 3600 1607050812 ∧
    FormatTime (Time.Unix 3600 1607050812) = "Fri Dec 4 2020 04:00:12 UTC" ∧
    FormatTime (Time.Unix 3600 1607050812).UTC = "Fri Dec 4 2020 03:00:12 UTC" ∧
    FormatTime (Time.Unix 3600 1607050812) ≠ FormatTime (Time.Unix 3600 1607050812).UTC := by
  refine ⟨fun d => ?_, rfl, rfl, rfl, rfl, by decide⟩
  unfold FormatTime Time.Format
  simp only [add_zero]
  rw [Int.mul_fdiv_cancel _ (by decide)]

/-! ## Parsing flags -/

namespace FlagParse

/-- A call of `parseOne` that sees a flag leaves fewer arguments. -/
theorem parseOne_seen (Quote : String → String) (parseInt0 : String → Int × Option NumError)
    (st : FlagParse) (h : (parseOne Quote parseInt0 st).1 = true) :
    (parseOne Quote parseInt0 st).2.2.flagSet.args.length < st.flagSet.args.length := by
  have key : ∀ r : Bool × Option FlagError × FlagParse, r = parseOne Quote parseInt0 st →
      r.1 = true → r.2.2.flagSet.args.length < st.flagSet.args.length := by
    intro r hr
    unfold parseOne at hr
    dsimp only at hr
    repeat' split at hr
    all_goals subst hr
    all_goals try simp_all [failf, withArgs, withValue]
    all_goals omega
  exact key _ rfl h

/-- More fuel than there are arguments is enough: the loop of `Parse` gives the
same with any further fuel. -/
theorem parseLoop_fuel (Quote : String → String) (parseInt0 : String → Int × Option NumError)
    (fuel : Nat) (st : FlagParse) (h : st.flagSet.args.length < fuel) :
    parseLoop Quote parseInt0 (fuel + 1) st = parseLoop Quote parseInt0 fuel st := by
  induction fuel generalizing st with
  | zero => exact absurd h (Nat.not_lt_zero _)
  | succ n ih =>
    have hseen := parseOne_seen Quote parseInt0 st
    show (match parseOne Quote parseInt0 st with
      | (true, _, st1) => parseLoop Quote parseInt0 (n + 1) st1
      | (false, none, st1) => (none, st1)
      | (false, some err, st1) => (some err, st1)) =
      (match parseOne Quote parseInt0 st with
      | (true, _, st1) => parseLoop Quote parseInt0 n st1
      | (false, none, st1) => (none, st1)
      | (false, some err, st1) => (some err, st1))
    rcases hp : parseOne Quote parseInt0 st with ⟨seen, err, st1⟩
    rw [hp] at hseen
    cases seen with
    | true =>
      simp only
      exact ih st1 (by have := hseen rfl; simp only at this; omega)
    | false => cases err <;> rfl

end FlagParse

/-- Claim C21: `ParseFlags` returns the empty text when `Parse` returns no
error, the help buffer when it returns `ErrHelp`, and otherwise the name of the
flag set, `: failed to parse`, the quoted text and the error (the three cases
of `TestParseFlags` come out as the test expects).  The usage block does not
give the default of a flag: the line of a flag ends with the value the flag
holds when help is requested.  On the text `-foo -help`, with the boolean flag
`foo` whose default is false, the block reads `(Default: -foo true)`, while
the default recorded for the flag is still `false`. -/
theorem parse_flags_usage_shows_current_value :
    (∀ (Quote : String → String) (parseInt0 : String → Int × Option NumError) (text : String)
        (flagSet : FlagSet),
      ((flagSet.Parse Quote parseInt0 (strings.Split text ' ')).1 = none ∧
        (ParseFlags Quote parseInt0 text flagSet).text = "") ∨
      ((flagSet.Parse Quote parseInt0 (strings.Split text ' ')).1 = some FlagError.ErrHelp ∧
        (ParseFlags Quote parseInt0 text flagSet).text =
          (flagSet.Parse Quote parseInt0 (strings.Split text ' ')).2.helpBuffer) ∨
      (∃ msg, (flagSet.Parse Quote parseInt0 (strings.Split text ' ')).1 =
          some (FlagError.failure msg) ∧
        (ParseFlags Quote parseInt0 text flagSet).text =
          flagSet.name ++ ": failed to parse " ++ Quote text ++ ": " ++ msg)) ∧
    (ParseFlags quotePlain parseIntDecimal "-aaaa whatever"
        (testFlagSet "bad_parse_example")).text =
      "bad_parse_example: failed to parse \"-aaaa whatever\": " ++
        "flag provided but not defined: -aaaa" ∧
    (ParseFlags quotePlain parseIntDecimal "-help whatever" (testFlagSet "help_example")).text =
      ":speech_balloon: :bookmark_tabs: Usage of !*help_example*:\n" ++
        "\t`-foo`\tenable foobar (Default: `-foo false`)\n" ∧
    (ParseFlags quotePlain parseIntDecimal "-foo whatever" (testFlagSet "normal parse")).text =
      "" ∧
    (GoMap.get (ParseFlags quotePlain parseIntDecimal "-foo whatever"
        (testFlagSet "normal parse")).flagSet.formal "foo").map Flag.Value =
      some (FlagValue.boolValue true) ∧
    (ParseFlags quotePlain parseIntDecimal "-foo -help" (testFlagSet "help_example")).text =
      ":speech_balloon: :bookmark_tabs: Usage of !*help_example*:\n" ++
        "\t`-foo`\tenable foobar (Default: `-foo true`)\n" ∧
    (GoMap.get (ParseFlags quotePlain parseIntDecimal "-foo -help"
        (testFlagSet "help_example")).flagSet.formal "foo").map Flag.DefValue =
      some "false" := by
  refine ⟨fun Quote parseInt0 text flagSet => ?_, rfl, rfl, rfl, rfl, rfl, rfl⟩
  unfold ParseFlags
  rcases hp : flagSet.Parse Quote parseInt0 (strings.Split text ' ') with ⟨err, st⟩
  cases err with
  | none => exact Or.inl ⟨rfl, rfl⟩
  | some e =>
    cases e with
    | ErrHelp => exact Or.inr (Or.inl ⟨rfl, rfl⟩)
    | failure msg => exact Or.inr (Or.inr ⟨msg, rfl, rfl⟩)

/-! ## Handlers: a failure to parse the flags is a reply -/

/-- Claim C22: in each of the four handlers that parse flags (emoji, topics,
gis, mktheme), when `ParseFlags` returns a text that is not empty for the
argument text, `Run` returns that text as the Message, no reactions and no
error, whatever the run context and whatever the rest of `Run` does: the
message, the Storage and Slack are not read. -/
theorem flag_handlers_reply_parse_failure (Quote : String → String)
    (parseInt0 : String → Int × Option NumError)
    (rest : FlagSet → RunContext → RunResult × Option String)
    (text : String) (runCtx : RunContext) :
    ((ParseFlags Quote parseInt0 text emojiCmd.flagSet).text ≠ "" →
      emojiCmd.Run Quote parseInt0 rest text runCtx =
        ({ Message := (ParseFlags Quote parseInt0 text emojiCmd.flagSet).text, Reactji := [] },
          none)) ∧
    ((ParseFlags Quote parseInt0 text topicsCmd.flagSet).text ≠ "" →
      topicsCmd.Run Quote parseInt0 rest text runCtx =
        ({ Message := (ParseFlags Quote parseInt0 text topicsCmd.flagSet).text, Reactji := [] },
          none)) ∧
    ((ParseFlags Quote parseInt0 text gisCmd.flagSet).text ≠ "" →
      gisCmd.Run Quote parseInt0 rest text runCtx =
        ({ Message := (ParseFlags Quote parseInt0 text gisCmd.flagSet).text, Reactji := [] },
          none)) ∧
    ((ParseFlags Quote parseInt0 text mkthemeCmd.flagSet).text ≠ "" →
      mkthemeCmd.Run Quote parseInt0 rest text runCtx =
        ({ Message := (ParseFlags Quote parseInt0 text mkthemeCmd.flagSet).text,
           Reactji := [] }, none)) := by
  refine ⟨fun h => ?_, fun h => ?_, fun h => ?_, fun h => ?_⟩
  · simp only [emojiCmd.Run, if_pos h]
  · simp only [topicsCmd.Run, if_pos h]
  · simp only [gisCmd.Run, if_pos h]
  · simp only [mkthemeCmd.Run, if_pos h]

/-- The tests `TestRunParseErr` of emoji and topics, on the text `-hello bye`,
and a request for help to gis and mktheme. -/
theorem flag_handlers_reply_parse_failure_witness :
    emojiCmd.Run quotePlain parseIntDecimal restReached "-hello bye" emptyRunContext =
      ({ Message := "emoji: failed to parse \"-hello bye\": " ++
            "flag provided but not defined: -hello",
         Reactji := [] }, none) ∧
    topicsCmd.Run quotePlain parseIntDecimal restReached "-hello bye" emptyRunContext =
      ({ Message := "topics: failed to parse \"-hello bye\": " ++
            "flag provided but not defined: -hello",
         Reactji := [] }, none) ∧
    gisCmd.Run quotePlain parseIntDecimal restReached "-limit x cats" emptyRunContext =
      ({ Message := "gis: failed to parse \"-limit x cats\": " ++
            "invalid value \"x\" for flag -limit: parse error",
         Reactji := [] }, none) ∧
    mkthemeCmd.Run quotePlain parseIntDecimal restReached "-help" emptyRunContext =
      ({ Message := ":speech_balloon: :bookmark_tabs: Usage of !*mktheme*:\n" ++
            "\t`-palette`\tPalette type: [none, warm, happy, soft] (Default: `-palette warm`)\n",
         Reactji := [] }, none) :=
  ⟨(flag_handlers_reply_parse_failure quotePlain parseIntDecimal restReached "-hello bye"
      emptyRunContext).1 (by decide),
   (flag_handlers_reply_parse_failure quotePlain parseIntDecimal restReached "-hello bye"
      emptyRunContext).2.1 (by decide),
   (flag_handlers_reply_parse_failure quotePlain parseIntDecimal restReached "-limit x cats"
      emptyRunContext).2.2.1 (by decide),
   (flag_handlers_reply_parse_failure quotePlain parseIntDecimal restReached "-help"
      emptyRunContext).2.2.2 (by decide)⟩

end Gorfbot
